import Mathlib

/-!
# Bullseye facet imager: gridding and faceting

A shallow embedding of the convolution policies
(`bullseye_mo/algorithms/convolution_policies.h`), the baseline transform
(`bullseye_mo/algorithms/baseline_transform_policies.h`), the phase transform
(`bullseye_mo/gpu_algorithm/phase_transform_policies.h`) and the Romein-style
gridding kernel (`gpu_algorithm/templated_gridder.h`).

Conventions of the embedding:

* `std::size_t` is a natural number below `2 ^ 64`; every `size_t` addition and
  multiplication of the source is `size_add` / `size_mul` (reduced mod `2 ^ 64`).
* The floating point types (`uvw_base_type`, `convolution_base_type`, ...) are an
  arbitrary linearly ordered field `R` with a floor function (exact arithmetic);
  the definitions run on `ℚ` and the theorems hold on `ℝ` as well.
* The libm functions `cos`, `sin` and the constant `M_PI` are parameters of the
  definitions that use them.
* The calls a convolution policy makes to
  `gridding_policy_type::grid_polarization_terms` are recorded, in order, in a list.
-/

namespace imaging

/-! ## Machine integers -/

/-- Addition of two `std::size_t` values. -/
def size_add (a b : Nat) : Nat := (a + b) % 2 ^ 64

/-- Multiplication of two `std::size_t` values. -/
def size_mul (a b : Nat) : Nat := (a * b) % 2 ^ 64

/-- Conversion of a signed `long` to `std::size_t` (value mod `2 ^ 64`). -/
def to_size_t (z : Int) : Nat := (z % 2 ^ 64).toNat

section Rounding

variable {R : Type} [LinearOrderedField R] [FloorRing R]

/-- The call `std::lrint(x)` in the default rounding mode: the nearest integer, a tie
going to the even neighbour. -/
def lrint (x : R) : Int :=
  let f : Int := Int.floor x
  let d : R := x - (f : R)
  if d < 1 / 2 then f
  else if 1 / 2 < d then f + 1
  else if f % 2 = 0 then f else f + 1

/-- Conversion of a floating point value to `std::size_t`: the fraction is discarded
(truncation towards zero), then the integer is taken mod `2 ^ 64`. -/
def float_to_size_t (x : R) : Nat :=
  to_size_t (if 0 ≤ x then Int.floor x else Int.ceil x)

end Rounding

/-! ## Coordinates -/

/-- The struct `uvw_coord<uvw_base_type>`. -/
structure uvw_coord (R : Type) where
  _u : R
  _v : R
  _w : R

/-! ## Convolution policies -/

/-- One call `grid_polarization_terms(term_flat_index, vis, conv_weight)` made on the
active gridding policy. -/
structure grid_call (R V : Type) where
  term_flat_index : Nat
  vis : V
  conv_weight : R

/-- The private members shared by the three specialisations of `convolution_policy`
(the reference to the active gridding policy is replaced by the list of calls that
`convolve` returns). -/
structure convolution_policy (R : Type) where
  _nx : Nat
  _ny : Nat
  _grid_size_in_pixels : Nat
  _grid_u_centre : R
  _grid_v_centre : R
  _convolution_support : Nat
  _oversampling_factor : Nat
  _conv : Nat → R
  _conv_dim_size : Nat
  _conv_centre_offset : R
  _cube_chan_dim_step : Nat

section Convolution

variable {R : Type} [LinearOrderedField R] [FloorRing R] {V : Type}

/-- Constructor of `convolution_policy<..., convolution_precomputed_fir>`. The members
are initialised in declaration order, so `_conv_centre_offset` is computed from the
member `_convolution_support` (the full support `2 * convolution_support + 1`). -/
def convolution_policy.precomputed_fir (nx ny no_polarizations convolution_support
    oversampling_factor : Nat) (conv : Nat → R) : convolution_policy R :=
  let full_support := size_add (size_mul convolution_support 2) 1
  { _nx := nx
    _ny := ny
    _grid_size_in_pixels := size_mul nx ny
    _grid_u_centre := ((nx / 2 : Nat) : R)
    _grid_v_centre := ((ny / 2 : Nat) : R)
    _convolution_support := full_support
    _oversampling_factor := oversampling_factor
    _conv := conv
    _conv_dim_size := size_mul full_support oversampling_factor
    _conv_centre_offset := ((size_add full_support 2 : Nat) : R) / 2
    _cube_chan_dim_step := size_mul (size_mul nx ny) no_polarizations }

/-- Constructor of `convolution_policy<..., convolution_on_the_fly_computed_fir>`:
`_conv_centre_offset` is the half support passed in. -/
def convolution_policy.on_the_fly_computed_fir (nx ny no_polarizations
    convolution_support oversampling_factor : Nat) (conv : Nat → R) :
    convolution_policy R :=
  let full_support := size_add (size_mul convolution_support 2) 1
  { _nx := nx
    _ny := ny
    _grid_size_in_pixels := size_mul nx ny
    _grid_u_centre := ((nx / 2 : Nat) : R)
    _grid_v_centre := ((ny / 2 : Nat) : R)
    _convolution_support := full_support
    _oversampling_factor := oversampling_factor
    _conv := conv
    _conv_dim_size := size_mul full_support oversampling_factor
    _conv_centre_offset := (convolution_support : R)
    _cube_chan_dim_step := size_mul (size_mul nx ny) no_polarizations }

/-- Constructor of `convolution_policy<..., convolution_nn>` (`facet_id` is unused). -/
def convolution_policy.nn (nx ny no_polarizations convolution_support
    oversampling_factor : Nat) (conv : Nat → R) (_facet_id : Nat) :
    convolution_policy R :=
  let full_support := size_add (size_mul convolution_support 2) 1
  { _nx := nx
    _ny := ny
    _grid_size_in_pixels := size_mul nx ny
    _grid_u_centre := ((nx / 2 : Nat) : R)
    _grid_v_centre := ((ny / 2 : Nat) : R)
    _convolution_support := full_support
    _oversampling_factor := oversampling_factor
    _conv := conv
    _conv_dim_size := size_mul full_support oversampling_factor
    _conv_centre_offset := ((size_add full_support 2 : Nat) : R) / 2
    _cube_chan_dim_step := size_mul (size_mul nx ny) no_polarizations }

/-- The local `translated_grid_u` of the pre-computed FIR and on-the-fly `convolve`. -/
def translated_grid_u (p : convolution_policy R) (uvw : uvw_coord R) : R :=
  uvw._u + p._grid_u_centre - p._conv_centre_offset

/-- The local `translated_grid_v` of the pre-computed FIR and on-the-fly `convolve`. -/
def translated_grid_v (p : convolution_policy R) (uvw : uvw_coord R) : R :=
  uvw._v + p._grid_v_centre - p._conv_centre_offset

/-- The local `disc_grid_u`: `std::lrint` of the translated coordinate, stored in a
`std::size_t`. -/
def disc_grid_u (p : convolution_policy R) (uvw : uvw_coord R) : Nat :=
  to_size_t (lrint (translated_grid_u p uvw))

/-- The local `disc_grid_v`. -/
def disc_grid_v (p : convolution_policy R) (uvw : uvw_coord R) : Nat :=
  to_size_t (lrint (translated_grid_v p uvw))

/-- The local `frac_u = -translated_grid_u + (uvw_base_type)disc_grid_u`. -/
def frac_u (p : convolution_policy R) (uvw : uvw_coord R) : R :=
  -translated_grid_u p uvw + ((disc_grid_u p uvw : Nat) : R)

/-- The local `frac_v = -translated_grid_v + (uvw_base_type)disc_grid_v`. -/
def frac_v (p : convolution_policy R) (uvw : uvw_coord R) : R :=
  -translated_grid_v p uvw + ((disc_grid_v p uvw : Nat) : R)

/-- The edge test shared by the three `convolve` bodies
(`disc_grid_v + _convolution_support >= _ny || ... || disc_grid_u >= _nx`), on the
discretised position `(du, dv)`. -/
def edge_test (p : convolution_policy R) (du dv : Nat) : Bool :=
  decide (p._ny ≤ size_add dv p._convolution_support) ||
  decide (p._nx ≤ size_add du p._convolution_support) ||
  decide (p._ny ≤ dv) || decide (p._nx ≤ du)

/-- The inner loop of the pre-computed FIR `convolve`
(`for (sup_u = 1; sup_u <= _convolution_support; ++sup_u)`): `remaining` iterations are
left, `sup_u` and `conv_u` are the loop variables, `st` holds `accum` and the calls
made so far. -/
def fir_inner_loop (p : convolution_policy R) (vis : V)
    (chan_offset du convolved_grid_v : Nat) (conv_v_weight : R) :
    Nat → Nat → Nat → R × List (grid_call R V) → R × List (grid_call R V)
  | 0, _, _, st => st
  | remaining + 1, sup_u, conv_u, st =>
    let convolved_grid_u := size_add du sup_u
    let conv_u_weight := p._conv conv_u
    let grid_flat_index := size_add convolved_grid_v convolved_grid_u
    let conv_weight := conv_u_weight * conv_v_weight
    fir_inner_loop p vis chan_offset du convolved_grid_v conv_v_weight remaining
      (sup_u + 1) (size_add conv_u p._oversampling_factor)
      (st.1 + conv_weight,
        st.2 ++ [⟨size_add chan_offset grid_flat_index, vis, conv_weight⟩])

/-- The outer loop of the pre-computed FIR `convolve`
(`for (sup_v = 1; sup_v <= _convolution_support; ++sup_v)`), with the loop variables
`conv_v` and `convolved_grid_v`; `conv_u0` is the value `(frac_u + 1) * O` that
`conv_u` is reset to at each iteration. -/
def fir_outer_loop (p : convolution_policy R) (vis : V) (chan_offset du conv_u0 : Nat) :
    Nat → Nat → Nat → R × List (grid_call R V) → R × List (grid_call R V)
  | 0, _, _, st => st
  | remaining + 1, conv_v, convolved_grid_v, st =>
    let conv_v_weight := p._conv conv_v
    let st1 := fir_inner_loop p vis chan_offset du convolved_grid_v conv_v_weight
      p._convolution_support 1 conv_u0 st
    fir_outer_loop p vis chan_offset du conv_u0 remaining
      (size_add conv_v p._oversampling_factor) (size_add convolved_grid_v p._ny) st1

/-- The method `convolve` of `convolution_policy<..., convolution_precomputed_fir>`:
the returned pair is the accumulated weight and the calls made to
`grid_polarization_terms`. -/
def convolve_precomputed_fir (p : convolution_policy R) (uvw : uvw_coord R) (vis : V)
    (no_grids_to_offset : Nat) (_facet_id : Nat) : R × List (grid_call R V) :=
  let chan_offset := size_mul no_grids_to_offset p._cube_chan_dim_step
  let du := disc_grid_u p uvw
  let dv := disc_grid_v p uvw
  if edge_test p du dv then (0, [])
  else
    let conv_v := float_to_size_t ((frac_v p uvw + 1) * (p._oversampling_factor : R))
    let conv_u0 := float_to_size_t ((frac_u p uvw + 1) * (p._oversampling_factor : R))
    let convolved_grid_v := size_mul (size_add dv 1) p._ny
    fir_outer_loop p vis chan_offset du conv_u0 p._convolution_support conv_v
      convolved_grid_v (0, [])

/-- The lambda `convolve` inside the on-the-fly policy: the unnormalised sinc with the
removable singularity at 0 set to 1. -/
def convolve_lambda (sin : R → R) (pi : R) (x : R) : R :=
  if x ≠ 0 then sin (pi * x) / (pi * x) else 1

/-- The inner loop of the on-the-fly `convolve`
(`for (sup_u = 0; sup_u < _convolution_support; ++sup_u)`). -/
def otf_inner_loop (sin : R → R) (pi : R) (p : convolution_policy R) (vis : V)
    (chan_offset du convolved_grid_v : Nat) (conv_v fu : R) :
    Nat → Nat → R × List (grid_call R V) → R × List (grid_call R V)
  | 0, _, st => st
  | remaining + 1, sup_u, st =>
    let convolved_grid_u := size_add du sup_u
    let conv_u : R := (sup_u : R) - p._conv_centre_offset + fu
    let grid_flat_index := size_add (size_mul convolved_grid_v p._ny) convolved_grid_u
    let conv_weight := convolve_lambda sin pi conv_v * convolve_lambda sin pi conv_u
    otf_inner_loop sin pi p vis chan_offset du convolved_grid_v conv_v fu remaining
      (sup_u + 1)
      (st.1 + conv_weight,
        st.2 ++ [⟨size_add chan_offset grid_flat_index, vis, conv_weight⟩])

/-- The outer loop of the on-the-fly `convolve`
(`for (sup_v = 0; sup_v < _convolution_support; ++sup_v)`). -/
def otf_outer_loop (sin : R → R) (pi : R) (p : convolution_policy R) (vis : V)
    (chan_offset du dv : Nat) (fu fv : R) :
    Nat → Nat → R × List (grid_call R V) → R × List (grid_call R V)
  | 0, _, st => st
  | remaining + 1, sup_v, st =>
    let convolved_grid_v := size_add dv sup_v
    let conv_v : R := (sup_v : R) - p._conv_centre_offset + fv
    let st1 := otf_inner_loop sin pi p vis chan_offset du convolved_grid_v conv_v fu
      p._convolution_support 0 st
    otf_outer_loop sin pi p vis chan_offset du dv fu fv remaining (sup_v + 1) st1

/-- The method `convolve` of
`convolution_policy<..., convolution_on_the_fly_computed_fir>` (the block guarded by
the static `output_filter`, which is `false`, is not executed). -/
def convolve_on_the_fly_computed_fir (sin : R → R) (pi : R) (p : convolution_policy R)
    (uvw : uvw_coord R) (vis : V) (no_grids_to_offset : Nat) (_facet_id : Nat) :
    R × List (grid_call R V) :=
  let chan_offset := size_mul no_grids_to_offset p._cube_chan_dim_step
  let du := disc_grid_u p uvw
  let dv := disc_grid_v p uvw
  if edge_test p du dv then (0, [])
  else
    otf_outer_loop sin pi p vis chan_offset du dv (frac_u p uvw) (frac_v p uvw)
      p._convolution_support 0 (0, [])

/-- The local `disc_grid_u` of the nearest-neighbour `convolve`: no centring offset is
subtracted. -/
def nn_disc_grid_u (p : convolution_policy R) (uvw : uvw_coord R) : Nat :=
  to_size_t (lrint (uvw._u + p._grid_u_centre))

/-- The local `disc_grid_v` of the nearest-neighbour `convolve`. -/
def nn_disc_grid_v (p : convolution_policy R) (uvw : uvw_coord R) : Nat :=
  to_size_t (lrint (uvw._v + p._grid_v_centre))

/-- The method `convolve` of `convolution_policy<..., convolution_nn>`. -/
def convolve_nn (p : convolution_policy R) (uvw : uvw_coord R) (vis : V)
    (no_grids_to_offset : Nat) (_facet_id : Nat) : R × List (grid_call R V) :=
  let chan_offset := size_mul no_grids_to_offset p._cube_chan_dim_step
  let du := nn_disc_grid_u p uvw
  let dv := nn_disc_grid_v p uvw
  if edge_test p du dv then (0, [])
  else
    let grid_flat_index := size_add (size_mul dv p._ny) du
    (1, [⟨size_add chan_offset grid_flat_index, vis, 1⟩])

end Convolution

/-! ## Baseline transform -/

/-- The class `baseline_transform_policy<uvw_base_type, transform_facet_lefthanded_ra_dec>`:
its only member is the array `_baseline_transform_matrix[9]`. -/
structure baseline_transform_policy (R : Type) where
  _baseline_transform_matrix : Fin 9 → R

section BaselineTransform

variable {R : Type} [CommRing R]

/-- The matrix `TT_transpose` filled in by the left-handed constructor; the arguments
are the right ascensions and declinations in radians (the `getValue("rad")` of the
`casa::Quantity` arguments). -/
def TT_transpose (cos sin : R → R) (old_phase_centre_ra old_phase_centre_dec
    new_phase_centre_ra new_phase_centre_dec : R) : Matrix (Fin 3) (Fin 3) R :=
  let d_ra := new_phase_centre_ra - old_phase_centre_ra
  let c_d_ra := cos d_ra
  let s_d_ra := sin d_ra
  let c_new_dec := cos new_phase_centre_dec
  let c_old_dec := cos old_phase_centre_dec
  let s_new_dec := sin new_phase_centre_dec
  let s_old_dec := sin old_phase_centre_dec
  !![c_d_ra, s_old_dec * s_d_ra, -c_old_dec * s_d_ra;
     -s_new_dec * s_d_ra, s_new_dec * s_old_dec * c_d_ra + c_new_dec * c_old_dec,
       -c_old_dec * s_new_dec * c_d_ra + c_new_dec * s_old_dec;
     c_new_dec * s_d_ra, -c_new_dec * s_old_dec * c_d_ra + s_new_dec * c_old_dec,
       c_new_dec * c_old_dec * c_d_ra + s_new_dec * s_old_dec]

/-- The matrix `z_rot_transpose` of the left-handed constructor. -/
def z_rot_transpose (cos sin : R → R) (facet_original_rotation : R) :
    Matrix (Fin 3) (Fin 3) R :=
  let c_orig_rotation := cos facet_original_rotation
  let s_orig_rotation := sin facet_original_rotation
  !![c_orig_rotation, s_orig_rotation, 0;
     -s_orig_rotation, c_orig_rotation, 0;
     0, 0, 1]

/-- The matrix `z_rot` of the left-handed constructor. -/
def z_rot (cos sin : R → R) (facet_new_rotation : R) : Matrix (Fin 3) (Fin 3) R :=
  let c_new_rotation := cos facet_new_rotation
  let s_new_rotation := sin facet_new_rotation
  !![c_new_rotation, -s_new_rotation, 0;
     s_new_rotation, c_new_rotation, 0;
     0, 0, 1]

/-- The local `full_transform = prod(z_rot, prod(TT_transpose, z_rot_transpose))`. -/
def full_transform (cos sin : R → R) (facet_new_rotation facet_original_rotation
    old_phase_centre_ra old_phase_centre_dec new_phase_centre_ra
    new_phase_centre_dec : R) : Matrix (Fin 3) (Fin 3) R :=
  z_rot cos sin facet_new_rotation *
    (TT_transpose cos sin old_phase_centre_ra old_phase_centre_dec new_phase_centre_ra
        new_phase_centre_dec *
      z_rot_transpose cos sin facet_original_rotation)

/-- Constructor of the left-handed `baseline_transform_policy`: the row-major storage
of `full_transform` is copied into `_baseline_transform_matrix`. -/
def baseline_transform_policy.lefthanded_ra_dec (cos sin : R → R)
    (facet_new_rotation facet_original_rotation old_phase_centre_ra
    old_phase_centre_dec new_phase_centre_ra new_phase_centre_dec : R) :
    baseline_transform_policy R :=
  { _baseline_transform_matrix := fun k =>
      full_transform cos sin facet_new_rotation facet_original_rotation
        old_phase_centre_ra old_phase_centre_dec new_phase_centre_ra
        new_phase_centre_dec
        ⟨k.val / 3, Nat.div_lt_of_lt_mul k.isLt⟩ ⟨k.val % 3, Nat.mod_lt _ (by decide)⟩ }

/-- The method `transform` of the left-handed policy (the reference argument is
returned as the result). -/
def baseline_transform_policy.transform (p : baseline_transform_policy R)
    (baseline : uvw_coord R) : uvw_coord R :=
  let old := baseline
  { _u := p._baseline_transform_matrix 0 * old._u + p._baseline_transform_matrix 1 * old._v
      + p._baseline_transform_matrix 2 * old._w
    _v := p._baseline_transform_matrix (0 + 3) * old._u
      + p._baseline_transform_matrix (1 + 3) * old._v
      + p._baseline_transform_matrix (2 + 3) * old._w
    _w := p._baseline_transform_matrix (0 + 6) * old._u
      + p._baseline_transform_matrix (1 + 6) * old._v
      + p._baseline_transform_matrix (2 + 6) * old._w }

/-- The matrix `T(RA, D)` as the comment of the constructor (and the specification)
writes it. -/
def T_spec (cos sin : R → R) (ra d : R) : Matrix (Fin 3) (Fin 3) R :=
  !![cos ra, -sin ra, 0;
     -sin d * sin ra, -sin d * cos ra, cos d;
     cos d * sin ra, cos d * cos ra, sin d]

/-- The rotation `Z(a)` about the w axis as the specification writes it. -/
def Z_spec (cos sin : R → R) (a : R) : Matrix (Fin 3) (Fin 3) R :=
  !![cos a, -sin a, 0;
     sin a, cos a, 0;
     0, 0, 1]

end BaselineTransform

/-! ## Phase transform -/

/-- The struct `lmn_coord`. -/
structure lmn_coord (R : Type) where
  _l : R
  _m : R
  _n : R

/-- Modelled from the spec: the class `basic_complex<T>` of `cu_basic_complex.h` (not
under src/), a complex number given by its real and imaginary parts. -/
structure basic_complex (R : Type) where
  _real : R
  _imag : R

/-- The struct `vec1<T>` of `cu_vec.h`: a single-correlation record. -/
structure vec1 (T : Type) where
  _x : T

/-- The struct `vec2<T>` of `cu_vec.h`: a dual-correlation record. -/
structure vec2 (T : Type) where
  _x : T
  _y : T

/-- The struct `vec4<T>` of `cu_vec.h`: a quad-correlation record. -/
structure vec4 (T : Type) where
  _x : T
  _y : T
  _z : T
  _w : T

section PhaseTransform

variable {R : Type} [Field R]

/-- Modelled from the spec: the product of two `basic_complex` values (`operator*=` of
`cu_basic_complex.h`, not under src/), the product of complex numbers. -/
def basic_complex.mul (a b : basic_complex R) : basic_complex R :=
  { _real := a._real * b._real - a._imag * b._imag
    _imag := a._real * b._imag + a._imag * b._real }

/-- Modelled from the spec: the sum of two `basic_complex` values. -/
def basic_complex.add (a b : basic_complex R) : basic_complex R :=
  { _real := a._real + b._real, _imag := a._imag + b._imag }

/-- Modelled from the spec: a `basic_complex` value scaled by a real weight. -/
def basic_complex.scale (a : basic_complex R) (w : R) : basic_complex R :=
  { _real := a._real * w, _imag := a._imag * w }

/-- Modelled from the spec: the macro `ARCSEC_TO_RAD` of `cu_common.h` (not under
src/): the number of radians in one arcsecond, `pi / (180 * 3600)`. -/
def ARCSEC_TO_RAD (pi : R) : R := pi / (180 * 3600)

/-- The method `compute_delta_lmn` of
`phase_transform_policy<enable_faceting_phase_shift>`; `arcsec_to_rad` is the value of
the macro `ARCSEC_TO_RAD`. All three fields of `result` are assigned. -/
def compute_delta_lmn (cos sin : R → R) (arcsec_to_rad : R)
    (old_phase_centre_ra old_phase_centre_dec new_phase_centre_ra
    new_phase_centre_dec : R) : lmn_coord R :=
  let d_ra := (new_phase_centre_ra - old_phase_centre_ra) * arcsec_to_rad
  let d_dec := (new_phase_centre_dec - old_phase_centre_dec) * arcsec_to_rad
  let c_d_dec := cos d_dec
  let s_d_dec := sin d_dec
  let s_d_ra := sin d_ra
  let c_d_ra := cos d_ra
  { _l := -c_d_dec * s_d_ra
    _m := -s_d_dec
    _n := 1 - c_d_dec * c_d_ra }

/-- The local `phase_shift_term(cos(x), sin(x))` of the enabled `apply_phase_transform`,
with `x = 2 * M_PI * (u * l + v * m + w * n)`. -/
def phase_shift_term (cos sin : R → R) (pi : R) (delta_lmn : lmn_coord R)
    (uvw : uvw_coord R) : basic_complex R :=
  let x := 2 * pi * (uvw._u * delta_lmn._l + uvw._v * delta_lmn._m + uvw._w * delta_lmn._n)
  { _real := cos x, _imag := sin x }

/-- The enabled `apply_phase_transform` on a `vec1` record. -/
def apply_phase_transform_vec1 (cos sin : R → R) (pi : R) (delta_lmn : lmn_coord R)
    (uvw : uvw_coord R) (single_correlation : vec1 (basic_complex R)) :
    vec1 (basic_complex R) :=
  let t := phase_shift_term cos sin pi delta_lmn uvw
  { _x := single_correlation._x.mul t }

/-- The enabled `apply_phase_transform` on a `vec2` record. -/
def apply_phase_transform_vec2 (cos sin : R → R) (pi : R) (delta_lmn : lmn_coord R)
    (uvw : uvw_coord R) (duel_correlation : vec2 (basic_complex R)) :
    vec2 (basic_complex R) :=
  let t := phase_shift_term cos sin pi delta_lmn uvw
  { _x := duel_correlation._x.mul t, _y := duel_correlation._y.mul t }

/-- The enabled `apply_phase_transform` on a `vec4` record. -/
def apply_phase_transform_vec4 (cos sin : R → R) (pi : R) (delta_lmn : lmn_coord R)
    (uvw : uvw_coord R) (quad_correlation : vec4 (basic_complex R)) :
    vec4 (basic_complex R) :=
  let t := phase_shift_term cos sin pi delta_lmn uvw
  { _x := quad_correlation._x.mul t, _y := quad_correlation._y.mul t
    _z := quad_correlation._z.mul t, _w := quad_correlation._w.mul t }

/-- The `apply_phase_transform` overloads of
`phase_transform_policy<disable_faceting_phase_shift>`: the body is empty, so the
record passed by reference is left as it is (one definition for the three record
types). -/
def apply_phase_transform_disabled {C : Type} (_delta_lmn : lmn_coord R)
    (_uvw : uvw_coord R) (correlation : C) : C :=
  correlation

/-- The reading of a `basic_complex` over the reals as a complex number. -/
def basic_complex.toComplex (a : basic_complex ℝ) : ℂ := ⟨a._real, a._imag⟩

end PhaseTransform

/-! ## The gridding kernel -/

/-- Modelled from the spec: the fields of the struct `gridding_parameters`
(`gridding_parameters.h`, not under src/) that `templated_gridder` reads; the arrays
are functions of the index. -/
structure gridding_parameters (R : Type) where
  nx : Nat
  ny : Nat
  cell_size_x : R
  cell_size_y : R
  conv : Nat → R
  conv_support : Nat
  conv_oversample : Nat
  channel_count : Nat
  baseline_count : Nat
  baseline_starting_indexes : Nat → Nat
  spw_index_array : Nat → Nat
  enabled_channels : Nat → Bool
  channel_grid_indicies : Nat → Nat
  reference_wavelengths : Nat → R
  uvw_coords : Nat → uvw_coord R
  flagged_rows : Nat → Bool
  field_array : Nat → Nat
  imaging_field : Nat
  number_of_polarization_terms_being_gridded : Nat

/-- The three outputs of `read_corralation_data` for a record of `n` correlations:
the visibility, its per-correlation flags and its per-correlation weights. -/
structure correlation_data (R : Type) (n : Nat) where
  vis : Fin n → basic_complex R
  visibility_flagged : Fin n → Bool
  vis_weight : Fin n → R

/-- One call `grid_visibility(output_buffer, grid_size_in_floats, nx,
channel_grid_index, no_polarizations, pos_u, pos_v, accum)` of the active correlation
gridding policy. -/
structure grid_visibility_call (R : Type) (n : Nat) where
  grid_size_in_floats : Nat
  nx : Nat
  channel_grid_index : Nat
  no_polarizations : Nat
  pos_u : Nat
  pos_v : Nat
  accum : Fin n → basic_complex R

/-- The variables a thread of `templated_gridder` carries from one row to the next,
and the calls to `grid_visibility` made so far. -/
structure gridder_state (R : Type) (n : Nat) where
  my_grid_accum : Fin n → basic_complex R
  my_previous_u : Nat
  my_previous_v : Nat
  my_previous_spw : Nat
  deposits : List (grid_visibility_call R n)

section Gridder

variable {R : Type} [LinearOrderedField R] [FloorRing R] {n : Nat}

/-- Subtraction of two `std::size_t` values. -/
def size_sub (a b : Nat) : Nat := (a + (2 ^ 64 - b % 2 ^ 64)) % 2 ^ 64

/-- The call `rintf(x)`: `rintf` takes a `float`, so the argument is first converted to
single precision (`to_float`: the identity in the build in which `uvw_base_type` is
`float`, the rounding of a `double` to the nearest `float` in the build in which it is
`double`) and then rounded to the nearest integer (ties to even), which is returned as a
floating point value. -/
def rintf (to_float : R → R) (x : R) : R := ((lrint (to_float x) : Int) : R)

/-- The local `conv_full_support = (params.conv_support << 1) + 1`. -/
def conv_full_support (params : gridding_parameters R) : Nat :=
  size_add (size_mul params.conv_support 2) 1

/-- The local `conv_full_support_sq`. -/
def conv_full_support_sq (params : gridding_parameters R) : Nat :=
  size_mul (conv_full_support params) (conv_full_support params)

/-- The local `padded_conv_full_support = conv_full_support + 2`. -/
def padded_conv_full_support (params : gridding_parameters R) : Nat :=
  size_add (conv_full_support params) 2

/-- The local `my_baseline = tid / conv_full_support_sq`. -/
def my_baseline (params : gridding_parameters R) (tid : Nat) : Nat :=
  tid / conv_full_support_sq params

/-- The local `my_conv_v`. -/
def my_conv_v (params : gridding_parameters R) (tid : Nat) : Nat :=
  size_add ((tid % conv_full_support_sq params) / conv_full_support params) 1

/-- The local `my_conv_u`. -/
def my_conv_u (params : gridding_parameters R) (tid : Nat) : Nat :=
  size_add ((tid % conv_full_support_sq params) % conv_full_support params) 1

/-- The local `starting_row_index`. -/
def starting_row_index (params : gridding_parameters R) (tid : Nat) : Nat :=
  params.baseline_starting_indexes (my_baseline params tid)

/-- The local `baseline_num_timestamps`. -/
def baseline_num_timestamps (params : gridding_parameters R) (tid : Nat) : Nat :=
  size_sub (params.baseline_starting_indexes (size_add (my_baseline params tid) 1))
    (starting_row_index params tid)

/-- The local `u_scale = params.nx * params.cell_size_x * ARCSEC_TO_RAD`. -/
def u_scale (arcsec_to_rad : R) (params : gridding_parameters R) : R :=
  (params.nx : R) * params.cell_size_x * arcsec_to_rad

/-- The local `v_scale = -(params.ny * params.cell_size_y * ARCSEC_TO_RAD)`. -/
def v_scale (arcsec_to_rad : R) (params : gridding_parameters R) : R :=
  -((params.ny : R) * params.cell_size_y * arcsec_to_rad)

/-- The local `conv_offset = padded_conv_full_support / 2.0`. -/
def conv_offset (params : gridding_parameters R) : R :=
  (padded_conv_full_support params : R) / 2

/-- The local `grid_centre_offset_x = params.nx / 2.0 - conv_offset + my_conv_u`. -/
def grid_centre_offset_x (params : gridding_parameters R) (tid : Nat) : R :=
  (params.nx : R) / 2 - conv_offset params + (my_conv_u params tid : R)

/-- The local `grid_centre_offset_y = params.ny / 2.0 - conv_offset + my_conv_v`. -/
def grid_centre_offset_y (params : gridding_parameters R) (tid : Nat) : R :=
  (params.ny : R) / 2 - conv_offset params + (my_conv_v params tid : R)

/-- The local `grid_size_in_floats = params.nx * params.ny << 1`. -/
def grid_size_in_floats (params : gridding_parameters R) : Nat :=
  size_mul (size_mul params.nx params.ny) 2

/-- The array `shared_conv` after the copy loop of thread 0: the first
`conv_oversample * padded_conv_full_support` entries are those of `params.conv`, the
others keep the content `shared_mem` the shared memory had. -/
def shared_conv (params : gridding_parameters R) (shared_mem : Nat → R) (x : Nat) : R :=
  if x < size_mul params.conv_oversample (padded_conv_full_support params) then
    params.conv x
  else shared_mem x

/-- The local `row = starting_row_index + t`. -/
def row_of (params : gridding_parameters R) (tid t : Nat) : Nat :=
  size_add (starting_row_index params tid) t

/-- The local `flat_indexed_spw_channel = spw * params.channel_count + c` of a row. -/
def flat_indexed_spw_channel (params : gridding_parameters R) (row c : Nat) : Nat :=
  size_add (size_mul (params.spw_index_array row) params.channel_count) c

/-- The local `channel_enabled` of a row and channel. -/
def channel_enabled (params : gridding_parameters R) (row c : Nat) : Bool :=
  params.enabled_channels (flat_indexed_spw_channel params row c)

/-- The local `channel_grid_index` of a row and channel. -/
def channel_grid_index (params : gridding_parameters R) (row c : Nat) : Nat :=
  params.channel_grid_indicies (flat_indexed_spw_channel params row c)

/-- The local `row_is_in_field_being_imaged`. -/
def row_is_in_field_being_imaged (params : gridding_parameters R) (row : Nat) : Bool :=
  decide (params.field_array row = params.imaging_field)

/-- The local `vis_flagged = !(visibility_flagged || row_flagged) && channel_enabled &&
row_is_in_field_being_imaged`, correlation by correlation. -/
def vis_flagged (params : gridding_parameters R)
    (read_corralation_data : Nat → Nat → Nat → correlation_data R n) (row c : Nat) :
    Fin n → Bool :=
  fun k =>
    !((read_corralation_data row (params.spw_index_array row) c).visibility_flagged k
        || params.flagged_rows row)
      && channel_enabled params row c && row_is_in_field_being_imaged params row

/-- The composition `vector_promotion<int, visibility_base_type>(vector_promotion<bool,
int>(b))` on one component: `true` becomes 1 and `false` becomes 0. -/
def vector_promotion (b : Bool) : R := if b then 1 else 0

/-- The local `combined_vis_weight = vis_weight * promoted vis_flagged`, correlation by
correlation. -/
def combined_vis_weight (params : gridding_parameters R)
    (read_corralation_data : Nat → Nat → Nat → correlation_data R n) (row c : Nat) :
    Fin n → R :=
  fun k =>
    (read_corralation_data row (params.spw_index_array row) c).vis_weight k
      * vector_promotion (vis_flagged params read_corralation_data row c k)

/-- The local `cont_current_u` of a row: the scaled `u` plus `grid_centre_offset_x`. -/
def cont_current_u (arcsec_to_rad : R) (params : gridding_parameters R)
    (tid row c : Nat) : R :=
  (params.uvw_coords row)._u *
      (u_scale arcsec_to_rad params *
        (1 / params.reference_wavelengths (flat_indexed_spw_channel params row c)))
    + grid_centre_offset_x params tid

/-- The local `cont_current_v` of a row. -/
def cont_current_v (arcsec_to_rad : R) (params : gridding_parameters R)
    (tid row c : Nat) : R :=
  (params.uvw_coords row)._v *
      (v_scale arcsec_to_rad params *
        (1 / params.reference_wavelengths (flat_indexed_spw_channel params row c)))
    + grid_centre_offset_y params tid

/-- The local `my_current_u = rintf(cont_current_u)`, stored in a `size_t`. -/
def my_current_u (to_float : R → R) (arcsec_to_rad : R) (params : gridding_parameters R)
    (tid row c : Nat) : Nat :=
  float_to_size_t (rintf to_float (cont_current_u arcsec_to_rad params tid row c))

/-- The local `my_current_v = rintf(cont_current_v)`, stored in a `size_t`. -/
def my_current_v (to_float : R → R) (arcsec_to_rad : R) (params : gridding_parameters R)
    (tid row c : Nat) : Nat :=
  float_to_size_t (rintf to_float (cont_current_v arcsec_to_rad params tid row c))

/-- The local `closest_conv_u = frac_u * padded_conv_full_support + my_conv_u`, where
`frac_u = (-cont_current_u + my_current_u) * params.conv_oversample` is stored in a
`size_t`. -/
def closest_conv_u (to_float : R → R) (arcsec_to_rad : R) (params : gridding_parameters R)
    (tid row c : Nat) : Nat :=
  let frac : Nat := float_to_size_t
    ((-cont_current_u arcsec_to_rad params tid row c
        + (my_current_u to_float arcsec_to_rad params tid row c : R))
      * (params.conv_oversample : R))
  size_add (size_mul frac (padded_conv_full_support params)) (my_conv_u params tid)

/-- The local `closest_conv_v`. -/
def closest_conv_v (to_float : R → R) (arcsec_to_rad : R) (params : gridding_parameters R)
    (tid row c : Nat) : Nat :=
  let frac : Nat := float_to_size_t
    ((-cont_current_v arcsec_to_rad params tid row c
        + (my_current_v to_float arcsec_to_rad params tid row c : R))
      * (params.conv_oversample : R))
  size_add (size_mul frac (padded_conv_full_support params)) (my_conv_v params tid)

/-- The edge test of the flush on a change of position (lines 103-104). -/
def flush_edge_test (params : gridding_parameters R) (prev_u prev_v : Nat) : Bool :=
  decide (size_add prev_v (conv_full_support params) < params.ny) &&
  decide (size_add prev_u (conv_full_support params) < params.nx) &&
  decide (prev_v < params.ny) && decide (prev_u < params.nx)

/-- The edge test of the flush on the last row (lines 126-127): its first conjunct
compares `my_previous_u + conv_full_support` with `params.ny`. -/
def last_flush_edge_test (params : gridding_parameters R) (prev_u prev_v : Nat) : Bool :=
  decide (size_add prev_u (conv_full_support params) < params.ny) &&
  decide (size_add prev_u (conv_full_support params) < params.nx) &&
  decide (prev_v < params.ny) && decide (prev_u < params.nx)

/-- The value `vis_type::zero()`. -/
def vis_zero : Fin n → basic_complex R := fun _ => ⟨0, 0⟩

/-- The term `vis * (combined_vis_weight * conv_weight)` that a row adds to the
accumulator, correlation by correlation. -/
def row_contribution (to_float : R → R) (arcsec_to_rad : R) (params : gridding_parameters R)
    (read_corralation_data : Nat → Nat → Nat → correlation_data R n)
    (shared_mem : Nat → R) (tid row c : Nat) : Fin n → basic_complex R :=
  let conv_weight : R :=
    shared_conv params shared_mem (closest_conv_u to_float arcsec_to_rad params tid row c)
      * shared_conv params shared_mem (closest_conv_v to_float arcsec_to_rad params tid row c)
  fun k =>
    ((read_corralation_data row (params.spw_index_array row) c).vis k).scale
      (combined_vis_weight params read_corralation_data row c k * conv_weight)

/-- The call to `grid_visibility` made at a flush with the accumulator `accum`. -/
def flush_call (params : gridding_parameters R) (grid_index prev_u prev_v : Nat)
    (accum : Fin n → basic_complex R) : grid_visibility_call R n :=
  { grid_size_in_floats := grid_size_in_floats params
    nx := params.nx
    channel_grid_index := grid_index
    no_polarizations := params.number_of_polarization_terms_being_gridded
    pos_u := prev_u
    pos_v := prev_v
    accum := accum }

/-- The body of the loop over the timestamps `t` of the baseline (lines 61-138), for
channel `c`. -/
def gridder_row_step (to_float : R → R) (arcsec_to_rad : R) (params : gridding_parameters R)
    (read_corralation_data : Nat → Nat → Nat → correlation_data R n)
    (shared_mem : Nat → R) (tid c : Nat) (st : gridder_state R n) (t : Nat) :
    gridder_state R n :=
  let row := row_of params tid t
  let spw := params.spw_index_array row
  let enabled := channel_enabled params row c
  let grid_index := channel_grid_index params row c
  let cur_u := my_current_u to_float arcsec_to_rad params tid row c
  let cur_v := my_current_v to_float arcsec_to_rad params tid row c
  -- if (t == 0) initialise the previous position and spectral window
  let st1 : gridder_state R n :=
    if t = 0 then
      { st with my_previous_u := cur_u, my_previous_v := cur_v, my_previous_spw := spw }
    else st
  -- flush on a change of position or spectral window
  let st2 : gridder_state R n :=
    if (cur_u ≠ st1.my_previous_u ∨ cur_v ≠ st1.my_previous_v ∨ st1.my_previous_spw ≠ spw)
        ∧ enabled = true then
      { my_grid_accum := vis_zero
        my_previous_u := cur_u
        my_previous_v := cur_v
        my_previous_spw := st1.my_previous_spw
        deposits :=
          if flush_edge_test params st1.my_previous_u st1.my_previous_v then
            st1.deposits ++
              [flush_call params grid_index st1.my_previous_u st1.my_previous_v
                st1.my_grid_accum]
          else st1.deposits }
    else st1
  -- multiply-add into the accumulator
  let st3 : gridder_state R n :=
    { st2 with
      my_grid_accum := fun k =>
        (st2.my_grid_accum k).add
          (row_contribution to_float arcsec_to_rad params read_corralation_data
            shared_mem tid row c k) }
  -- flush on the last row of the baseline
  if enabled = true ∧ t = size_sub (baseline_num_timestamps params tid) 1 then
    if last_flush_edge_test params st3.my_previous_u st3.my_previous_v then
      { st3 with
        deposits := st3.deposits ++
          [flush_call params grid_index st3.my_previous_u st3.my_previous_v
            st3.my_grid_accum] }
    else st3
  else st3

/-- The loop `for (t = 0; t < baseline_num_timestamps; ++t)` for channel `c`, started
with the zero accumulator and `my_previous_u = my_previous_v = my_previous_spw = 0`;
the result is the list of calls to `grid_visibility`. -/
def gridder_channel_loop (to_float : R → R) (arcsec_to_rad : R) (params : gridding_parameters R)
    (read_corralation_data : Nat → Nat → Nat → correlation_data R n)
    (shared_mem : Nat → R) (tid c : Nat) : List (grid_visibility_call R n) :=
  ((List.range (baseline_num_timestamps params tid)).foldl
    (gridder_row_step to_float arcsec_to_rad params read_corralation_data shared_mem tid c)
    { my_grid_accum := vis_zero, my_previous_u := 0, my_previous_v := 0,
      my_previous_spw := 0, deposits := [] }).deposits

/-- One thread `tid` of the kernel `templated_gridder`: the calls it makes to
`grid_visibility`, channel after channel. A thread with
`tid >= baseline_count * conv_full_support_sq` returns at once. -/
def templated_gridder (to_float : R → R) (arcsec_to_rad : R) (params : gridding_parameters R)
    (read_corralation_data : Nat → Nat → Nat → correlation_data R n)
    (shared_mem : Nat → R) (tid : Nat) : List (grid_visibility_call R n) :=
  if size_mul params.baseline_count (conv_full_support_sq params) ≤ tid then []
  else
    (List.range params.channel_count).flatMap
      (gridder_channel_loop to_float arcsec_to_rad params read_corralation_data shared_mem tid)

end Gridder

/-! ## The statements of the specification -/

/-- Edge containment as the specification states it: every flat index passed to
`grid_polarization_terms`, minus the plane offset, is below `nx * ny`. -/
def plane_contained {R V : Type} (nx ny chan_offset : Nat) (calls : List (grid_call R V)) :
    Prop :=
  ∀ c ∈ calls, c.term_flat_index - chan_offset < nx * ny

/-- The claimed `delta lmn` of the specification for radian-valued inputs: the formula
applied to the plain differences of the right ascensions and declinations. -/
def delta_lmn_spec {R : Type} [Field R] (cos sin : R → R)
    (ra_old dec_old ra_new dec_new : R) : lmn_coord R :=
  { _l := -cos (dec_new - dec_old) * sin (ra_new - ra_old)
    _m := -sin (dec_new - dec_old)
    _n := 1 - cos (dec_new - dec_old) * cos (ra_new - ra_old) }

/-- The phase factor of the specification, `cos x + i sin x` with
`x = 2 * pi * (u * dl + v * dm + w * dn)`, as a complex number. -/
def phase_factor_spec (cos sin : ℝ → ℝ) (pi : ℝ) (delta_lmn : lmn_coord ℝ)
    (uvw : uvw_coord ℝ) : ℂ :=
  ⟨cos (2 * pi * (uvw._u * delta_lmn._l + uvw._v * delta_lmn._m + uvw._w * delta_lmn._n)),
    sin (2 * pi * (uvw._u * delta_lmn._l + uvw._v * delta_lmn._m + uvw._w * delta_lmn._n))⟩

/-- A floating point value that `std::lrint` can round to a 64-bit `long`. -/
def in_long_range {R : Type} [LinearOrderedField R] (x : R) : Prop :=
  -(2 : R) ^ 63 ≤ x ∧ x < (2 : R) ^ 63

/-- The tap weight as the specification writes it, with the kernel index
`floor((f + 1) * O) + s * O` in each direction. -/
def fir_tap_weight_spec {R : Type} [LinearOrderedField R] [FloorRing R]
    (p : convolution_policy R) (uvw : uvw_coord R) (s_u s_v : Nat) : R :=
  p._conv (Nat.floor ((frac_v p uvw + 1) * (p._oversampling_factor : R))
      + s_v * p._oversampling_factor)
    * p._conv (Nat.floor ((frac_u p uvw + 1) * (p._oversampling_factor : R))
      + s_u * p._oversampling_factor)

/-- The translated coordinate as the specification writes it, with the centring offset
`(S + 2) / 2` for the half support `S`; `c` is the sample coordinate and `n` the grid
size in that direction. -/
def translated_spec {R : Type} [LinearOrderedField R] (n S : Nat) (c : R) : R :=
  c + (n : R) / 2 - ((S : R) + 2) / 2

/-- The sum of the `2 S + 1` kernel entries read with stride `O` from the phase `ph`:
`K[ph] + K[ph + O] + ... + K[ph + 2 S O]`. -/
def fir_phase_mass {R : Type} [LinearOrderedField R] (conv : Nat → R) (S O ph : Nat) : R :=
  ((List.range (2 * S + 1)).map (fun k => conv (ph + k * O))).sum

section KernelReads
variable {R : Type} [LinearOrderedField R] [FloorRing R]

/-- The function `sinc` of the specification: `sin t / t` for `t != 0` and 1 at 0. -/
def sinc_spec (sin : R → R) (t : R) : R := if t = 0 then 1 else sin t / t

/-- The subscripts of the reads `_conv[conv_u]` made by one run of the inner loop of the
pre-computed FIR `convolve` (the loop of `fir_inner_loop`, recording the subscript of
each read), appended to `reads`. -/
def fir_inner_reads (p : convolution_policy R) : Nat → Nat → List Nat → List Nat
  | 0, _, reads => reads
  | remaining + 1, conv_u, reads =>
    fir_inner_reads p remaining (size_add conv_u p._oversampling_factor) (reads ++ [conv_u])

/-- The subscripts of the reads `_conv[conv_v]` and `_conv[conv_u]` made by the outer loop
of the pre-computed FIR `convolve` (the loop of `fir_outer_loop`, recording the subscript
of each read), appended to `reads`. -/
def fir_outer_reads (p : convolution_policy R) (conv_u0 : Nat) :
    Nat → Nat → List Nat → List Nat
  | 0, _, reads => reads
  | remaining + 1, conv_v, reads =>
    fir_outer_reads p conv_u0 remaining (size_add conv_v p._oversampling_factor)
      (fir_inner_reads p p._convolution_support conv_u0 (reads ++ [conv_v]))

/-- The subscripts at which the pre-computed FIR `convolve` reads the kernel `_conv`, in
the order of the reads; a sample that fails the edge test returns before any read. -/
def fir_kernel_reads (p : convolution_policy R) (uvw : uvw_coord R) : List Nat :=
  if edge_test p (disc_grid_u p uvw) (disc_grid_v p uvw) then []
  else
    fir_outer_reads p
      (float_to_size_t ((frac_u p uvw + 1) * (p._oversampling_factor : R)))
      p._convolution_support
      (float_to_size_t ((frac_v p uvw + 1) * (p._oversampling_factor : R))) []

end KernelReads

section GridderSpec
variable {R : Type} [LinearOrderedField R] [FloorRing R] {n : Nat}

/-- The first part of the loop body (lines 95-99): at `t == 0` the previous position
and spectral window are set to those of the row. -/
def row_step_init (cur_u cur_v spw t : Nat) (st : gridder_state R n) : gridder_state R n :=
  if t = 0 then
    { st with my_previous_u := cur_u, my_previous_v := cur_v, my_previous_spw := spw }
  else st

/-- The second part of the loop body (lines 101-118): the flush on a change of position
or spectral window. -/
def row_step_flush (params : gridding_parameters R) (enabled : Bool)
    (grid_index cur_u cur_v spw : Nat) (st1 : gridder_state R n) : gridder_state R n :=
  if (cur_u ≠ st1.my_previous_u ∨ cur_v ≠ st1.my_previous_v ∨ st1.my_previous_spw ≠ spw)
      ∧ enabled = true then
    { my_grid_accum := vis_zero
      my_previous_u := cur_u
      my_previous_v := cur_v
      my_previous_spw := st1.my_previous_spw
      deposits :=
        if flush_edge_test params st1.my_previous_u st1.my_previous_v then
          st1.deposits ++
            [flush_call params grid_index st1.my_previous_u st1.my_previous_v
              st1.my_grid_accum]
        else st1.deposits }
  else st1

/-- The third part of the loop body (lines 120-122): the multiply-add of the row into
the accumulator. -/
def row_step_accumulate (contribution : Fin n → basic_complex R) (st2 : gridder_state R n) :
    gridder_state R n :=
  { st2 with my_grid_accum := fun k => (st2.my_grid_accum k).add (contribution k) }

/-- The last part of the loop body (lines 125-138): the flush on the last row of the
baseline; `last` is the value of `baseline_num_timestamps - 1`. -/
def row_step_last_flush (params : gridding_parameters R) (enabled : Bool)
    (grid_index t last : Nat) (st3 : gridder_state R n) : gridder_state R n :=
  if enabled = true ∧ t = last then
    if last_flush_edge_test params st3.my_previous_u st3.my_previous_v then
      { st3 with
        deposits := st3.deposits ++
          [flush_call params grid_index st3.my_previous_u st3.my_previous_v
            st3.my_grid_accum] }
    else st3
  else st3

/-- The state of a thread of `templated_gridder` after the loop over the timestamps of
its baseline for channel `c`; `gridder_channel_loop` is its list of deposits. -/
def gridder_channel_final_state (to_float : R → R) (arcsec_to_rad : R)
    (params : gridding_parameters R)
    (read_corralation_data : Nat → Nat → Nat → correlation_data R n)
    (shared_mem : Nat → R) (tid c : Nat) : gridder_state R n :=
  (List.range (baseline_num_timestamps params tid)).foldl
    (gridder_row_step to_float arcsec_to_rad params read_corralation_data shared_mem tid c)
    { my_grid_accum := vis_zero, my_previous_u := 0, my_previous_v := 0,
      my_previous_spw := 0, deposits := [] }

/-- The input visibilities multiplied by the complex scalar `a`: the visibility that
`read_corralation_data` returns is replaced by its product with `a`, the flags and the
weights are kept. -/
def scaled_visibilities (a : basic_complex R)
    (read_corralation_data : Nat → Nat → Nat → correlation_data R n) :
    Nat → Nat → Nat → correlation_data R n :=
  fun row spw c =>
    { vis := fun k => ((read_corralation_data row spw c).vis k).mul a
      visibility_flagged := (read_corralation_data row spw c).visibility_flagged
      vis_weight := (read_corralation_data row spw c).vis_weight }

/-- A call to `grid_visibility` with the deposited accumulator multiplied by `a`. -/
def scaled_deposit (a : basic_complex R) (d : grid_visibility_call R n) :
    grid_visibility_call R n :=
  { d with accum := fun k => (d.accum k).mul a }

/-- The state of a thread of `templated_gridder` with the accumulator and every deposit
made so far multiplied by `a`. -/
def scaled_state (a : basic_complex R) (st : gridder_state R n) : gridder_state R n :=
  { st with
    my_grid_accum := fun k => (st.my_grid_accum k).mul a
    deposits := st.deposits.map (scaled_deposit a) }

/-- A call to `grid_polarization_terms` with the visibility replaced by `f vis`. -/
def map_call_vis {V W : Type} (f : V → W) (c : grid_call R V) : grid_call R W :=
  { term_flat_index := c.term_flat_index, vis := f c.vis, conv_weight := c.conv_weight }

/-- Modelled from the spec: the method `grid_visibility` of the active correlation
gridding policy (not under src/), the accumulation `grid[idx] += accum` per correlation at
the cell `(pos_u, pos_v)` of the plane `channel_grid_index`; the grid is a function of the
plane, the cell and the correlation. -/
def grid_visibility (grid : Nat → Nat → Nat → Fin n → basic_complex R)
    (call : grid_visibility_call R n) : Nat → Nat → Nat → Fin n → basic_complex R :=
  fun plane u v k =>
    if plane = call.channel_grid_index ∧ u = call.pos_u ∧ v = call.pos_v then
      (grid plane u v k).add (call.accum k)
    else grid plane u v k

/-- The grid after a list of calls to `grid_visibility`, made in order. -/
def grid_after (calls : List (grid_visibility_call R n))
    (grid : Nat → Nat → Nat → Fin n → basic_complex R) :
    Nat → Nat → Nat → Fin n → basic_complex R :=
  calls.foldl grid_visibility grid

/-- The zero-initialised grid. -/
def zero_grid : Nat → Nat → Nat → Fin n → basic_complex R := fun _ _ _ _ => ⟨0, 0⟩

/-- A small measurement set for the evaluation of the kernel: one baseline of `rows`
rows on an 8 x 8 grid with half support 1 and one channel, every row at the scaled
position `(1/2, 1/2)`, in the imaging field and not flagged; the spectral window of a
row, the enabled flags and the grid planes are the arguments. The coordinates of its
threads are small multiples of 1/2, which single precision holds exactly: the
evaluations on it take the identity for the conversion `to_float` of `rintf`. -/
def example_params (rows : Nat) (spw : Nat → Nat) (enabled : Nat → Bool)
    (planes : Nat → Nat) : gridding_parameters ℚ :=
  { nx := 8
    ny := 8
    cell_size_x := 1
    cell_size_y := 1
    conv := fun _ => 1
    conv_support := 1
    conv_oversample := 1
    channel_count := 1
    baseline_count := 1
    baseline_starting_indexes := fun b => if b = 0 then 0 else rows
    spw_index_array := spw
    enabled_channels := enabled
    channel_grid_indicies := planes
    reference_wavelengths := fun _ => 1
    uvw_coords := fun _ => ⟨1 / 16, -1 / 16, 0⟩
    flagged_rows := fun _ => false
    field_array := fun _ => 0
    imaging_field := 0
    number_of_polarization_terms_being_gridded := 1 }

/-- The visibilities of the small measurement set: one correlation, the visibility of
row `r` is `(r + 1) + 0i` with weight 1 and no flag. -/
def example_read (row _spw _c : Nat) : correlation_data ℚ 1 :=
  { vis := fun _ => ⟨(row : ℚ) + 1, 0⟩
    visibility_flagged := fun _ => false
    vis_weight := fun _ => 1 }

end GridderSpec

/-- A thread state in which the accumulator and the accumulator of every deposit made
so far are zero. -/
def zero_state {R : Type} [LinearOrderedField R] {n : Nat} (st : gridder_state R n) : Prop :=
  st.my_grid_accum = vis_zero ∧ ∀ d ∈ st.deposits, d.accum = vis_zero

/-! ## IFFT and repacking -/

/-- Conversion of a `std::size_t` to `int` (the value mod `2 ^ 32`, read as a signed
32-bit integer), as in `(int)params.nx` and in the `howmany` argument of the plans. -/
def size_to_int (a : Nat) : Int :=
  if a % 2 ^ 32 < 2 ^ 31 then ((a % 2 ^ 32 : Nat) : Int) else ((a % 2 ^ 32 : Nat) : Int) - 2 ^ 32

/-- Modelled from the spec: the fields of the struct `gridding_parameters`
(`gridding_parameters.h`, not under src/) that `ifft_machine` reads; the two buffers are
arguments of the routines. -/
structure ifft_parameters where
  nx : Nat
  ny : Nat
  cube_channel_dim_size : Nat
  number_of_polarization_terms_being_gridded : Nat
  num_facet_centres : Nat
  sampling_function_channel_count : Nat

/-- The arguments of a call `fftw_plan_many_dft(rank, n, howmany, in, inembed, istride,
idist, out, onembed, ostride, odist, sign, flags)` that fix the batch of the plan: the
dimensions `n` (also passed as `inembed` and `onembed`), the number `howmany` of
transforms, the strides and the distances between consecutive transforms. -/
structure fftw_plan_many_dft where
  rank : Int
  n : List Int
  howmany : Int
  istride : Int
  idist : Int
  ostride : Int
  odist : Int

/-- The two plans held by an `ifft_machine`. -/
structure ifft_machine where
  fft_plan : fftw_plan_many_dft
  fft_psf_plan : fftw_plan_many_dft

/-- The constructor `ifft_machine::ifft_machine`: both plans are two-dimensional, in
place and contiguous, one transform every `nx * ny` samples; the plan of the image cube
is made for `cube_channel_dim_size` transforms, the plan of the sampling function cube
for `sampling_function_channel_count * num_facet_centres`. -/
def ifft_machine.create (params : ifft_parameters) : ifft_machine :=
  let dims : List Int := [size_to_int params.nx, size_to_int params.ny]
  { fft_plan :=
      { rank := 2
        n := dims
        howmany := size_to_int params.cube_channel_dim_size
        istride := 1
        idist := size_to_int (size_mul params.nx params.ny)
        ostride := 1
        odist := size_to_int (size_mul params.nx params.ny) }
    fft_psf_plan :=
      { rank := 2
        n := dims
        howmany := size_to_int
          (size_mul params.sampling_function_channel_count params.num_facet_centres)
        istride := 1
        idist := size_to_int (size_mul params.nx params.ny)
        ostride := 1
        odist := size_to_int (size_mul params.nx params.ny) } }

/-- One call made by the repack routines on a buffer of complex samples: a quadrant
swap `utils::ifftshift(buffer + base, nx, ny, no_slices)` or
`utils::fftshift(buffer + base, nx, ny, no_slices)`, the execution
`fftw_execute_dft(plan, buffer + base, buffer + base)` of a plan at an offset, or the
execution `fftw_execute(plan)` of a plan on the buffer it was made for. -/
inductive fft_call where
  | ifftshift (base nx ny no_slices : Nat)
  | execute_dft (plan : fftw_plan_many_dft) (base : Nat)
  | execute (plan : fftw_plan_many_dft)
  | fftshift (base nx ny no_slices : Nat)

/-- The local `offset` of `repack_and_ifft_uv_grids`: the number of complex samples of
one facet slab, `nx * ny * cube_channel_dim_size * n_pol`. -/
def uv_grids_offset (params : ifft_parameters) : Nat :=
  size_mul (size_mul (size_mul params.nx params.ny) params.cube_channel_dim_size)
    params.number_of_polarization_terms_being_gridded

/-- The local `offset` of `repack_and_ifft_sampling_function_grids`:
`nx * ny * sampling_function_channel_count`. -/
def sampling_function_grids_offset (params : ifft_parameters) : Nat :=
  size_mul (size_mul params.nx params.ny) params.sampling_function_channel_count

/-- The first part of `repack_and_ifft_uv_grids`: facet after facet, the calls
`ifftshift`, `fftw_execute_dft` and `fftshift` at the start `f * offset` of the slab. -/
def repack_and_ifft_uv_grids_calls (machine : ifft_machine) (params : ifft_parameters) :
    List fft_call :=
  (List.range params.num_facet_centres).flatMap (fun f =>
    [fft_call.ifftshift (size_mul f (uv_grids_offset params)) params.nx params.ny
        params.cube_channel_dim_size,
      fft_call.execute_dft machine.fft_plan (size_mul f (uv_grids_offset params)),
      fft_call.fftshift (size_mul f (uv_grids_offset params)) params.nx params.ny
        params.cube_channel_dim_size])

/-- The first part of `repack_and_ifft_sampling_function_grids`: the `ifftshift` of
every facet, one execution of the plan of the whole cube, the `fftshift` of every
facet. -/
def repack_and_ifft_sampling_function_grids_calls (machine : ifft_machine)
    (params : ifft_parameters) : List fft_call :=
  (List.range params.num_facet_centres).map (fun f =>
      fft_call.ifftshift (size_mul f (sampling_function_grids_offset params)) params.nx
        params.ny params.sampling_function_channel_count)
    ++ [fft_call.execute machine.fft_psf_plan]
    ++ (List.range params.num_facet_centres).map (fun f =>
      fft_call.fftshift (size_mul f (sampling_function_grids_offset params)) params.nx
        params.ny params.sampling_function_channel_count)

/-- The loop `for (i = casting_lbound; i < casting_ubound; ++i)
grid_ptr_single[i] = (float)(grid_ptr_gridtype[i*2])` in the build in which
`grid_base_type` is `float`: both pointers view the buffer as the same array of scalars
(complex sample `i` has its real part at scalar `2 i` and its imaginary part at scalar
`2 i + 1`) and the cast is the identity. `remaining` iterations are left and `i` is the
loop variable. -/
def extract_reals_loop {α : Type} : Nat → Nat → (Nat → α) → (Nat → α)
  | 0, _, buffer => buffer
  | remaining + 1, i, buffer =>
    extract_reals_loop remaining (i + 1) (Function.update buffer i (buffer (size_mul i 2)))

/-- The loop `for (f = 0; f < params.num_facet_centres; ++f)` around the extraction:
`casting_lbound = offset * f`, `casting_ubound = casting_lbound + count` with `count`
the number of samples extracted per facet. `remaining` facets are left and `f` is the
loop variable. -/
def extract_reals_facets {α : Type} (offset count : Nat) :
    Nat → Nat → (Nat → α) → (Nat → α)
  | 0, _, buffer => buffer
  | remaining + 1, f, buffer =>
    let casting_lbound := size_mul offset f
    let casting_ubound := size_add casting_lbound count
    extract_reals_facets offset count remaining (f + 1)
      (extract_reals_loop (casting_ubound - casting_lbound) casting_lbound buffer)

/-- The last block of `repack_and_ifft_uv_grids`: the scalars of `output_buffer` after
the extraction of the reals, `casting_ubound = casting_lbound + nx * ny *
cube_channel_dim_size`. -/
def repack_and_ifft_uv_grids_extract {α : Type} (params : ifft_parameters)
    (output_buffer : Nat → α) : Nat → α :=
  extract_reals_facets (uv_grids_offset params)
    (size_mul (size_mul params.nx params.ny) params.cube_channel_dim_size)
    params.num_facet_centres 0 output_buffer

/-- The last block of `repack_and_ifft_sampling_function_grids`: the scalars of
`sampling_function_buffer` after the extraction of the reals, `casting_ubound =
casting_lbound + nx * ny * sampling_function_channel_count`. -/
def repack_and_ifft_sampling_function_grids_extract {α : Type} (params : ifft_parameters)
    (sampling_function_buffer : Nat → α) : Nat → α :=
  extract_reals_facets (sampling_function_grids_offset params)
    (size_mul (size_mul params.nx params.ny) params.sampling_function_channel_count)
    params.num_facet_centres 0 sampling_function_buffer

/-- A small cube for the evaluation of the repack routines: two facets of 2 x 1 pixels,
two channel planes, two polarization terms and two sampling function channels. -/
def example_cube : ifft_parameters :=
  { nx := 2
    ny := 1
    cube_channel_dim_size := 2
    number_of_polarization_terms_being_gridded := 2
    num_facet_centres := 2
    sampling_function_channel_count := 2 }

/-- A buffer whose scalar at index `j` is `j`. -/
def example_buffer : Nat → Nat := fun j => j

/-! ## The unspecialised policies -/

/-- The constructor of the unspecialised `convolution_policy`, whose body is
`throw std::runtime_error("Undefined behaviour")`; the exception is the error of
`Except`. -/
def convolution_policy.undefined_policy (R : Type) : Except String (convolution_policy R) :=
  Except.error ("Undefined behaviour")

/-- The method `convolve` of the unspecialised `convolution_policy`, which throws for
every sample, visibility and grid offset. -/
def convolution_policy.undefined_convolve {R V : Type} (_uvw : uvw_coord R) (_vis : V)
    (_no_grids_to_offset : Nat) : Except String R :=
  Except.error ("Undefined behaviour")

/-- The constructor of the unspecialised `baseline_transform_policy`, which throws. -/
def baseline_transform_policy.undefined_policy (R : Type) :
    Except String (baseline_transform_policy R) :=
  Except.error ("Undefined behaviour")

/-- The method `transform` of the unspecialised `baseline_transform_policy`, which
throws for every baseline. -/
def baseline_transform_policy.undefined_transform {R : Type} (_baseline : uvw_coord R) :
    Except String (uvw_coord R) :=
  Except.error ("Undefined behaviour")

/-! ## The statements of the specification on the later stages -/

/-- The number of planes a call of the repack routines works on: the argument
`no_slices` of a quadrant swap, the `howmany` of an executed plan. -/
def fft_call.planes : fft_call → Int
  | fft_call.ifftshift _ _ _ no_slices => (no_slices : Int)
  | fft_call.execute_dft plan _ => plan.howmany
  | fft_call.execute plan => plan.howmany
  | fft_call.fftshift _ _ _ no_slices => (no_slices : Int)

/-- The start of the block of samples a call of the repack routines works on. -/
def fft_call.base : fft_call → Nat
  | fft_call.ifftshift base _ _ _ => base
  | fft_call.execute_dft _ base => base
  | fft_call.execute _ => 0
  | fft_call.fftshift base _ _ _ => base

section GridderStatements
variable {R : Type} [LinearOrderedField R] [FloorRing R] {n : Nat}

/-- The scaled coordinate of a row and channel: `templated_gridder` multiplies `u` by
`u_scale / lambda` and `v` by `v_scale / lambda` before it adds the grid centre
offset. -/
def scaled_uvw (arcsec_to_rad : R) (params : gridding_parameters R) (row c : Nat) :
    uvw_coord R :=
  { _u := (params.uvw_coords row)._u *
      (u_scale arcsec_to_rad params *
        (1 / params.reference_wavelengths (flat_indexed_spw_channel params row c)))
    _v := (params.uvw_coords row)._v *
      (v_scale arcsec_to_rad params *
        (1 / params.reference_wavelengths (flat_indexed_spw_channel params row c)))
    _w := (params.uvw_coords row)._w }

/-- The sum of a list of `basic_complex` values. -/
def complex_sum (l : List (basic_complex R)) : basic_complex R :=
  l.foldl basic_complex.add ⟨0, 0⟩

/-- The sum, for correlation `k`, of the values deposited by a list of calls to
`grid_visibility`. -/
def deposited_total (deposits : List (grid_visibility_call R n)) (k : Fin n) :
    basic_complex R :=
  complex_sum (deposits.map (fun d => d.accum k))

/-- The condition that the flushes of a thread at row `t` pass their edge tests, for
channel `c` and the state `st` in which the thread reaches the row: the flush on a change
of position or spectral window finds `flush_edge_test` true if it is taken, and the
flush on the last row finds `last_flush_edge_test` true if it is taken. -/
def row_flushes_pass (to_float : R → R) (arcsec_to_rad : R) (params : gridding_parameters R)
    (read_corralation_data : Nat → Nat → Nat → correlation_data R n)
    (shared_mem : Nat → R) (tid c : Nat) (st : gridder_state R n) (t : Nat) : Bool :=
  let row := row_of params tid t
  let spw := params.spw_index_array row
  let enabled := channel_enabled params row c
  let grid_index := channel_grid_index params row c
  let cur_u := my_current_u to_float arcsec_to_rad params tid row c
  let cur_v := my_current_v to_float arcsec_to_rad params tid row c
  let st1 := row_step_init cur_u cur_v spw t st
  let st3 := row_step_accumulate
    (row_contribution to_float arcsec_to_rad params read_corralation_data shared_mem tid row c)
    (row_step_flush params enabled grid_index cur_u cur_v spw st1)
  (!(decide (cur_u ≠ st1.my_previous_u ∨ cur_v ≠ st1.my_previous_v
        ∨ st1.my_previous_spw ≠ spw) && enabled)
    || flush_edge_test params st1.my_previous_u st1.my_previous_v)
  && (!(enabled && decide (t = size_sub (baseline_num_timestamps params tid) 1))
    || last_flush_edge_test params st3.my_previous_u st3.my_previous_v)

/-- The condition that every flush of a thread passes its edge test, for channel `c`:
`row_flushes_pass` holds at each row of the baseline, in the state the thread has
reached. -/
def every_flush_passes (to_float : R → R) (arcsec_to_rad : R) (params : gridding_parameters R)
    (read_corralation_data : Nat → Nat → Nat → correlation_data R n)
    (shared_mem : Nat → R) (tid c : Nat) : Bool :=
  (List.range (baseline_num_timestamps params tid)).all (fun t =>
    row_flushes_pass to_float arcsec_to_rad params read_corralation_data shared_mem tid c
      ((List.range t).foldl
        (gridder_row_step to_float arcsec_to_rad params read_corralation_data shared_mem tid c)
        ⟨vis_zero, 0, 0, 0, []⟩) t)

/-- The small measurement set with every row at the coordinate `(u, v, 0)`. -/
def example_params_at (u v : ℚ) (rows : Nat) (spw : Nat → Nat) (enabled : Nat → Bool)
    (planes : Nat → Nat) : gridding_parameters ℚ :=
  { example_params rows spw enabled planes with uvw_coords := fun _ => ⟨u, v, 0⟩ }

end GridderStatements

/-! ## The statements of the specification on the facet transforms -/

/-- The nine coefficients stored in `_baseline_transform_matrix`, read as the row-major
3 x 3 matrix that `transform` applies. -/
def stored_matrix {R : Type} (p : baseline_transform_policy R) : Matrix (Fin 3) (Fin 3) R :=
  Matrix.of (fun i j : Fin 3 =>
    p._baseline_transform_matrix ⟨3 * i.val + j.val, by omega⟩)

/-! ## Lemmas -/

section RoundingLemmas
variable {R : Type} [LinearOrderedField R] [FloorRing R]

theorem lrint_intCast (z : Int) : lrint (z : R) = z := by
  simp [lrint]

theorem lrint_natCast (k : Nat) : lrint (k : R) = k := by
  simp [lrint]

theorem lrint_zero : lrint (0 : R) = 0 := by
  simp [lrint]

theorem lrint_one : lrint (1 : R) = 1 := by
  simp [lrint]

theorem lrint_ofNat (k : Nat) [k.AtLeastTwo] :
    lrint (no_index (OfNat.ofNat k) : R) = (k : Int) := by
  have h := lrint_natCast (R := R) k
  simpa using h

theorem to_size_t_natCast (k : Nat) : to_size_t (k : Int) = k % 2 ^ 64 := by
  unfold to_size_t
  omega

theorem to_size_t_zero : to_size_t 0 = 0 := by
  unfold to_size_t
  omega

theorem to_size_t_one : to_size_t 1 = 1 := by
  unfold to_size_t
  omega

theorem to_size_t_ofNat (k : Nat) [k.AtLeastTwo] :
    to_size_t (no_index (OfNat.ofNat k)) = k % 2 ^ 64 := by
  have h := to_size_t_natCast k
  simpa using h

end RoundingLemmas

section EdgeLemmas
variable {R : Type}

theorem size_add_of_lt {a b : Nat} (h : a + b < 2 ^ 64) : size_add a b = a + b := by
  unfold size_add
  exact Nat.mod_eq_of_lt h

theorem size_mul_of_lt {a b : Nat} (h : a * b < 2 ^ 64) : size_mul a b = a * b := by
  unfold size_mul
  exact Nat.mod_eq_of_lt h

theorem full_support_eq {S : Nat} (h : 2 * S + 1 < 2 ^ 64) :
    size_add (size_mul S 2) 1 = 2 * S + 1 := by
  have h1 : size_mul S 2 = S * 2 := size_mul_of_lt (by omega)
  rw [h1, size_add_of_lt (by omega)]
  omega

theorem edge_test_of_near_edge (p : convolution_policy R) (S du dv : Nat)
    (hS : p._convolution_support = 2 * S + 1)
    (hx : p._nx + (2 * S + 1) ≤ 2 ^ 64) (hy : p._ny + (2 * S + 1) ≤ 2 ^ 64)
    (h : p._nx ≤ du + S ∨ p._ny ≤ dv + S ∨ p._nx ≤ du ∨ p._ny ≤ dv) :
    edge_test p du dv = true := by
  unfold edge_test
  rw [hS]
  simp only [Bool.or_eq_true, decide_eq_true_eq]
  by_cases h1 : p._nx ≤ du
  · exact Or.inr h1
  by_cases h2 : p._ny ≤ dv
  · exact Or.inl (Or.inr h2)
  have e1 : size_add du (2 * S + 1) = du + (2 * S + 1) := size_add_of_lt (by omega)
  have e2 : size_add dv (2 * S + 1) = dv + (2 * S + 1) := size_add_of_lt (by omega)
  rw [e1, e2]
  omega

end EdgeLemmas

section LoopLemmas
variable {R : Type} [LinearOrderedField R] {V : Type}

theorem size_add_lt (a b : Nat) : size_add a b < 2 ^ 64 := by
  unfold size_add
  exact Nat.mod_lt _ (by norm_num)

theorem to_size_t_lt (z : Int) : to_size_t z < 2 ^ 64 := by
  unfold to_size_t
  omega

theorem float_to_size_t_lt [FloorRing R] (x : R) : float_to_size_t x < 2 ^ 64 :=
  to_size_t_lt _

theorem size_add_mod_left (a b : Nat) : size_add (a % 2 ^ 64) b = (a + b) % 2 ^ 64 := by
  unfold size_add
  omega

/-- The calls made by one run of the inner loop of the pre-computed FIR `convolve`. -/
theorem fir_inner_loop_calls (p : convolution_policy R) (vis : V)
    (chan_offset du convolved_grid_v : Nat) (conv_v_weight : R) :
    ∀ (m sup_u conv_u : Nat) (st : R × List (grid_call R V)),
      (fir_inner_loop p vis chan_offset du convolved_grid_v conv_v_weight m sup_u
          (conv_u % 2 ^ 64) st).2
        = st.2 ++ (List.range m).map (fun i =>
            (⟨size_add chan_offset (size_add convolved_grid_v (size_add du (sup_u + i))), vis,
              p._conv ((conv_u + i * p._oversampling_factor) % 2 ^ 64) * conv_v_weight⟩ :
              grid_call R V)) := by
  intro m
  induction m with
  | zero => intro sup_u conv_u st; simp [fir_inner_loop]
  | succ m ih =>
    intro sup_u conv_u st
    rw [fir_inner_loop, size_add_mod_left, ih, List.range_succ_eq_map, List.map_cons,
      List.map_map]
    simp only [List.append_assoc, List.singleton_append, Nat.add_zero, Nat.zero_mul]
    congr 2
    apply List.map_congr_left
    intro i _
    simp only [Function.comp, Nat.succ_eq_add_one]
    have e1 : sup_u + 1 + i = sup_u + (i + 1) := by omega
    have e2 : conv_u + p._oversampling_factor + i * p._oversampling_factor
        = conv_u + (i + 1) * p._oversampling_factor := by ring
    rw [e1, e2]

/-- The calls made by the outer loop of the pre-computed FIR `convolve`. -/
theorem fir_outer_loop_calls (p : convolution_policy R) (vis : V)
    (chan_offset du conv_u0 : Nat) :
    ∀ (m conv_v convolved_grid_v : Nat) (st : R × List (grid_call R V)),
      (fir_outer_loop p vis chan_offset du (conv_u0 % 2 ^ 64) m (conv_v % 2 ^ 64)
          (convolved_grid_v % 2 ^ 64) st).2
        = st.2 ++ (List.range m).flatMap (fun j =>
            (List.range p._convolution_support).map (fun i =>
              (⟨size_add chan_offset
                  (size_add ((convolved_grid_v + j * p._ny) % 2 ^ 64) (size_add du (1 + i))),
                vis,
                p._conv ((conv_u0 + i * p._oversampling_factor) % 2 ^ 64)
                  * p._conv ((conv_v + j * p._oversampling_factor) % 2 ^ 64)⟩ :
                grid_call R V))) := by
  intro m
  induction m with
  | zero => intro conv_v convolved_grid_v st; simp [fir_outer_loop]
  | succ m ih =>
    intro conv_v convolved_grid_v st
    rw [fir_outer_loop, size_add_mod_left, size_add_mod_left, ih, fir_inner_loop_calls,
      List.range_succ_eq_map, List.flatMap_cons, List.flatMap_map]
    simp only [List.append_assoc, Nat.add_zero, Nat.zero_mul]
    congr 2
    apply List.flatMap_congr
    intro j _
    apply List.map_congr_left
    intro i _
    simp only [Nat.succ_eq_add_one]
    have e1 : convolved_grid_v + p._ny + j * p._ny = convolved_grid_v + (j + 1) * p._ny := by
      ring
    have e2 : conv_v + p._oversampling_factor + j * p._oversampling_factor
        = conv_v + (j + 1) * p._oversampling_factor := by ring
    rw [e1, e2]

end LoopLemmas

section RoundingBounds
variable {R : Type} [LinearOrderedField R] [FloorRing R]

theorem lrint_sub_ge (x : R) : -(1 / 2 : R) ≤ (lrint x : R) - x := by
  have h1 := Int.floor_le x
  have h2 := Int.lt_floor_add_one x
  unfold lrint
  simp only
  split_ifs with ha hb hc
  · linarith
  · push_cast; linarith
  · linarith
  · push_cast; linarith

theorem lrint_sub_le (x : R) : (lrint x : R) - x ≤ 1 / 2 := by
  have h1 := Int.floor_le x
  have h2 := Int.lt_floor_add_one x
  unfold lrint
  simp only
  split_ifs with ha hb hc
  · linarith
  · push_cast; linarith
  · linarith
  · push_cast
    have : x - (⌊x⌋ : R) = 1 / 2 := le_antisymm (not_lt.mp hb) (not_lt.mp ha)
    linarith

theorem lrint_ge_of_in_long_range (x : R) (h : in_long_range x) :
    -(2 : Int) ^ 63 ≤ lrint x := by
  have h1 := lrint_sub_le x
  have h2 : -(2 : R) ^ 63 - 1 < (lrint x : R) := by
    have := lrint_sub_ge x
    have := h.1
    linarith
  have h3 : ((-(2 : Int) ^ 63 - 1 : Int) : R) < ((lrint x : Int) : R) := by
    push_cast
    norm_num at h2 ⊢
    linarith
  have h4 := Int.cast_lt.mp h3
  omega

theorem lrint_le_of_in_long_range (x : R) (h : in_long_range x) :
    lrint x ≤ (2 : Int) ^ 63 := by
  have h2 : (lrint x : R) < (2 : R) ^ 63 + 1 := by
    have := lrint_sub_le x
    have := h.2
    linarith
  have h3 : ((lrint x : Int) : R) < (((2 : Int) ^ 63 + 1 : Int) : R) := by
    push_cast
    norm_num at h2 ⊢
    linarith
  have h4 := Int.cast_lt.mp h3
  omega

/-- A rounded value that passes the test `disc < n` for a size `n ≤ 2 ^ 63` is the
rounded value itself: it was not negative. -/
theorem to_size_t_lrint_cast (x : R) (n : Nat) (h : in_long_range x) (hn : n ≤ 2 ^ 63)
    (hlt : to_size_t (lrint x) < n) : ((to_size_t (lrint x) : Nat) : Int) = lrint x := by
  have h1 := lrint_ge_of_in_long_range x h
  have h2 := lrint_le_of_in_long_range x h
  unfold to_size_t at hlt ⊢
  omega

theorem float_to_size_t_of_nonneg (y : R) (h0 : 0 ≤ y) (h1 : y < (2 : R) ^ 64) :
    float_to_size_t y = Nat.floor y := by
  unfold float_to_size_t to_size_t
  rw [if_pos h0]
  have hf0 : 0 ≤ ⌊y⌋ := Int.floor_nonneg.mpr h0
  have hf1 : ⌊y⌋ < 2 ^ 64 := by
    have : (⌊y⌋ : R) < (((2 : Int) ^ 64 : Int) : R) := by
      have hy := lt_of_le_of_lt (Int.floor_le y) h1
      push_cast
      norm_num at hy ⊢
      linarith
    exact Int.cast_lt.mp this
  rw [Int.emod_eq_of_lt hf0 hf1, Int.floor_toNat]

end RoundingBounds

theorem edge_test_eq_false_iff {R : Type} (p : convolution_policy R) (du dv : Nat) :
    edge_test p du dv = false ↔
      size_add dv p._convolution_support < p._ny ∧ size_add du p._convolution_support < p._nx
        ∧ dv < p._ny ∧ du < p._nx := by
  unfold edge_test
  simp only [Bool.or_eq_false_iff, decide_eq_false_iff_not, not_le]
  tauto

section FirTaps
variable {R : Type} [LinearOrderedField R] [FloorRing R] {V : Type}

/-- For a sample in the range of `long` that is not on the edge, the fractional offset
is at most one half in absolute value. -/
theorem frac_bounds (x : R) (n : Nat) (h : in_long_range x) (hn : n ≤ 2 ^ 63)
    (hlt : to_size_t (lrint x) < n) :
    -(1 / 2 : R) ≤ -x + ((to_size_t (lrint x) : Nat) : R)
      ∧ -x + ((to_size_t (lrint x) : Nat) : R) ≤ 1 / 2 := by
  have hc := to_size_t_lrint_cast x n h hn hlt
  have hc2 : ((to_size_t (lrint x) : Nat) : R) = ((lrint x : Int) : R) := by
    have e : (((to_size_t (lrint x) : Nat) : Int) : R) = ((lrint x : Int) : R) :=
      congrArg (fun z : Int => (z : R)) hc
    rw [← e]
    simp
  rw [hc2]
  have h1 := lrint_sub_ge x
  have h2 := lrint_sub_le x
  constructor <;> linarith

/-- The kernel phase `(frac + 1) * O` of a fractional offset of at most one half:
its conversion to `size_t` is its floor, and twice the floor is at most `3 * O`. -/
theorem conv_phase_eq (f : R) (O : Nat) (hf1 : -(1 / 2 : R) ≤ f) (hf2 : f ≤ 1 / 2)
    (hO : 3 * O ≤ 2 ^ 64) :
    float_to_size_t ((f + 1) * (O : R)) = Nat.floor ((f + 1) * (O : R))
      ∧ 2 * Nat.floor ((f + 1) * (O : R)) ≤ 3 * O := by
  have hO0 : (0 : R) ≤ (O : R) := Nat.cast_nonneg O
  have hy0 : 0 ≤ (f + 1) * (O : R) := mul_nonneg (by linarith) hO0
  have hy1 : (f + 1) * (O : R) ≤ 3 / 2 * (O : R) :=
    mul_le_mul_of_nonneg_right (by linarith) hO0
  have hO' : (3 : R) * (O : R) ≤ (2 : R) ^ 64 := by
    have : ((3 * O : Nat) : R) ≤ ((2 ^ 64 : Nat) : R) := Nat.cast_le.mpr hO
    push_cast at this
    norm_num at this ⊢
    exact this
  have hy2 : (f + 1) * (O : R) < (2 : R) ^ 64 := by
    have hpos : (0 : R) < (2 : R) ^ 64 := by positivity
    linarith
  refine ⟨float_to_size_t_of_nonneg _ hy0 hy2, ?_⟩
  have hfl : (((Nat.floor ((f + 1) * (O : R)) : Nat)) : R) ≤ (f + 1) * (O : R) :=
    Nat.floor_le hy0
  have : ((2 * Nat.floor ((f + 1) * (O : R)) : Nat) : R) ≤ ((3 * O : Nat) : R) := by
    push_cast
    linarith
  exact Nat.cast_le.mp this

end FirTaps

section BaselineLemmas

theorem TT_transpose_eq (ra_old dec_old ra_new dec_new : ℝ) :
    TT_transpose Real.cos Real.sin ra_old dec_old ra_new dec_new
      = T_spec Real.cos Real.sin ra_new dec_new
          * Matrix.transpose (T_spec Real.cos Real.sin ra_old dec_old) := by
  ext i j
  fin_cases i <;> fin_cases j <;>
    simp [TT_transpose, T_spec, Matrix.mul_apply, Fin.sum_univ_three, Real.cos_sub,
      Real.sin_sub, Matrix.transpose_apply, Matrix.vecHead, Matrix.vecTail] <;> ring

theorem z_rot_transpose_eq (cos sin : ℝ → ℝ) (a : ℝ) :
    z_rot_transpose cos sin a = Matrix.transpose (Z_spec cos sin a) := by
  ext i j
  fin_cases i <;> fin_cases j <;> simp [z_rot_transpose, Z_spec]

theorem transform_lefthanded {R : Type} [CommRing R] (cos sin : R → R)
    (a_new a_old ra_old dec_old ra_new dec_new : R) (b : uvw_coord R) :
    (baseline_transform_policy.lefthanded_ra_dec cos sin a_new a_old ra_old dec_old
        ra_new dec_new).transform b
      = { _u := full_transform cos sin a_new a_old ra_old dec_old ra_new dec_new 0 0 * b._u
            + full_transform cos sin a_new a_old ra_old dec_old ra_new dec_new 0 1 * b._v
            + full_transform cos sin a_new a_old ra_old dec_old ra_new dec_new 0 2 * b._w
          _v := full_transform cos sin a_new a_old ra_old dec_old ra_new dec_new 1 0 * b._u
            + full_transform cos sin a_new a_old ra_old dec_old ra_new dec_new 1 1 * b._v
            + full_transform cos sin a_new a_old ra_old dec_old ra_new dec_new 1 2 * b._w
          _w := full_transform cos sin a_new a_old ra_old dec_old ra_new dec_new 2 0 * b._u
            + full_transform cos sin a_new a_old ra_old dec_old ra_new dec_new 2 1 * b._v
            + full_transform cos sin a_new a_old ra_old dec_old ra_new dec_new 2 2 * b._w } :=
  rfl

theorem TT_transpose_same_centre (ra dec : ℝ) :
    TT_transpose Real.cos Real.sin ra dec ra dec = 1 := by
  have h1 := Real.sin_sq_add_cos_sq dec
  ext i j
  fin_cases i <;> fin_cases j <;>
    simp [-mul_eq_zero, TT_transpose, Matrix.one_apply, Matrix.vecHead, Matrix.vecTail] <;>
    first | ring1 | linear_combination h1

theorem z_rot_mul_transpose (a : ℝ) :
    z_rot Real.cos Real.sin a * z_rot_transpose Real.cos Real.sin a = 1 := by
  have h2 := Real.sin_sq_add_cos_sq a
  ext i j
  fin_cases i <;> fin_cases j <;>
    simp [-mul_eq_zero, z_rot, z_rot_transpose, Matrix.mul_apply, Fin.sum_univ_three,
      Matrix.one_apply, Matrix.vecHead, Matrix.vecTail] <;>
    first | ring1 | linear_combination h2

theorem full_transform_same_centre (a ra dec : ℝ) :
    full_transform Real.cos Real.sin a a ra dec ra dec = 1 := by
  unfold full_transform
  rw [TT_transpose_same_centre, Matrix.one_mul, z_rot_mul_transpose]

end BaselineLemmas

/-! ## Claims C1 - C10 -/

section EdgeClaims

variable {R : Type} [LinearOrderedField R] [FloorRing R] {V : Type}

set_option maxRecDepth 8000 in
/-- Claim C1 (edge containment), evaluated on the grid `nx = 6`, `ny = 12` with half
support 1: each of the three policies accepts a sample (the edge test passes) and calls
`grid_polarization_terms` with a flat index that, minus the plane offset 0, is at least
`nx * ny = 72`. The row stride used for the flat index is `_ny`, not `_nx`. -/
theorem edge_containment_fails_on_non_square_grid :
    ¬ plane_contained 6 12 0
        (convolve_nn (convolution_policy.nn 6 12 1 1 1 (fun _ => (0 : ℚ)) 0)
          ⟨-3, 0, 0⟩ (1 : ℚ) 0 0).2
    ∧ ¬ plane_contained 6 12 0
        (convolve_precomputed_fir
          (convolution_policy.precomputed_fir 6 12 1 1 2 (fun i => (i : ℚ)))
          ⟨1 / 2, 5 / 2, 0⟩ (1 : ℚ) 0 0).2
    ∧ ∀ (sin : ℚ → ℚ) (pi : ℚ), ¬ plane_contained 6 12 0
        (convolve_on_the_fly_computed_fir sin pi
          (convolution_policy.on_the_fly_computed_fir 6 12 1 1 2 (fun i => (i : ℚ)))
          ⟨-2, 1, 0⟩ (1 : ℚ) 0 0).2 := by
  refine ⟨?_, ?_, ?_⟩
  · norm_num [plane_contained, convolve_nn, convolution_policy.nn, nn_disc_grid_u, nn_disc_grid_v, edge_test,
      size_add, size_mul, to_size_t_natCast, to_size_t_zero, to_size_t_one, to_size_t_ofNat, lrint_zero, lrint_ofNat]
  · norm_num [plane_contained, convolve_precomputed_fir, convolution_policy.precomputed_fir, disc_grid_u,
      disc_grid_v, translated_grid_u, translated_grid_v, edge_test, size_add, size_mul,
      to_size_t_natCast, to_size_t_zero, to_size_t_one, to_size_t_ofNat, lrint_zero, lrint_one, lrint_ofNat, fir_outer_loop, fir_inner_loop,
      frac_u, frac_v, float_to_size_t]
  · intro sin pi
    norm_num [plane_contained, convolve_on_the_fly_computed_fir, convolution_policy.on_the_fly_computed_fir, disc_grid_u,
      disc_grid_v, translated_grid_u, translated_grid_v, edge_test, size_add, size_mul,
      to_size_t_natCast, to_size_t_zero, to_size_t_one, to_size_t_ofNat, lrint_zero, lrint_one, lrint_ofNat, otf_outer_loop, otf_inner_loop,
      frac_u, frac_v]

/-- Claim C2 (edge drop): for each of the three convolution policies, a sample whose
rounded grid position `(iu, iv)` satisfies `iu + S >= nx`, `iv + S >= ny`, `iu >= nx` or
`iv >= ny` makes `convolve` return 0 with no call to `grid_polarization_terms`. The
sizes are such that `nx + (2 S + 1)` and `ny + (2 S + 1)` fit in a `size_t`. -/
theorem edge_drop_all_policies (nx ny no_polarizations S O : Nat) (conv : Nat → R)
    (sin : R → R) (pi : R) (uvw : uvw_coord R) (vis : V) (no_grids_to_offset facet_id : Nat)
    (hx : nx + (2 * S + 1) ≤ 2 ^ 64) (hy : ny + (2 * S + 1) ≤ 2 ^ 64) :
    ((nx ≤ disc_grid_u (convolution_policy.precomputed_fir nx ny no_polarizations S O conv)
            uvw + S
        ∨ ny ≤ disc_grid_v (convolution_policy.precomputed_fir nx ny no_polarizations S O
            conv) uvw + S
        ∨ nx ≤ disc_grid_u (convolution_policy.precomputed_fir nx ny no_polarizations S O
            conv) uvw
        ∨ ny ≤ disc_grid_v (convolution_policy.precomputed_fir nx ny no_polarizations S O
            conv) uvw) →
      convolve_precomputed_fir
          (convolution_policy.precomputed_fir nx ny no_polarizations S O conv) uvw vis
          no_grids_to_offset facet_id = (0, []))
    ∧ ((nx ≤ disc_grid_u (convolution_policy.on_the_fly_computed_fir nx ny no_polarizations
            S O conv) uvw + S
        ∨ ny ≤ disc_grid_v (convolution_policy.on_the_fly_computed_fir nx ny
            no_polarizations S O conv) uvw + S
        ∨ nx ≤ disc_grid_u (convolution_policy.on_the_fly_computed_fir nx ny
            no_polarizations S O conv) uvw
        ∨ ny ≤ disc_grid_v (convolution_policy.on_the_fly_computed_fir nx ny
            no_polarizations S O conv) uvw) →
      convolve_on_the_fly_computed_fir sin pi
          (convolution_policy.on_the_fly_computed_fir nx ny no_polarizations S O conv) uvw
          vis no_grids_to_offset facet_id = (0, []))
    ∧ ((nx ≤ nn_disc_grid_u (convolution_policy.nn nx ny no_polarizations S O conv
            facet_id) uvw + S
        ∨ ny ≤ nn_disc_grid_v (convolution_policy.nn nx ny no_polarizations S O conv
            facet_id) uvw + S
        ∨ nx ≤ nn_disc_grid_u (convolution_policy.nn nx ny no_polarizations S O conv
            facet_id) uvw
        ∨ ny ≤ nn_disc_grid_v (convolution_policy.nn nx ny no_polarizations S O conv
            facet_id) uvw) →
      convolve_nn (convolution_policy.nn nx ny no_polarizations S O conv facet_id) uvw vis
          no_grids_to_offset facet_id = (0, [])) := by
  have hS : size_add (size_mul S 2) 1 = 2 * S + 1 := full_support_eq (by omega)
  refine ⟨?_, ?_, ?_⟩
  · intro h
    have ht := edge_test_of_near_edge
      (convolution_policy.precomputed_fir nx ny no_polarizations S O conv) S _ _ hS hx hy h
    unfold convolve_precomputed_fir
    simp only [ht, if_true]
  · intro h
    have ht := edge_test_of_near_edge
      (convolution_policy.on_the_fly_computed_fir nx ny no_polarizations S O conv) S _ _
      hS hx hy h
    unfold convolve_on_the_fly_computed_fir
    simp only [ht, if_true]
  · intro h
    have ht := edge_test_of_near_edge
      (convolution_policy.nn nx ny no_polarizations S O conv facet_id) S _ _ hS hx hy h
    unfold convolve_nn
    simp only [ht, if_true]

/-- Claim C2 at concrete inputs: on an 8 x 8 grid with half support 1, a sample rounded
to column 7 is dropped by each policy. -/
theorem edge_drop_all_policies_witness :
    convolve_precomputed_fir (convolution_policy.precomputed_fir 8 8 1 1 2 (fun i => (i : ℚ)))
        ⟨11 / 2, 1 / 2, 0⟩ (1 : ℚ) 0 0 = (0, [])
    ∧ convolve_on_the_fly_computed_fir (fun x => x) 3
        (convolution_policy.on_the_fly_computed_fir 8 8 1 1 2 (fun i => (i : ℚ)))
        ⟨4, 0, 0⟩ (1 : ℚ) 0 0 = (0, [])
    ∧ convolve_nn (convolution_policy.nn 8 8 1 1 2 (fun i => (i : ℚ)) 0)
        ⟨3, 0, 0⟩ (1 : ℚ) 0 0 = (0, []) :=
  ⟨(edge_drop_all_policies 8 8 1 1 2 (fun i => (i : ℚ)) (fun x => x) 3 ⟨11 / 2, 1 / 2, 0⟩
      (1 : ℚ) 0 0 (by norm_num) (by norm_num)).1
      (by
        norm_num [disc_grid_u, disc_grid_v, translated_grid_u, translated_grid_v,
          convolution_policy.precomputed_fir, size_add, size_mul, lrint_ofNat, lrint_one,
          lrint_zero, to_size_t_natCast, to_size_t_zero, to_size_t_one, to_size_t_ofNat]),
    (edge_drop_all_policies 8 8 1 1 2 (fun i => (i : ℚ)) (fun x => x) 3 ⟨4, 0, 0⟩
      (1 : ℚ) 0 0 (by norm_num) (by norm_num)).2.1
      (by
        norm_num [disc_grid_u, disc_grid_v, translated_grid_u, translated_grid_v,
          convolution_policy.on_the_fly_computed_fir, size_add, size_mul, lrint_ofNat,
          lrint_one, lrint_zero, to_size_t_natCast, to_size_t_zero, to_size_t_one,
          to_size_t_ofNat]),
    (edge_drop_all_policies 8 8 1 1 2 (fun i => (i : ℚ)) (fun x => x) 3 ⟨3, 0, 0⟩
      (1 : ℚ) 0 0 (by norm_num) (by norm_num)).2.2
      (by
        norm_num [nn_disc_grid_u, nn_disc_grid_v, convolution_policy.nn, size_add, size_mul,
          lrint_ofNat, lrint_one, lrint_zero, to_size_t_natCast, to_size_t_zero,
          to_size_t_one, to_size_t_ofNat])⟩

end EdgeClaims

section AcceptanceClaim

variable {R : Type} [LinearOrderedField R] [FloorRing R] {n : Nat}

/-- Claim C3 (acceptance rule): for every row, channel and correlation, the combined
weight is the visibility weight when the row is not flagged, the correlation is not
flagged, the (spw, channel) is enabled and the row is in the imaging field, and 0
otherwise; accordingly the term added to the accumulator is the weighted visibility in
the first case and zero in every other case. -/
theorem acceptance_rule (to_float : R → R) (arcsec_to_rad : R) (params : gridding_parameters R)
    (read_corralation_data : Nat → Nat → Nat → correlation_data R n)
    (shared_mem : Nat → R) (tid row c : Nat) (k : Fin n) :
    combined_vis_weight params read_corralation_data row c k
        = (if params.flagged_rows row = false
              ∧ (read_corralation_data row (params.spw_index_array row) c).visibility_flagged k
                  = false
              ∧ params.enabled_channels
                  (size_add (size_mul (params.spw_index_array row) params.channel_count) c)
                  = true
              ∧ params.field_array row = params.imaging_field
            then (read_corralation_data row (params.spw_index_array row) c).vis_weight k
            else 0)
    ∧ row_contribution to_float arcsec_to_rad params read_corralation_data shared_mem tid row c k
        = (if params.flagged_rows row = false
              ∧ (read_corralation_data row (params.spw_index_array row) c).visibility_flagged k
                  = false
              ∧ params.enabled_channels
                  (size_add (size_mul (params.spw_index_array row) params.channel_count) c)
                  = true
              ∧ params.field_array row = params.imaging_field
            then
              ((read_corralation_data row (params.spw_index_array row) c).vis k).scale
                ((read_corralation_data row (params.spw_index_array row) c).vis_weight k
                  * (shared_conv params shared_mem
                        (closest_conv_u to_float arcsec_to_rad params tid row c)
                      * shared_conv params shared_mem
                        (closest_conv_v to_float arcsec_to_rad params tid row c)))
            else ⟨0, 0⟩) := by
  have hw : combined_vis_weight params read_corralation_data row c k
        = (if params.flagged_rows row = false
              ∧ (read_corralation_data row (params.spw_index_array row) c).visibility_flagged k
                  = false
              ∧ params.enabled_channels
                  (size_add (size_mul (params.spw_index_array row) params.channel_count) c)
                  = true
              ∧ params.field_array row = params.imaging_field
            then (read_corralation_data row (params.spw_index_array row) c).vis_weight k
            else 0) := by
    unfold combined_vis_weight vis_flagged vector_promotion channel_enabled
      row_is_in_field_being_imaged flat_indexed_spw_channel
    cases h1 : params.flagged_rows row <;>
    cases h2 : (read_corralation_data row (params.spw_index_array row) c).visibility_flagged k <;>
    cases h3 : params.enabled_channels
      (size_add (size_mul (params.spw_index_array row) params.channel_count) c) <;>
    by_cases h4 : params.field_array row = params.imaging_field <;>
    simp [h4]
  refine ⟨hw, ?_⟩
  unfold row_contribution
  simp only [hw]
  split_ifs with h
  · rfl
  · simp [basic_complex.scale]

end AcceptanceClaim

section FacetClaims

/-- Claim C4 (baseline transform matrix): over the reals the nine stored coefficients
are the row-major entries of `Z(a_new) * T(ra_new, dec_new) * transpose (T(ra_old,
dec_old)) * transpose (Z(a_old))`, and `transform` returns that matrix times `(u, v, w)`. -/
theorem baseline_transform_matrix_eq (a_new a_old ra_old dec_old ra_new dec_new : ℝ) :
    (∀ i j : Fin 3,
      (baseline_transform_policy.lefthanded_ra_dec Real.cos Real.sin a_new a_old
          ra_old dec_old ra_new dec_new)._baseline_transform_matrix
          ⟨3 * i.val + j.val, by omega⟩
        = (Z_spec Real.cos Real.sin a_new * T_spec Real.cos Real.sin ra_new dec_new
            * Matrix.transpose (T_spec Real.cos Real.sin ra_old dec_old)
            * Matrix.transpose (Z_spec Real.cos Real.sin a_old)) i j)
    ∧ ∀ b : uvw_coord ℝ,
        ![((baseline_transform_policy.lefthanded_ra_dec Real.cos Real.sin a_new a_old
              ra_old dec_old ra_new dec_new).transform b)._u,
          ((baseline_transform_policy.lefthanded_ra_dec Real.cos Real.sin a_new a_old
              ra_old dec_old ra_new dec_new).transform b)._v,
          ((baseline_transform_policy.lefthanded_ra_dec Real.cos Real.sin a_new a_old
              ra_old dec_old ra_new dec_new).transform b)._w]
        = Matrix.mulVec
            (Z_spec Real.cos Real.sin a_new * T_spec Real.cos Real.sin ra_new dec_new
              * Matrix.transpose (T_spec Real.cos Real.sin ra_old dec_old)
              * Matrix.transpose (Z_spec Real.cos Real.sin a_old))
            ![b._u, b._v, b._w] := by
  have hM : full_transform Real.cos Real.sin a_new a_old ra_old dec_old ra_new dec_new
      = Z_spec Real.cos Real.sin a_new * T_spec Real.cos Real.sin ra_new dec_new
            * Matrix.transpose (T_spec Real.cos Real.sin ra_old dec_old)
            * Matrix.transpose (Z_spec Real.cos Real.sin a_old) := by
    unfold full_transform
    rw [TT_transpose_eq, z_rot_transpose_eq]
    have hz : z_rot Real.cos Real.sin a_new = Z_spec Real.cos Real.sin a_new := rfl
    rw [hz, Matrix.mul_assoc, Matrix.mul_assoc, Matrix.mul_assoc]
  have hentry : ∀ i j : Fin 3,
      (baseline_transform_policy.lefthanded_ra_dec Real.cos Real.sin a_new a_old
          ra_old dec_old ra_new dec_new)._baseline_transform_matrix
          ⟨3 * i.val + j.val, by omega⟩
        = full_transform Real.cos Real.sin a_new a_old ra_old dec_old ra_new dec_new i j := by
    intro i j
    fin_cases i <;> fin_cases j <;> rfl
  refine ⟨fun i j => by rw [hentry, hM], ?_⟩
  intro b
  rw [← hM, transform_lefthanded]
  ext i
  fin_cases i <;> simp [Matrix.mulVec, Matrix.dotProduct, Fin.sum_univ_three]

/-- Claim C5 (identity facet, baseline part): when the new phase centre equals the old
one and the two facet rotations are equal, `transform` leaves every `(u, v, w)`
unchanged. -/
theorem identity_facet_baseline (a ra dec : ℝ) (b : uvw_coord ℝ) :
    (baseline_transform_policy.lefthanded_ra_dec Real.cos Real.sin a a ra dec
        ra dec).transform b = b := by
  rw [transform_lefthanded, full_transform_same_centre]
  cases b
  simp

/-- Claim C6 (identity facet, phase part): when the new phase centre equals the old one,
`compute_delta_lmn` returns `(0, 0, 0)`, the phase shift term is `1 + 0i`, and
`apply_phase_transform` leaves 1-, 2- and 4-correlation records unchanged for every
`(u, v, w)`. -/
theorem identity_facet_phase (arcsec_to_rad ra dec : ℝ) (uvw : uvw_coord ℝ) :
    compute_delta_lmn Real.cos Real.sin arcsec_to_rad ra dec ra dec = ⟨0, 0, 0⟩
    ∧ phase_shift_term Real.cos Real.sin Real.pi
        (compute_delta_lmn Real.cos Real.sin arcsec_to_rad ra dec ra dec) uvw = ⟨1, 0⟩
    ∧ (∀ r : vec1 (basic_complex ℝ),
        apply_phase_transform_vec1 Real.cos Real.sin Real.pi
          (compute_delta_lmn Real.cos Real.sin arcsec_to_rad ra dec ra dec) uvw r = r)
    ∧ (∀ r : vec2 (basic_complex ℝ),
        apply_phase_transform_vec2 Real.cos Real.sin Real.pi
          (compute_delta_lmn Real.cos Real.sin arcsec_to_rad ra dec ra dec) uvw r = r)
    ∧ (∀ r : vec4 (basic_complex ℝ),
        apply_phase_transform_vec4 Real.cos Real.sin Real.pi
          (compute_delta_lmn Real.cos Real.sin arcsec_to_rad ra dec ra dec) uvw r = r) := by
  have hd : compute_delta_lmn Real.cos Real.sin arcsec_to_rad ra dec ra dec = ⟨0, 0, 0⟩ := by
    simp [compute_delta_lmn]
  have ht : phase_shift_term Real.cos Real.sin Real.pi
      (compute_delta_lmn Real.cos Real.sin arcsec_to_rad ra dec ra dec) uvw = ⟨1, 0⟩ := by
    rw [hd]
    simp [phase_shift_term]
  have hmul : ∀ z : basic_complex ℝ, z.mul ⟨1, 0⟩ = z := by
    intro z
    cases z
    simp [basic_complex.mul]
  refine ⟨hd, ht, ?_, ?_, ?_⟩
  · intro r
    cases r
    simp [apply_phase_transform_vec1, ht, hmul]
  · intro r
    cases r
    simp [apply_phase_transform_vec2, ht, hmul]
  · intro r
    cases r
    simp [apply_phase_transform_vec4, ht, hmul]

/-- Claim C7 as stated fails: for the old centre `(0, 0)` and the new centre
`(0, pi / 2)` the result of `compute_delta_lmn` is not the formula applied to the plain
differences, because the differences are first multiplied by `ARCSEC_TO_RAD`. -/
theorem delta_lmn_plain_difference_fails :
    compute_delta_lmn Real.cos Real.sin (ARCSEC_TO_RAD Real.pi) 0 0 0 (Real.pi / 2)
      ≠ delta_lmn_spec Real.cos Real.sin 0 0 0 (Real.pi / 2) := by
  intro h
  have hm := congrArg lmn_coord._m h
  simp only [compute_delta_lmn, delta_lmn_spec, ARCSEC_TO_RAD, sub_zero, Real.sin_pi_div_two,
    neg_inj] at hm
  have hpos : 0 < Real.pi / 2 * (Real.pi / (180 * 3600)) := by positivity
  have hlt : Real.sin (Real.pi / 2 * (Real.pi / (180 * 3600)))
      < Real.pi / 2 * (Real.pi / (180 * 3600)) := Real.sin_lt hpos
  have hpi : Real.pi < 4 := Real.pi_lt_four
  have hpi0 : 0 < Real.pi := Real.pi_pos
  have hsmall : Real.pi / 2 * (Real.pi / (180 * 3600)) < 1 := by
    have : Real.pi * Real.pi < 4 * 4 := by nlinarith
    have e : Real.pi / 2 * (Real.pi / (180 * 3600)) = Real.pi * Real.pi / 1296000 := by ring
    rw [e, div_lt_one (by norm_num)]
    linarith
  linarith

/-- Claim C7 (amended): `compute_delta_lmn` returns `l = -cos(d_dec) * sin(d_ra)`,
`m = -sin(d_dec)`, `n = 1 - cos(d_dec) * cos(d_ra)` where `d_ra` and `d_dec` are the
differences of the inputs multiplied by `ARCSEC_TO_RAD`; that is the formula of the
specification applied to the inputs converted from arcseconds to radians. -/
theorem delta_lmn_formula {R : Type} [Field R] (cos sin : R → R) (arcsec_to_rad
    old_phase_centre_ra old_phase_centre_dec new_phase_centre_ra new_phase_centre_dec : R) :
    compute_delta_lmn cos sin arcsec_to_rad old_phase_centre_ra old_phase_centre_dec
        new_phase_centre_ra new_phase_centre_dec
      = { _l := -cos ((new_phase_centre_dec - old_phase_centre_dec) * arcsec_to_rad)
            * sin ((new_phase_centre_ra - old_phase_centre_ra) * arcsec_to_rad)
          _m := -sin ((new_phase_centre_dec - old_phase_centre_dec) * arcsec_to_rad)
          _n := 1 - cos ((new_phase_centre_dec - old_phase_centre_dec) * arcsec_to_rad)
            * cos ((new_phase_centre_ra - old_phase_centre_ra) * arcsec_to_rad) }
    ∧ compute_delta_lmn cos sin arcsec_to_rad old_phase_centre_ra old_phase_centre_dec
        new_phase_centre_ra new_phase_centre_dec
      = delta_lmn_spec cos sin (old_phase_centre_ra * arcsec_to_rad)
          (old_phase_centre_dec * arcsec_to_rad) (new_phase_centre_ra * arcsec_to_rad)
          (new_phase_centre_dec * arcsec_to_rad) := by
  refine ⟨rfl, ?_⟩
  simp only [compute_delta_lmn, delta_lmn_spec, sub_mul]

/-- Claim C8 (phase shift application): the enabled `apply_phase_transform` multiplies
every correlation of a 1-, 2- or 4-correlation record by the same complex factor
`cos x + i sin x`, `x = 2 pi (u dl + v dm + w dn)`; the disabled variant leaves every
record unchanged. -/
theorem phase_shift_application (delta_lmn : lmn_coord ℝ) (uvw : uvw_coord ℝ) :
    (∀ r : vec1 (basic_complex ℝ),
      (apply_phase_transform_vec1 Real.cos Real.sin Real.pi delta_lmn uvw r)._x.toComplex
        = r._x.toComplex * phase_factor_spec Real.cos Real.sin Real.pi delta_lmn uvw)
    ∧ (∀ r : vec2 (basic_complex ℝ),
      (apply_phase_transform_vec2 Real.cos Real.sin Real.pi delta_lmn uvw r)._x.toComplex
          = r._x.toComplex * phase_factor_spec Real.cos Real.sin Real.pi delta_lmn uvw
        ∧ (apply_phase_transform_vec2 Real.cos Real.sin Real.pi delta_lmn uvw r)._y.toComplex
          = r._y.toComplex * phase_factor_spec Real.cos Real.sin Real.pi delta_lmn uvw)
    ∧ (∀ r : vec4 (basic_complex ℝ),
      (apply_phase_transform_vec4 Real.cos Real.sin Real.pi delta_lmn uvw r)._x.toComplex
          = r._x.toComplex * phase_factor_spec Real.cos Real.sin Real.pi delta_lmn uvw
        ∧ (apply_phase_transform_vec4 Real.cos Real.sin Real.pi delta_lmn uvw r)._y.toComplex
          = r._y.toComplex * phase_factor_spec Real.cos Real.sin Real.pi delta_lmn uvw
        ∧ (apply_phase_transform_vec4 Real.cos Real.sin Real.pi delta_lmn uvw r)._z.toComplex
          = r._z.toComplex * phase_factor_spec Real.cos Real.sin Real.pi delta_lmn uvw
        ∧ (apply_phase_transform_vec4 Real.cos Real.sin Real.pi delta_lmn uvw r)._w.toComplex
          = r._w.toComplex * phase_factor_spec Real.cos Real.sin Real.pi delta_lmn uvw)
    ∧ (∀ r : vec1 (basic_complex ℝ), apply_phase_transform_disabled delta_lmn uvw r = r)
    ∧ (∀ r : vec2 (basic_complex ℝ), apply_phase_transform_disabled delta_lmn uvw r = r)
    ∧ (∀ r : vec4 (basic_complex ℝ), apply_phase_transform_disabled delta_lmn uvw r = r) := by
  have hmul : ∀ z : basic_complex ℝ,
      (z.mul (phase_shift_term Real.cos Real.sin Real.pi delta_lmn uvw)).toComplex
        = z.toComplex * phase_factor_spec Real.cos Real.sin Real.pi delta_lmn uvw := by
    intro z
    apply Complex.ext
    · simp [basic_complex.mul, basic_complex.toComplex, phase_shift_term, phase_factor_spec]
    · simp [basic_complex.mul, basic_complex.toComplex, phase_shift_term, phase_factor_spec]
  refine ⟨fun r => hmul _, fun r => ⟨hmul _, hmul _⟩,
    fun r => ⟨hmul _, hmul _, hmul _, hmul _⟩, fun r => rfl, fun r => rfl, fun r => rfl⟩

end FacetClaims

section FirClaims

variable {R : Type} [LinearOrderedField R] [FloorRing R] {V : Type}

/-- Claim C9 as stated fails: on an 8 x 8 grid with `S = 1`, `O = 2` and the kernel
`K[i] = i`, the weight deposited for the tap `(1, 1)` at cell `(iu + 1, iv + 1)` differs
from `K[floor((fv + 1) O) + 1 * O] * K[floor((fu + 1) O) + 1 * O]`. -/
theorem fir_tap_weight_spec_fails :
    ∃ c ∈ (convolve_precomputed_fir
        (convolution_policy.precomputed_fir 8 8 1 1 2 (fun i => (i : ℚ)))
        ⟨1 / 2, 1 / 2, 0⟩ (1 : ℚ) 0 0).2,
      c.term_flat_index
          = (disc_grid_v (convolution_policy.precomputed_fir 8 8 1 1 2 (fun i => (i : ℚ)))
                ⟨1 / 2, 1 / 2, 0⟩ + 1) * 8
            + (disc_grid_u (convolution_policy.precomputed_fir 8 8 1 1 2 (fun i => (i : ℚ)))
                ⟨1 / 2, 1 / 2, 0⟩ + 1)
        ∧ c.conv_weight
          ≠ fir_tap_weight_spec
              (convolution_policy.precomputed_fir 8 8 1 1 2 (fun i => (i : ℚ)))
              ⟨1 / 2, 1 / 2, 0⟩ 1 1 := by
  refine ⟨⟨27, 1, 4⟩, ?_, ?_, ?_⟩
  · norm_num [convolve_precomputed_fir, convolution_policy.precomputed_fir, disc_grid_u,
      disc_grid_v, translated_grid_u, translated_grid_v, edge_test, size_add, size_mul,
      to_size_t_natCast, to_size_t_zero, to_size_t_one, to_size_t_ofNat, lrint_zero,
      lrint_one, lrint_ofNat, fir_outer_loop, fir_inner_loop, frac_u, frac_v,
      float_to_size_t]
  · norm_num [convolution_policy.precomputed_fir, disc_grid_u,
      disc_grid_v, translated_grid_u, translated_grid_v, size_add, size_mul,
      to_size_t_natCast, to_size_t_zero, to_size_t_one, to_size_t_ofNat, lrint_zero,
      lrint_one, lrint_ofNat]
  · norm_num [fir_tap_weight_spec, convolution_policy.precomputed_fir, disc_grid_u,
      disc_grid_v, translated_grid_u, translated_grid_v, size_add, size_mul,
      to_size_t_natCast, to_size_t_zero, to_size_t_one, to_size_t_ofNat, lrint_zero,
      lrint_one, lrint_ofNat, frac_u, frac_v]

/-- Claim C9 (amended): for a sample that is not on the edge, the calls of the
pre-computed FIR `convolve` are, tap by tap for `s_v, s_u` in `[1, 2 S + 1]` (`s_v`
outer), the deposit at cell `(iu + s_u, iv + s_v)` of the weight
`K[floor((fv + 1) O) + (s_v - 1) O] * K[floor((fu + 1) O) + (s_u - 1) O]`. The kernel
length `(2 S + 3) O` fits in a `size_t`, the grid sizes are at most `2 ^ 63` and the
translated coordinates are in the range of `long`. -/
theorem fir_tap_weights (nx ny no_polarizations S O : Nat) (conv : Nat → R)
    (p : convolution_policy R) (uvw : uvw_coord R) (vis : V)
    (no_grids_to_offset facet_id : Nat)
    (hp : p = convolution_policy.precomputed_fir nx ny no_polarizations S O conv)
    (hK : (2 * S + 3) * O ≤ 2 ^ 64) (hS : 2 * S + 1 < 2 ^ 63)
    (hnx : nx ≤ 2 ^ 63) (hny : ny ≤ 2 ^ 63)
    (hu : in_long_range (translated_grid_u p uvw))
    (hv : in_long_range (translated_grid_v p uvw))
    (hedge : edge_test p (disc_grid_u p uvw) (disc_grid_v p uvw) = false) :
    (convolve_precomputed_fir p uvw vis no_grids_to_offset facet_id).2
      = (List.range' 1 (2 * S + 1)).flatMap (fun s_v =>
          (List.range' 1 (2 * S + 1)).map (fun s_u =>
            (⟨size_add (size_mul no_grids_to_offset p._cube_chan_dim_step)
                (size_add (size_mul (disc_grid_v p uvw + s_v) ny) (disc_grid_u p uvw + s_u)),
              vis,
              conv (Nat.floor ((frac_v p uvw + 1) * (O : R)) + (s_v - 1) * O)
                * conv (Nat.floor ((frac_u p uvw + 1) * (O : R)) + (s_u - 1) * O)⟩ :
              grid_call R V))) := by
  have hsup : p._convolution_support = 2 * S + 1 := by
    rw [hp]
    exact full_support_eq (by omega)
  have hpnx : p._nx = nx := by rw [hp]; rfl
  have hpny : p._ny = ny := by rw [hp]; rfl
  have hpO : p._oversampling_factor = O := by rw [hp]; rfl
  have hpK : p._conv = conv := by rw [hp]; rfl
  obtain ⟨he1, he2, he3, he4⟩ := (edge_test_eq_false_iff p _ _).mp hedge
  rw [hsup, hpny] at he1
  rw [hsup, hpnx] at he2
  rw [hpny] at he3
  rw [hpnx] at he4
  have hdu : size_add (disc_grid_u p uvw) (2 * S + 1) = disc_grid_u p uvw + (2 * S + 1) :=
    size_add_of_lt (by omega)
  have hdv : size_add (disc_grid_v p uvw) (2 * S + 1) = disc_grid_v p uvw + (2 * S + 1) :=
    size_add_of_lt (by omega)
  rw [hdu] at he2
  rw [hdv] at he1
  have hfu := frac_bounds (translated_grid_u p uvw) nx hu hnx he4
  have hfv := frac_bounds (translated_grid_v p uvw) ny hv hny he3
  have h3O : 3 * O ≤ 2 ^ 64 := by
    have : 3 * O ≤ (2 * S + 3) * O := Nat.mul_le_mul_right O (by omega)
    omega
  obtain ⟨hcu, hcu2⟩ := conv_phase_eq (frac_u p uvw) O hfu.1 hfu.2 h3O
  obtain ⟨hcv, hcv2⟩ := conv_phase_eq (frac_v p uvw) O hfv.1 hfv.2 h3O
  have hidx : ∀ (c i : Nat), 2 * c ≤ 3 * O → i < 2 * S + 1 → (c + i * O) % 2 ^ 64 = c + i * O := by
    intro c i hc hi
    apply Nat.mod_eq_of_lt
    rcases Nat.eq_zero_or_pos O with h0 | h0
    · subst h0
      simp only [Nat.mul_zero] at hc ⊢
      omega
    · have h1 : i * O ≤ 2 * S * O := Nat.mul_le_mul_right O (by omega)
      have h2 : (2 * S + 3) * O = 2 * S * O + 3 * O := by ring
      omega
  have hloop := fir_outer_loop_calls p vis (size_mul no_grids_to_offset p._cube_chan_dim_step)
    (disc_grid_u p uvw) (float_to_size_t ((frac_u p uvw + 1) * (p._oversampling_factor : R)))
    p._convolution_support
    (float_to_size_t ((frac_v p uvw + 1) * (p._oversampling_factor : R)))
    (size_add (disc_grid_v p uvw) 1 * p._ny) (0, [])
  rw [Nat.mod_eq_of_lt (float_to_size_t_lt _), Nat.mod_eq_of_lt (float_to_size_t_lt _)] at hloop
  unfold convolve_precomputed_fir
  simp only [hedge, Bool.false_eq_true, if_false]
  unfold size_mul at hloop ⊢
  rw [hloop]
  simp only [List.nil_append, hsup, hpO, hpny, hpK, hcu, hcv, List.range'_eq_map_range,
    List.flatMap_map, List.map_map]
  apply List.flatMap_congr
  intro j hj
  apply List.map_congr_left
  intro i hi
  have hj' : j < 2 * S + 1 := List.mem_range.mp hj
  have hi' : i < 2 * S + 1 := List.mem_range.mp hi
  simp only [Function.comp, Nat.add_sub_cancel_left]
  rw [hidx _ i hcu2 hi', hidx _ j hcv2 hj']
  have e1 : size_add (disc_grid_v p uvw) 1 = disc_grid_v p uvw + 1 := size_add_of_lt (by omega)
  have e2 : size_add (disc_grid_u p uvw) (1 + i) = disc_grid_u p uvw + (1 + i) :=
    size_add_of_lt (by omega)
  have e3 : (disc_grid_v p uvw + 1) * ny + j * ny = (disc_grid_v p uvw + (1 + j)) * ny := by
    ring
  rw [e1, e2, e3]
  congr 1
  exact mul_comm _ _

/-- Claim C9 (amended) at a concrete input: the nine deposits for an 8 x 8 grid,
`S = 1`, `O = 2`, `K[i] = i` and the sample `(1/2, 1/2)`. -/
theorem fir_tap_weights_witness :
    (convolve_precomputed_fir
        (convolution_policy.precomputed_fir 8 8 1 1 2 (fun i => (i : ℚ)))
        ⟨1 / 2, 1 / 2, 0⟩ (1 : ℚ) 0 0).2
      = [⟨27, 1, 4⟩, ⟨28, 1, 8⟩, ⟨29, 1, 12⟩, ⟨35, 1, 8⟩, ⟨36, 1, 16⟩, ⟨37, 1, 24⟩,
          ⟨43, 1, 12⟩, ⟨44, 1, 24⟩, ⟨45, 1, 36⟩] :=
  (fir_tap_weights 8 8 1 1 2 (fun i => (i : ℚ))
    (convolution_policy.precomputed_fir 8 8 1 1 2 (fun i => (i : ℚ)))
    ⟨1 / 2, 1 / 2, 0⟩ (1 : ℚ) 0 0 rfl (by norm_num) (by norm_num) (by norm_num)
    (by norm_num)
    (by norm_num [in_long_range, translated_grid_u, convolution_policy.precomputed_fir,
      size_add, size_mul])
    (by norm_num [in_long_range, translated_grid_v, convolution_policy.precomputed_fir,
      size_add, size_mul])
    (by norm_num [edge_test, convolution_policy.precomputed_fir, disc_grid_u,
      disc_grid_v, translated_grid_u, translated_grid_v, size_add, size_mul,
      to_size_t_natCast, to_size_t_zero, to_size_t_one, to_size_t_ofNat, lrint_zero,
      lrint_one, lrint_ofNat])).trans
    (by
      norm_num [List.range', convolution_policy.precomputed_fir, disc_grid_u,
        disc_grid_v, translated_grid_u, translated_grid_v, size_add, size_mul,
        to_size_t_natCast, to_size_t_zero, to_size_t_one, to_size_t_ofNat, lrint_zero,
        lrint_one, lrint_ofNat, frac_u, frac_v])

/-- Claim C10 as stated fails: for `nx = 8`, `S = 1` and `u = 0` the translated
coordinate is not `u + nx / 2 - (S + 2) / 2`. -/
theorem fir_centring_spec_fails :
    translated_grid_u (convolution_policy.precomputed_fir 8 8 1 1 2 (fun i => (i : ℚ)))
        ⟨0, 0, 0⟩
      ≠ translated_spec 8 1 (0 : ℚ) := by
  norm_num [translated_grid_u, translated_spec, convolution_policy.precomputed_fir, size_add,
    size_mul]

/-- Claim C10 (amended): with `S` the half support, the pre-computed FIR `convolve`
translates the sample to `u + nx / 2 - (2 S + 3) / 2` and `v + ny / 2 - (2 S + 3) / 2`
(`nx / 2` and `ny / 2` the integer quotients), `(iu, iv)` is the rounding of the
translated pair stored in a `size_t`, and `fu = iu - u`, `fv = iv - v` for the
translated `u`, `v`. -/
theorem fir_centring (nx ny no_polarizations S O : Nat) (conv : Nat → R)
    (p : convolution_policy R) (uvw : uvw_coord R)
    (hp : p = convolution_policy.precomputed_fir nx ny no_polarizations S O conv)
    (hS : 2 * S + 3 < 2 ^ 64) :
    translated_grid_u p uvw = uvw._u + ((nx / 2 : Nat) : R) - (2 * (S : R) + 3) / 2
    ∧ translated_grid_v p uvw = uvw._v + ((ny / 2 : Nat) : R) - (2 * (S : R) + 3) / 2
    ∧ disc_grid_u p uvw = to_size_t (lrint (translated_grid_u p uvw))
    ∧ disc_grid_v p uvw = to_size_t (lrint (translated_grid_v p uvw))
    ∧ frac_u p uvw = ((disc_grid_u p uvw : Nat) : R) - translated_grid_u p uvw
    ∧ frac_v p uvw = ((disc_grid_v p uvw : Nat) : R) - translated_grid_v p uvw := by
  have hoff : p._conv_centre_offset = (2 * (S : R) + 3) / 2 := by
    rw [hp]
    show ((size_add (size_add (size_mul S 2) 1) 2 : Nat) : R) / 2 = (2 * (S : R) + 3) / 2
    rw [full_support_eq (by omega), size_add_of_lt (by omega)]
    push_cast
    ring
  have hcu : p._grid_u_centre = ((nx / 2 : Nat) : R) := by rw [hp]; rfl
  have hcv : p._grid_v_centre = ((ny / 2 : Nat) : R) := by rw [hp]; rfl
  refine ⟨?_, ?_, rfl, rfl, ?_, ?_⟩
  · unfold translated_grid_u
    rw [hoff, hcu]
  · unfold translated_grid_v
    rw [hoff, hcv]
  · unfold frac_u
    ring
  · unfold frac_v
    ring

/-- Claim C10 (amended) at a concrete input: `nx = 8`, `S = 1`, `u = 0` gives the
translated coordinate `3 / 2`. -/
theorem fir_centring_witness :
    translated_grid_u (convolution_policy.precomputed_fir 8 8 1 1 2 (fun i => (i : ℚ)))
        ⟨0, 0, 0⟩ = 3 / 2 :=
  ((fir_centring 8 8 1 1 2 (fun i => (i : ℚ))
    (convolution_policy.precomputed_fir 8 8 1 1 2 (fun i => (i : ℚ))) ⟨0, 0, 0⟩ rfl
    (by norm_num)).1).trans (by norm_num)

end FirClaims

/-! ## Claims C11 - C20 -/

section AccumLemmas
variable {R : Type} [LinearOrderedField R] {V : Type}

/-- The weight accumulated by one run of the inner loop of the pre-computed FIR
`convolve`. -/
theorem fir_inner_loop_accum (p : convolution_policy R) (vis : V)
    (chan_offset du convolved_grid_v : Nat) (conv_v_weight : R) :
    ∀ (m sup_u conv_u : Nat) (st : R × List (grid_call R V)),
      (fir_inner_loop p vis chan_offset du convolved_grid_v conv_v_weight m sup_u
          (conv_u % 2 ^ 64) st).1
        = st.1 + ((List.range m).map (fun i =>
            p._conv ((conv_u + i * p._oversampling_factor) % 2 ^ 64) * conv_v_weight)).sum := by
  intro m
  induction m with
  | zero => intro sup_u conv_u st; simp [fir_inner_loop]
  | succ m ih =>
    intro sup_u conv_u st
    rw [fir_inner_loop, size_add_mod_left, ih, List.range_succ_eq_map, List.map_cons,
      List.map_map, List.sum_cons]
    simp only [Nat.zero_mul, Nat.add_zero, add_assoc]
    congr 3
    apply List.map_congr_left
    intro i _
    simp only [Function.comp, Nat.succ_eq_add_one]
    have e2 : conv_u + (p._oversampling_factor + i * p._oversampling_factor)
        = conv_u + (i + 1) * p._oversampling_factor := by ring
    rw [e2]

/-- The weight accumulated by the outer loop of the pre-computed FIR `convolve`. -/
theorem fir_outer_loop_accum (p : convolution_policy R) (vis : V)
    (chan_offset du conv_u0 : Nat) :
    ∀ (m conv_v convolved_grid_v : Nat) (st : R × List (grid_call R V)),
      (fir_outer_loop p vis chan_offset du (conv_u0 % 2 ^ 64) m (conv_v % 2 ^ 64)
          convolved_grid_v st).1
        = st.1 + ((List.range m).map (fun j =>
            ((List.range p._convolution_support).map (fun i =>
              p._conv ((conv_u0 + i * p._oversampling_factor) % 2 ^ 64)
                * p._conv ((conv_v + j * p._oversampling_factor) % 2 ^ 64))).sum)).sum := by
  intro m
  induction m with
  | zero => intro conv_v convolved_grid_v st; simp [fir_outer_loop]
  | succ m ih =>
    intro conv_v convolved_grid_v st
    rw [fir_outer_loop, size_add_mod_left, ih, fir_inner_loop_accum,
      List.range_succ_eq_map, List.map_cons, List.map_map, List.sum_cons]
    simp only [Nat.zero_mul, Nat.add_zero, add_assoc]
    congr 3
    apply List.map_congr_left
    intro j _
    simp only [Function.comp, Nat.succ_eq_add_one]
    have e2 : conv_v + (p._oversampling_factor + j * p._oversampling_factor)
        = conv_v + (j + 1) * p._oversampling_factor := by ring
    rw [e2]

/-- A double sum of products of a factor in `i` and a factor in `j` is the product of
the two sums. -/
theorem sum_map_sum_map_mul (a b : Nat → R) (n m : Nat) :
    ((List.range m).map (fun j => ((List.range n).map (fun i => a i * b j)).sum)).sum
      = ((List.range n).map a).sum * ((List.range m).map b).sum := by
  have h1 : ∀ j, ((List.range n).map (fun i => a i * b j)).sum
      = ((List.range n).map a).sum * b j := by
    intro j
    rw [← List.sum_map_mul_right]
  simp only [h1]
  rw [List.sum_map_mul_left]

end AccumLemmas

section OtfLemmas
variable {R : Type} [LinearOrderedField R] {V : Type}

/-- The calls made by one run of the inner loop of the on-the-fly `convolve`. -/
theorem otf_inner_loop_calls (sin : R → R) (pi : R) (p : convolution_policy R) (vis : V)
    (chan_offset du convolved_grid_v : Nat) (conv_v fu : R) :
    ∀ (m sup_u : Nat) (st : R × List (grid_call R V)),
      (otf_inner_loop sin pi p vis chan_offset du convolved_grid_v conv_v fu m sup_u st).2
        = st.2 ++ (List.range m).map (fun i =>
            (⟨size_add chan_offset
                (size_add (size_mul convolved_grid_v p._ny) (size_add du (sup_u + i))),
              vis,
              convolve_lambda sin pi conv_v
                * convolve_lambda sin pi
                    (((sup_u + i : Nat) : R) - p._conv_centre_offset + fu)⟩ :
              grid_call R V)) := by
  intro m
  induction m with
  | zero => intro sup_u st; simp [otf_inner_loop]
  | succ m ih =>
    intro sup_u st
    rw [otf_inner_loop, ih, List.range_succ_eq_map, List.map_cons, List.map_map]
    simp only [List.append_assoc, List.singleton_append, Nat.add_zero]
    congr 2
    apply List.map_congr_left
    intro i _
    simp only [Function.comp, Nat.succ_eq_add_one]
    have e1 : sup_u + 1 + i = sup_u + (i + 1) := by omega
    rw [e1]

/-- The calls made by the outer loop of the on-the-fly `convolve`. -/
theorem otf_outer_loop_calls (sin : R → R) (pi : R) (p : convolution_policy R) (vis : V)
    (chan_offset du dv : Nat) (fu fv : R) :
    ∀ (m sup_v : Nat) (st : R × List (grid_call R V)),
      (otf_outer_loop sin pi p vis chan_offset du dv fu fv m sup_v st).2
        = st.2 ++ (List.range m).flatMap (fun j =>
            (List.range p._convolution_support).map (fun i =>
              (⟨size_add chan_offset
                  (size_add (size_mul (size_add dv (sup_v + j)) p._ny) (size_add du (0 + i))),
                vis,
                convolve_lambda sin pi (((sup_v + j : Nat) : R) - p._conv_centre_offset + fv)
                  * convolve_lambda sin pi
                      (((0 + i : Nat) : R) - p._conv_centre_offset + fu)⟩ :
                grid_call R V))) := by
  intro m
  induction m with
  | zero => intro sup_v st; simp [otf_outer_loop]
  | succ m ih =>
    intro sup_v st
    rw [otf_outer_loop, ih, otf_inner_loop_calls, List.range_succ_eq_map, List.flatMap_cons,
      List.flatMap_map]
    simp only [List.append_assoc, Nat.add_zero]
    congr 2
    apply List.flatMap_congr
    intro j _
    apply List.map_congr_left
    intro i _
    simp only [Nat.succ_eq_add_one]
    have e1 : sup_v + 1 + j = sup_v + (j + 1) := by omega
    rw [e1]

/-- The sum of the convolution weights of a list of calls. -/
theorem weight_sum_append (l : List (grid_call R V)) (c : grid_call R V) :
    ((l ++ [c]).map (fun c => c.conv_weight)).sum
      = (l.map (fun c => c.conv_weight)).sum + c.conv_weight := by
  simp

/-- The inner FIR loop keeps `accum` equal to the sum of the weights passed so far, and
adds one call per iteration. -/
theorem fir_inner_loop_inv (p : convolution_policy R) (vis : V)
    (chan_offset du convolved_grid_v : Nat) (conv_v_weight : R) :
    ∀ (m sup_u conv_u : Nat) (st : R × List (grid_call R V)),
      st.1 = (st.2.map (fun c => c.conv_weight)).sum →
      (fir_inner_loop p vis chan_offset du convolved_grid_v conv_v_weight m sup_u conv_u st).1
          = ((fir_inner_loop p vis chan_offset du convolved_grid_v conv_v_weight m sup_u
              conv_u st).2.map (fun c => c.conv_weight)).sum
        ∧ (fir_inner_loop p vis chan_offset du convolved_grid_v conv_v_weight m sup_u
              conv_u st).2.length = st.2.length + m := by
  intro m
  induction m with
  | zero => intro sup_u conv_u st h; exact ⟨h, rfl⟩
  | succ m ih =>
    intro sup_u conv_u st h
    rw [fir_inner_loop]
    have h2 := ih (sup_u + 1) (size_add conv_u p._oversampling_factor)
      (st.1 + p._conv conv_u * conv_v_weight,
        st.2 ++ [⟨size_add chan_offset (size_add convolved_grid_v (size_add du sup_u)), vis,
          p._conv conv_u * conv_v_weight⟩])
      (by rw [weight_sum_append, h])
    refine ⟨h2.1, ?_⟩
    rw [h2.2]
    simp only [List.length_append, List.length_singleton]
    omega

/-- The outer FIR loop keeps `accum` equal to the sum of the weights passed so far, and
adds `_convolution_support` calls per iteration. -/
theorem fir_outer_loop_inv (p : convolution_policy R) (vis : V)
    (chan_offset du conv_u0 : Nat) :
    ∀ (m conv_v convolved_grid_v : Nat) (st : R × List (grid_call R V)),
      st.1 = (st.2.map (fun c => c.conv_weight)).sum →
      (fir_outer_loop p vis chan_offset du conv_u0 m conv_v convolved_grid_v st).1
          = ((fir_outer_loop p vis chan_offset du conv_u0 m conv_v convolved_grid_v
              st).2.map (fun c => c.conv_weight)).sum
        ∧ (fir_outer_loop p vis chan_offset du conv_u0 m conv_v convolved_grid_v
              st).2.length = st.2.length + m * p._convolution_support := by
  intro m
  induction m with
  | zero => intro conv_v convolved_grid_v st h; exact ⟨h, by simp [fir_outer_loop]⟩
  | succ m ih =>
    intro conv_v convolved_grid_v st h
    rw [fir_outer_loop]
    have h1 := fir_inner_loop_inv p vis chan_offset du convolved_grid_v (p._conv conv_v)
      p._convolution_support 1 conv_u0 st h
    have h2 := ih (size_add conv_v p._oversampling_factor)
      (size_add convolved_grid_v p._ny) _ h1.1
    refine ⟨h2.1, ?_⟩
    rw [h2.2, h1.2]
    ring

/-- The inner on-the-fly loop keeps `accum` equal to the sum of the weights passed so
far, and adds one call per iteration. -/
theorem otf_inner_loop_inv (sin : R → R) (pi : R) (p : convolution_policy R) (vis : V)
    (chan_offset du convolved_grid_v : Nat) (conv_v fu : R) :
    ∀ (m sup_u : Nat) (st : R × List (grid_call R V)),
      st.1 = (st.2.map (fun c => c.conv_weight)).sum →
      (otf_inner_loop sin pi p vis chan_offset du convolved_grid_v conv_v fu m sup_u st).1
          = ((otf_inner_loop sin pi p vis chan_offset du convolved_grid_v conv_v fu m sup_u
              st).2.map (fun c => c.conv_weight)).sum
        ∧ (otf_inner_loop sin pi p vis chan_offset du convolved_grid_v conv_v fu m sup_u
              st).2.length = st.2.length + m := by
  intro m
  induction m with
  | zero => intro sup_u st h; exact ⟨h, rfl⟩
  | succ m ih =>
    intro sup_u st h
    rw [otf_inner_loop]
    have h2 := ih (sup_u + 1)
      (st.1 + convolve_lambda sin pi conv_v
          * convolve_lambda sin pi ((sup_u : R) - p._conv_centre_offset + fu),
        st.2 ++ [⟨size_add chan_offset
            (size_add (size_mul convolved_grid_v p._ny) (size_add du sup_u)), vis,
          convolve_lambda sin pi conv_v
            * convolve_lambda sin pi ((sup_u : R) - p._conv_centre_offset + fu)⟩])
      (by rw [weight_sum_append, h])
    refine ⟨h2.1, ?_⟩
    rw [h2.2]
    simp only [List.length_append, List.length_singleton]
    omega

/-- The outer on-the-fly loop keeps `accum` equal to the sum of the weights passed so
far, and adds `_convolution_support` calls per iteration. -/
theorem otf_outer_loop_inv (sin : R → R) (pi : R) (p : convolution_policy R) (vis : V)
    (chan_offset du dv : Nat) (fu fv : R) :
    ∀ (m sup_v : Nat) (st : R × List (grid_call R V)),
      st.1 = (st.2.map (fun c => c.conv_weight)).sum →
      (otf_outer_loop sin pi p vis chan_offset du dv fu fv m sup_v st).1
          = ((otf_outer_loop sin pi p vis chan_offset du dv fu fv m sup_v
              st).2.map (fun c => c.conv_weight)).sum
        ∧ (otf_outer_loop sin pi p vis chan_offset du dv fu fv m sup_v st).2.length
            = st.2.length + m * p._convolution_support := by
  intro m
  induction m with
  | zero => intro sup_v st h; exact ⟨h, by simp [otf_outer_loop]⟩
  | succ m ih =>
    intro sup_v st h
    rw [otf_outer_loop]
    have h1 := otf_inner_loop_inv sin pi p vis chan_offset du (size_add dv sup_v)
      ((sup_v : R) - p._conv_centre_offset + fv) fu p._convolution_support 0 st h
    have h2 := ih (sup_v + 1) _ h1.1
    refine ⟨h2.1, ?_⟩
    rw [h2.2, h1.2]
    ring

end OtfLemmas

section ReturnedWeight
variable {R : Type} [LinearOrderedField R] [FloorRing R] {V : Type}

/-- The value returned by the pre-computed FIR `convolve` on a sample that passes the
edge test: the product of the two sums of kernel entries read with stride `O`. -/
theorem convolve_precomputed_fir_accum (p : convolution_policy R) (uvw : uvw_coord R)
    (vis : V) (no_grids_to_offset facet_id : Nat)
    (hedge : edge_test p (disc_grid_u p uvw) (disc_grid_v p uvw) = false) :
    (convolve_precomputed_fir p uvw vis no_grids_to_offset facet_id).1
      = ((List.range p._convolution_support).map (fun i =>
            p._conv ((float_to_size_t ((frac_u p uvw + 1) * (p._oversampling_factor : R))
              + i * p._oversampling_factor) % 2 ^ 64))).sum
        * ((List.range p._convolution_support).map (fun j =>
            p._conv ((float_to_size_t ((frac_v p uvw + 1) * (p._oversampling_factor : R))
              + j * p._oversampling_factor) % 2 ^ 64))).sum := by
  have hloop := fir_outer_loop_accum p vis (size_mul no_grids_to_offset p._cube_chan_dim_step)
    (disc_grid_u p uvw) (float_to_size_t ((frac_u p uvw + 1) * (p._oversampling_factor : R)))
    p._convolution_support
    (float_to_size_t ((frac_v p uvw + 1) * (p._oversampling_factor : R)))
    (size_mul (size_add (disc_grid_v p uvw) 1) p._ny) (0, [])
  rw [Nat.mod_eq_of_lt (float_to_size_t_lt _), Nat.mod_eq_of_lt (float_to_size_t_lt _)] at hloop
  unfold convolve_precomputed_fir
  simp only [hedge, Bool.false_eq_true, if_false]
  rw [hloop, zero_add, sum_map_sum_map_mul]

/-- The pre-computed FIR `convolve` on a sample that passes the edge test returns the
sum of the weights it passed on, and makes `_convolution_support ^ 2` calls. -/
theorem convolve_precomputed_fir_inv (p : convolution_policy R) (uvw : uvw_coord R)
    (vis : V) (no_grids_to_offset facet_id : Nat)
    (hedge : edge_test p (disc_grid_u p uvw) (disc_grid_v p uvw) = false) :
    (convolve_precomputed_fir p uvw vis no_grids_to_offset facet_id).1
        = ((convolve_precomputed_fir p uvw vis no_grids_to_offset facet_id).2.map
            (fun c => c.conv_weight)).sum
      ∧ (convolve_precomputed_fir p uvw vis no_grids_to_offset facet_id).2.length
        = p._convolution_support * p._convolution_support := by
  unfold convolve_precomputed_fir
  simp only [hedge, Bool.false_eq_true, if_false]
  have h := fir_outer_loop_inv p vis (size_mul no_grids_to_offset p._cube_chan_dim_step)
    (disc_grid_u p uvw) (float_to_size_t ((frac_u p uvw + 1) * (p._oversampling_factor : R)))
    p._convolution_support
    (float_to_size_t ((frac_v p uvw + 1) * (p._oversampling_factor : R)))
    (size_mul (size_add (disc_grid_v p uvw) 1) p._ny) (0, []) (by simp)
  refine ⟨h.1, ?_⟩
  rw [h.2]
  simp

/-- The on-the-fly `convolve` on a sample that passes the edge test returns the sum of
the weights it passed on, and makes `_convolution_support ^ 2` calls. -/
theorem convolve_on_the_fly_inv (sin : R → R) (pi : R) (p : convolution_policy R)
    (uvw : uvw_coord R) (vis : V) (no_grids_to_offset facet_id : Nat)
    (hedge : edge_test p (disc_grid_u p uvw) (disc_grid_v p uvw) = false) :
    (convolve_on_the_fly_computed_fir sin pi p uvw vis no_grids_to_offset facet_id).1
        = ((convolve_on_the_fly_computed_fir sin pi p uvw vis no_grids_to_offset
            facet_id).2.map (fun c => c.conv_weight)).sum
      ∧ (convolve_on_the_fly_computed_fir sin pi p uvw vis no_grids_to_offset
            facet_id).2.length
        = p._convolution_support * p._convolution_support := by
  unfold convolve_on_the_fly_computed_fir
  simp only [hedge, Bool.false_eq_true, if_false]
  have h := otf_outer_loop_inv sin pi p vis
    (size_mul no_grids_to_offset p._cube_chan_dim_step)
    (disc_grid_u p uvw) (disc_grid_v p uvw) (frac_u p uvw) (frac_v p uvw)
    p._convolution_support 0 (0, []) (by simp)
  refine ⟨h.1, ?_⟩
  rw [h.2]
  simp

/-- Claim C11 (returned total weight): for a sample that passes the edge test, the
pre-computed FIR and the on-the-fly `convolve` each make exactly `(2 S + 1) ^ 2` calls to
`grid_polarization_terms` and return the sum of the convolution weights passed in those
calls; for the pre-computed FIR the sum is the product of the sum over the `u` taps and
the sum over the `v` taps of the kernel entries read with stride `O`. -/
theorem returned_total_weight (nx ny no_polarizations S O : Nat) (conv : Nat → R)
    (sin : R → R) (pi : R) (uvw : uvw_coord R) (vis : V) (no_grids_to_offset facet_id : Nat)
    (hS : 2 * S + 1 < 2 ^ 64) :
    (edge_test (convolution_policy.precomputed_fir nx ny no_polarizations S O conv)
          (disc_grid_u (convolution_policy.precomputed_fir nx ny no_polarizations S O conv)
            uvw)
          (disc_grid_v (convolution_policy.precomputed_fir nx ny no_polarizations S O conv)
            uvw) = false →
      (convolve_precomputed_fir
          (convolution_policy.precomputed_fir nx ny no_polarizations S O conv) uvw vis
          no_grids_to_offset facet_id).2.length = (2 * S + 1) ^ 2
      ∧ (convolve_precomputed_fir
          (convolution_policy.precomputed_fir nx ny no_polarizations S O conv) uvw vis
          no_grids_to_offset facet_id).1
        = ((convolve_precomputed_fir
            (convolution_policy.precomputed_fir nx ny no_polarizations S O conv) uvw vis
            no_grids_to_offset facet_id).2.map (fun c => c.conv_weight)).sum
      ∧ (convolve_precomputed_fir
          (convolution_policy.precomputed_fir nx ny no_polarizations S O conv) uvw vis
          no_grids_to_offset facet_id).1
        = ((List.range (2 * S + 1)).map (fun i =>
              conv ((float_to_size_t
                ((frac_u (convolution_policy.precomputed_fir nx ny no_polarizations S O
                    conv) uvw + 1) * (O : R)) + i * O) % 2 ^ 64))).sum
          * ((List.range (2 * S + 1)).map (fun j =>
              conv ((float_to_size_t
                ((frac_v (convolution_policy.precomputed_fir nx ny no_polarizations S O
                    conv) uvw + 1) * (O : R)) + j * O) % 2 ^ 64))).sum)
    ∧ (edge_test (convolution_policy.on_the_fly_computed_fir nx ny no_polarizations S O conv)
          (disc_grid_u
            (convolution_policy.on_the_fly_computed_fir nx ny no_polarizations S O conv) uvw)
          (disc_grid_v
            (convolution_policy.on_the_fly_computed_fir nx ny no_polarizations S O conv) uvw)
          = false →
      (convolve_on_the_fly_computed_fir sin pi
          (convolution_policy.on_the_fly_computed_fir nx ny no_polarizations S O conv) uvw
          vis no_grids_to_offset facet_id).2.length = (2 * S + 1) ^ 2
      ∧ (convolve_on_the_fly_computed_fir sin pi
          (convolution_policy.on_the_fly_computed_fir nx ny no_polarizations S O conv) uvw
          vis no_grids_to_offset facet_id).1
        = ((convolve_on_the_fly_computed_fir sin pi
            (convolution_policy.on_the_fly_computed_fir nx ny no_polarizations S O conv) uvw
            vis no_grids_to_offset facet_id).2.map (fun c => c.conv_weight)).sum) := by
  have hsup : size_add (size_mul S 2) 1 = 2 * S + 1 := full_support_eq hS
  constructor
  · intro hedge
    have h1 := convolve_precomputed_fir_inv
      (convolution_policy.precomputed_fir nx ny no_polarizations S O conv) uvw vis
      no_grids_to_offset facet_id hedge
    have h2 := convolve_precomputed_fir_accum
      (convolution_policy.precomputed_fir nx ny no_polarizations S O conv) uvw vis
      no_grids_to_offset facet_id hedge
    have e : (convolution_policy.precomputed_fir nx ny no_polarizations S O
        conv)._convolution_support = 2 * S + 1 := hsup
    rw [e] at h1 h2
    refine ⟨?_, h1.1, h2⟩
    rw [h1.2]
    ring
  · intro hedge
    have h1 := convolve_on_the_fly_inv sin pi
      (convolution_policy.on_the_fly_computed_fir nx ny no_polarizations S O conv) uvw vis
      no_grids_to_offset facet_id hedge
    have e : (convolution_policy.on_the_fly_computed_fir nx ny no_polarizations S O
        conv)._convolution_support = 2 * S + 1 := hsup
    rw [e] at h1
    refine ⟨?_, h1.1⟩
    rw [h1.2]
    ring

end ReturnedWeight

section MassClaims
variable {R : Type} [LinearOrderedField R] [FloorRing R] {V : Type}

theorem returned_total_weight_witness :
    (convolve_precomputed_fir
        (convolution_policy.precomputed_fir 8 8 1 1 2 (fun i => (i : ℚ)))
        ⟨1 / 2, 1 / 2, 0⟩ (1 : ℚ) 0 0).2.length = (2 * 1 + 1) ^ 2
    ∧ (convolve_on_the_fly_computed_fir (fun x => x) 3
        (convolution_policy.on_the_fly_computed_fir 8 8 1 1 2 (fun i => (i : ℚ)))
        ⟨0, 0, 0⟩ (1 : ℚ) 0 0).2.length = (2 * 1 + 1) ^ 2 :=
  ⟨((returned_total_weight 8 8 1 1 2 (fun i => (i : ℚ)) (fun x => x) 3 ⟨1 / 2, 1 / 2, 0⟩
      (1 : ℚ) 0 0 (by norm_num)).1
      (by
        norm_num [edge_test, convolution_policy.precomputed_fir, disc_grid_u,
          disc_grid_v, translated_grid_u, translated_grid_v, size_add, size_mul,
          to_size_t_natCast, to_size_t_zero, to_size_t_one, to_size_t_ofNat, lrint_zero,
          lrint_one, lrint_ofNat])).1,
    ((returned_total_weight 8 8 1 1 2 (fun i => (i : ℚ)) (fun x => x) 3 ⟨0, 0, 0⟩
      (1 : ℚ) 0 0 (by norm_num)).2
      (by
        norm_num [edge_test, convolution_policy.on_the_fly_computed_fir, disc_grid_u,
          disc_grid_v, translated_grid_u, translated_grid_v, size_add, size_mul,
          to_size_t_natCast, to_size_t_zero, to_size_t_one, to_size_t_ofNat, lrint_zero,
          lrint_one, lrint_ofNat])).1⟩

/-- Rounding of a value strictly within one half of an integer. -/
theorem lrint_eq_of_near (x : R) (z : Int) (h1 : (z : R) - 1 / 2 < x)
    (h2 : x < (z : R) + 1 / 2) : lrint x = z := by
  have hl := lrint_sub_ge x
  have hu := lrint_sub_le x
  have a1 : ((lrint x : Int) : R) < ((z + 1 : Int) : R) := by push_cast; linarith
  have a2 : ((z - 1 : Int) : R) < ((lrint x : Int) : R) := by push_cast; linarith
  have b1 := Int.cast_lt.mp a1
  have b2 := Int.cast_lt.mp a2
  omega

/-- The kernel phases of a sample that passes the edge test: each conversion of
`(frac + 1) * O` to `size_t` is the floor, and twice the floor is at most `3 * O`. -/
theorem fir_phase_facts (nx ny no_polarizations S O : Nat) (conv : Nat → R)
    (p : convolution_policy R) (uvw : uvw_coord R)
    (hp : p = convolution_policy.precomputed_fir nx ny no_polarizations S O conv)
    (hK : (2 * S + 3) * O ≤ 2 ^ 64) (hS : 2 * S + 1 < 2 ^ 63)
    (hnx : nx ≤ 2 ^ 63) (hny : ny ≤ 2 ^ 63)
    (hu : in_long_range (translated_grid_u p uvw))
    (hv : in_long_range (translated_grid_v p uvw))
    (hedge : edge_test p (disc_grid_u p uvw) (disc_grid_v p uvw) = false) :
    (float_to_size_t ((frac_u p uvw + 1) * (O : R)) = Nat.floor ((frac_u p uvw + 1) * (O : R))
      ∧ 2 * Nat.floor ((frac_u p uvw + 1) * (O : R)) ≤ 3 * O)
    ∧ (float_to_size_t ((frac_v p uvw + 1) * (O : R))
        = Nat.floor ((frac_v p uvw + 1) * (O : R))
      ∧ 2 * Nat.floor ((frac_v p uvw + 1) * (O : R)) ≤ 3 * O) := by
  have hpnx : p._nx = nx := by rw [hp]; rfl
  have hpny : p._ny = ny := by rw [hp]; rfl
  obtain ⟨_, _, he3, he4⟩ := (edge_test_eq_false_iff p _ _).mp hedge
  rw [hpny] at he3
  rw [hpnx] at he4
  have hfu := frac_bounds (translated_grid_u p uvw) nx hu hnx he4
  have hfv := frac_bounds (translated_grid_v p uvw) ny hv hny he3
  have h3O : 3 * O ≤ 2 ^ 64 := by
    have : 3 * O ≤ (2 * S + 3) * O := Nat.mul_le_mul_right O (by omega)
    omega
  exact ⟨conv_phase_eq (frac_u p uvw) O hfu.1 hfu.2 h3O,
    conv_phase_eq (frac_v p uvw) O hfv.1 hfv.2 h3O⟩

/-- A kernel index `c + i * O` of a tap `i <= 2 S` from a phase `c <= 3 O / 2` does not
wrap around when the kernel length `(2 S + 3) * O` fits in a `size_t`. -/
theorem stride_index_no_wrap (S O c i : Nat) (hK : (2 * S + 3) * O ≤ 2 ^ 64)
    (hc : 2 * c ≤ 3 * O) (hi : i < 2 * S + 1) : (c + i * O) % 2 ^ 64 = c + i * O := by
  apply Nat.mod_eq_of_lt
  rcases Nat.eq_zero_or_pos O with h0 | h0
  · subst h0
    simp only [Nat.mul_zero] at hc ⊢
    omega
  · have h1 : i * O ≤ 2 * S * O := Nat.mul_le_mul_right O (by omega)
    have h2 : (2 * S + 3) * O = 2 * S * O + 3 * O := by ring
    omega

set_option maxRecDepth 8000 in
/-- Claim C12 as stated fails: on an 8 x 8 grid with `S = 1`, `O = 4` and the kernel
`K[i] = i`, the samples `(1/2, 1/2)` and `(3/4, 1/2)` both pass the edge test, and
`convolve` returns 576 for the first and 504 for the second. -/
theorem fir_mass_not_constant :
    (convolve_precomputed_fir
        (convolution_policy.precomputed_fir 8 8 1 1 4 (fun i => (i : ℚ)))
        ⟨1 / 2, 1 / 2, 0⟩ (1 : ℚ) 0 0).1
      ≠ (convolve_precomputed_fir
        (convolution_policy.precomputed_fir 8 8 1 1 4 (fun i => (i : ℚ)))
        ⟨3 / 4, 1 / 2, 0⟩ (1 : ℚ) 0 0).1
    ∧ edge_test (convolution_policy.precomputed_fir 8 8 1 1 4 (fun i => (i : ℚ)))
        (disc_grid_u (convolution_policy.precomputed_fir 8 8 1 1 4 (fun i => (i : ℚ)))
          ⟨1 / 2, 1 / 2, 0⟩)
        (disc_grid_v (convolution_policy.precomputed_fir 8 8 1 1 4 (fun i => (i : ℚ)))
          ⟨1 / 2, 1 / 2, 0⟩) = false
    ∧ edge_test (convolution_policy.precomputed_fir 8 8 1 1 4 (fun i => (i : ℚ)))
        (disc_grid_u (convolution_policy.precomputed_fir 8 8 1 1 4 (fun i => (i : ℚ)))
          ⟨3 / 4, 1 / 2, 0⟩)
        (disc_grid_v (convolution_policy.precomputed_fir 8 8 1 1 4 (fun i => (i : ℚ)))
          ⟨3 / 4, 1 / 2, 0⟩) = false := by
  have h94 : lrint (9 / 4 : ℚ) = 2 := lrint_eq_of_near _ 2 (by norm_num) (by norm_num)
  have hA : (convolve_precomputed_fir
        (convolution_policy.precomputed_fir 8 8 1 1 4 (fun i => (i : ℚ)))
        ⟨1 / 2, 1 / 2, 0⟩ (1 : ℚ) 0 0).1 = 576 := by
    norm_num [convolve_precomputed_fir, convolution_policy.precomputed_fir, disc_grid_u,
      disc_grid_v, translated_grid_u, translated_grid_v, edge_test, size_add, size_mul,
      to_size_t_natCast, to_size_t_zero, to_size_t_one, to_size_t_ofNat, lrint_zero,
      lrint_one, lrint_ofNat, fir_outer_loop, fir_inner_loop, frac_u, frac_v,
      float_to_size_t]
  have hB : (convolve_precomputed_fir
        (convolution_policy.precomputed_fir 8 8 1 1 4 (fun i => (i : ℚ)))
        ⟨3 / 4, 1 / 2, 0⟩ (1 : ℚ) 0 0).1 = 504 := by
    norm_num [convolve_precomputed_fir, convolution_policy.precomputed_fir, disc_grid_u,
      disc_grid_v, translated_grid_u, translated_grid_v, edge_test, size_add, size_mul,
      to_size_t_natCast, to_size_t_zero, to_size_t_one, to_size_t_ofNat, lrint_zero,
      lrint_one, lrint_ofNat, fir_outer_loop, fir_inner_loop, frac_u, frac_v,
      float_to_size_t, h94]
  refine ⟨?_, ?_, ?_⟩
  · rw [hA, hB]
    norm_num
  · norm_num [convolution_policy.precomputed_fir, disc_grid_u,
      disc_grid_v, translated_grid_u, translated_grid_v, edge_test, size_add, size_mul,
      to_size_t_natCast, to_size_t_zero, to_size_t_one, to_size_t_ofNat, lrint_zero,
      lrint_one, lrint_ofNat]
  · norm_num [convolution_policy.precomputed_fir, disc_grid_u,
      disc_grid_v, translated_grid_u, translated_grid_v, edge_test, size_add, size_mul,
      to_size_t_natCast, to_size_t_zero, to_size_t_one, to_size_t_ofNat, lrint_zero,
      lrint_one, lrint_ofNat, h94]

/-- Claim C12 (amended): for the pre-computed FIR policy, the value returned by a single
`convolve` call on a sample that passes the edge test is the product of the two phase
masses `K[ph] + K[ph + O] + ... + K[ph + 2 S O]` at the phases `floor((fu + 1) O)` and
`floor((fv + 1) O)`: it is determined by `K`, `S`, `O` and the two kernel phases of the
sample. The kernel length fits in a `size_t`, the grid sizes are at most `2 ^ 63` and
the translated coordinates are in the range of `long`. -/
theorem fir_mass_by_phase (nx ny no_polarizations S O : Nat) (conv : Nat → R)
    (p : convolution_policy R) (uvw : uvw_coord R) (vis : V)
    (no_grids_to_offset facet_id : Nat)
    (hp : p = convolution_policy.precomputed_fir nx ny no_polarizations S O conv)
    (hK : (2 * S + 3) * O ≤ 2 ^ 64) (hS : 2 * S + 1 < 2 ^ 63)
    (hnx : nx ≤ 2 ^ 63) (hny : ny ≤ 2 ^ 63)
    (hu : in_long_range (translated_grid_u p uvw))
    (hv : in_long_range (translated_grid_v p uvw))
    (hedge : edge_test p (disc_grid_u p uvw) (disc_grid_v p uvw) = false) :
    (convolve_precomputed_fir p uvw vis no_grids_to_offset facet_id).1
      = fir_phase_mass conv S O (Nat.floor ((frac_u p uvw + 1) * (O : R)))
        * fir_phase_mass conv S O (Nat.floor ((frac_v p uvw + 1) * (O : R))) := by
  obtain ⟨⟨hcu, hcu2⟩, ⟨hcv, hcv2⟩⟩ :=
    fir_phase_facts nx ny no_polarizations S O conv p uvw hp hK hS hnx hny hu hv hedge
  have hsup : p._convolution_support = 2 * S + 1 := by
    rw [hp]
    exact full_support_eq (by omega)
  have hpO : p._oversampling_factor = O := by rw [hp]; rfl
  have hpK : p._conv = conv := by rw [hp]; rfl
  rw [convolve_precomputed_fir_accum p uvw vis no_grids_to_offset facet_id hedge, hsup, hpO,
    hpK, hcu, hcv]
  unfold fir_phase_mass
  congr 1
  · congr 1
    apply List.map_congr_left
    intro i hi
    rw [stride_index_no_wrap S O _ i hK hcu2 (List.mem_range.mp hi)]
  · congr 1
    apply List.map_congr_left
    intro i hi
    rw [stride_index_no_wrap S O _ i hK hcv2 (List.mem_range.mp hi)]

/-- Claim C12 (amended) at a concrete input: 8 x 8 grid, `S = 1`, `O = 4`, `K[i] = i`,
sample `(1/2, 1/2)`: both phases are 4 and the returned value is `24 * 24`. -/
theorem fir_mass_by_phase_witness :
    (convolve_precomputed_fir
        (convolution_policy.precomputed_fir 8 8 1 1 4 (fun i => (i : ℚ)))
        ⟨1 / 2, 1 / 2, 0⟩ (1 : ℚ) 0 0).1 = 24 * 24 :=
  (fir_mass_by_phase 8 8 1 1 4 (fun i => (i : ℚ))
    (convolution_policy.precomputed_fir 8 8 1 1 4 (fun i => (i : ℚ)))
    ⟨1 / 2, 1 / 2, 0⟩ (1 : ℚ) 0 0 rfl (by norm_num) (by norm_num) (by norm_num)
    (by norm_num)
    (by norm_num [in_long_range, translated_grid_u, convolution_policy.precomputed_fir,
      size_add, size_mul])
    (by norm_num [in_long_range, translated_grid_v, convolution_policy.precomputed_fir,
      size_add, size_mul])
    (by norm_num [edge_test, convolution_policy.precomputed_fir, disc_grid_u,
      disc_grid_v, translated_grid_u, translated_grid_v, size_add, size_mul,
      to_size_t_natCast, to_size_t_zero, to_size_t_one, to_size_t_ofNat, lrint_zero,
      lrint_one, lrint_ofNat])).trans
    (by
      norm_num [fir_phase_mass, List.range_succ, convolution_policy.precomputed_fir,
        disc_grid_u, disc_grid_v, translated_grid_u, translated_grid_v, size_add, size_mul,
        to_size_t_natCast, to_size_t_zero, to_size_t_one, to_size_t_ofNat, lrint_zero,
        lrint_one, lrint_ofNat, frac_u, frac_v])

end MassClaims

section KernelReadLemmas

theorem fir_inner_reads_mem {R : Type} (p : convolution_policy R) :
    ∀ (m c : Nat) (reads : List Nat) (x : Nat),
      x ∈ fir_inner_reads p m (c % 2 ^ 64) reads →
      x ∈ reads ∨ ∃ i, i < m ∧ x = (c + i * p._oversampling_factor) % 2 ^ 64 := by
  intro m
  induction m with
  | zero => intro c reads x h; exact Or.inl h
  | succ m ih =>
    intro c reads x h
    rw [fir_inner_reads, size_add_mod_left] at h
    rcases ih _ _ _ h with h1 | ⟨i, hi, hx⟩
    · rcases List.mem_append.mp h1 with h2 | h2
      · exact Or.inl h2
      · refine Or.inr ⟨0, Nat.succ_pos m, ?_⟩
        rw [List.mem_singleton.mp h2]
        simp
    · refine Or.inr ⟨i + 1, Nat.succ_lt_succ hi, ?_⟩
      rw [hx]
      congr 1
      ring

theorem fir_outer_reads_mem {R : Type} (p : convolution_policy R) (conv_u0 : Nat) :
    ∀ (m c : Nat) (reads : List Nat) (x : Nat),
      x ∈ fir_outer_reads p (conv_u0 % 2 ^ 64) m (c % 2 ^ 64) reads →
      x ∈ reads ∨ (∃ j, j < m ∧ x = (c + j * p._oversampling_factor) % 2 ^ 64)
        ∨ ∃ i, i < p._convolution_support
            ∧ x = (conv_u0 + i * p._oversampling_factor) % 2 ^ 64 := by
  intro m
  induction m with
  | zero => intro c reads x h; exact Or.inl h
  | succ m ih =>
    intro c reads x h
    rw [fir_outer_reads, size_add_mod_left] at h
    rcases ih _ _ _ h with h1 | ⟨j, hj, hx⟩ | h3
    · rcases fir_inner_reads_mem p _ _ _ _ h1 with h2 | h2
      · rcases List.mem_append.mp h2 with h4 | h4
        · exact Or.inl h4
        · refine Or.inr (Or.inl ⟨0, Nat.succ_pos m, ?_⟩)
          rw [List.mem_singleton.mp h4]
          simp
      · exact Or.inr (Or.inr h2)
    · refine Or.inr (Or.inl ⟨j + 1, Nat.succ_lt_succ hj, ?_⟩)
      rw [hx]
      congr 1
      ring
    · exact Or.inr (Or.inr h3)

variable {R : Type} [LinearOrderedField R] [FloorRing R]

/-- The kernel phase of a fractional offset of at most one half is at most `3 O / 2`,
whatever the size of `O`. -/
theorem conv_phase_le (f : R) (O : Nat) (hf1 : -(1 / 2 : R) ≤ f) (hf2 : f ≤ 1 / 2) :
    2 * float_to_size_t ((f + 1) * (O : R)) ≤ 3 * O := by
  have hO0 : (0 : R) ≤ (O : R) := Nat.cast_nonneg O
  have hy0 : 0 ≤ (f + 1) * (O : R) := mul_nonneg (by linarith) hO0
  have hy1 : (f + 1) * (O : R) ≤ 3 / 2 * (O : R) :=
    mul_le_mul_of_nonneg_right (by linarith) hO0
  have hfl : (((Nat.floor ((f + 1) * (O : R)) : Nat)) : R) ≤ (f + 1) * (O : R) :=
    Nat.floor_le hy0
  have h2 : 2 * Nat.floor ((f + 1) * (O : R)) ≤ 3 * O := by
    have : ((2 * Nat.floor ((f + 1) * (O : R)) : Nat) : R) ≤ ((3 * O : Nat) : R) := by
      push_cast
      linarith
    exact Nat.cast_le.mp this
  have h3 : float_to_size_t ((f + 1) * (O : R)) ≤ Nat.floor ((f + 1) * (O : R)) := by
    unfold float_to_size_t to_size_t
    rw [if_pos hy0, ← Int.floor_toNat]
    have hf0 : 0 ≤ ⌊(f + 1) * (O : R)⌋ := Int.floor_nonneg.mpr hy0
    omega
  omega

theorem full_support_le (S : Nat) : size_add (size_mul S 2) 1 ≤ 2 * S + 1 := by
  unfold size_add size_mul
  omega

/-- Claim C13 (kernel reads stay inside the FIR): for `O >= 1` and every sample, every
subscript at which the pre-computed FIR `convolve` reads the kernel is below
`(2 S + 1 + 2) * O`. The grid sizes are at most `2 ^ 63` and the translated coordinates
are in the range of `long`, so that the fractional offsets of a sample that passes the
edge test are at most one half in absolute value. -/
theorem kernel_reads_in_bounds (nx ny no_polarizations S O : Nat) (conv : Nat → R)
    (p : convolution_policy R) (uvw : uvw_coord R)
    (hp : p = convolution_policy.precomputed_fir nx ny no_polarizations S O conv)
    (hO : 1 ≤ O) (hnx : nx ≤ 2 ^ 63) (hny : ny ≤ 2 ^ 63)
    (hu : in_long_range (translated_grid_u p uvw))
    (hv : in_long_range (translated_grid_v p uvw)) :
    ∀ idx ∈ fir_kernel_reads p uvw, idx < (2 * S + 1 + 2) * O := by
  intro idx hidx
  unfold fir_kernel_reads at hidx
  by_cases hedge : edge_test p (disc_grid_u p uvw) (disc_grid_v p uvw) = true
  · simp [hedge] at hidx
  · have hedge2 : edge_test p (disc_grid_u p uvw) (disc_grid_v p uvw) = false := by
      simpa using hedge
    simp only [hedge2, Bool.false_eq_true, if_false] at hidx
    have hpnx : p._nx = nx := by rw [hp]; rfl
    have hpny : p._ny = ny := by rw [hp]; rfl
    have hpO : p._oversampling_factor = O := by rw [hp]; rfl
    have hsup : p._convolution_support ≤ 2 * S + 1 := by
      rw [hp]
      exact full_support_le S
    obtain ⟨_, _, he3, he4⟩ := (edge_test_eq_false_iff p _ _).mp hedge2
    rw [hpny] at he3
    rw [hpnx] at he4
    have hfu := frac_bounds (translated_grid_u p uvw) nx hu hnx he4
    have hfv := frac_bounds (translated_grid_v p uvw) ny hv hny he3
    have hcu := conv_phase_le (frac_u p uvw) O hfu.1 hfu.2
    have hcv := conv_phase_le (frac_v p uvw) O hfv.1 hfv.2
    rw [hpO] at hidx
    rw [← Nat.mod_eq_of_lt (float_to_size_t_lt ((frac_u p uvw + 1) * (O : R))),
      ← Nat.mod_eq_of_lt (float_to_size_t_lt ((frac_v p uvw + 1) * (O : R)))] at hidx
    have hbound : ∀ c i : Nat, 2 * c ≤ 3 * O → i < p._convolution_support →
        (c + i * O) % 2 ^ 64 < (2 * S + 1 + 2) * O := by
      intro c i hc hi
      have h1 : i * O ≤ 2 * S * O := Nat.mul_le_mul_right O (by omega)
      have h2 : (2 * S + 1 + 2) * O = 2 * S * O + 3 * O := by ring
      have h3 : (c + i * O) % 2 ^ 64 ≤ c + i * O := Nat.mod_le _ _
      omega
    rcases fir_outer_reads_mem p _ _ _ _ _ hidx with h1 | ⟨j, hj, hx⟩ | ⟨i, hi, hx⟩
    · simp at h1
    · rw [hx, hpO]
      exact hbound _ j hcv hj
    · rw [hx, hpO]
      exact hbound _ i hcu hi

/-- Claim C13 at a concrete input: 8 x 8 grid, `S = 1`, `O = 2`, sample `(1/2, 1/2)`. -/
theorem kernel_reads_in_bounds_witness :
    (fir_kernel_reads (convolution_policy.precomputed_fir 8 8 1 1 2 (fun i => (i : ℚ)))
        ⟨1 / 2, 1 / 2, 0⟩).all (fun idx => decide (idx < (2 * 1 + 1 + 2) * 2)) = true :=
  List.all_eq_true.mpr (fun idx hidx => decide_eq_true
    (kernel_reads_in_bounds 8 8 1 1 2 (fun i => (i : ℚ))
      (convolution_policy.precomputed_fir 8 8 1 1 2 (fun i => (i : ℚ)))
      ⟨1 / 2, 1 / 2, 0⟩ rfl (by norm_num) (by norm_num) (by norm_num)
      (by norm_num [in_long_range, translated_grid_u, convolution_policy.precomputed_fir,
        size_add, size_mul])
      (by norm_num [in_long_range, translated_grid_v, convolution_policy.precomputed_fir,
        size_add, size_mul]) idx hidx))

end KernelReadLemmas

section NnOtfClaims
variable {R : Type} [LinearOrderedField R] [FloorRing R] {V : Type}

/-- Claim C14 (nearest-neighbour policy): for a sample that passes the edge test,
`convolve` rounds `(u + nx / 2, v + ny / 2)` (integer quotients) to the cell `(iu, iv)`,
makes exactly one call to `grid_polarization_terms`, with the flat index `iv * ny + iu`
of that cell in the plane and the convolution weight 1, and returns 1; the result is the
same for every kernel array and for every sample rounded to the same cell. -/
theorem nn_single_deposit (nx ny no_polarizations S O : Nat) (conv : Nat → R)
    (p : convolution_policy R) (uvw : uvw_coord R) (vis : V)
    (no_grids_to_offset facet_id : Nat)
    (hp : p = convolution_policy.nn nx ny no_polarizations S O conv facet_id)
    (hedge : edge_test p (nn_disc_grid_u p uvw) (nn_disc_grid_v p uvw) = false) :
    nn_disc_grid_u p uvw = to_size_t (lrint (uvw._u + ((nx / 2 : Nat) : R)))
    ∧ nn_disc_grid_v p uvw = to_size_t (lrint (uvw._v + ((ny / 2 : Nat) : R)))
    ∧ convolve_nn p uvw vis no_grids_to_offset facet_id
      = (1, [⟨size_add (size_mul no_grids_to_offset p._cube_chan_dim_step)
              (size_add (size_mul (nn_disc_grid_v p uvw) ny) (nn_disc_grid_u p uvw)),
            vis, 1⟩])
    ∧ ∀ (conv2 : Nat → R) (uvw2 : uvw_coord R),
        nn_disc_grid_u (convolution_policy.nn nx ny no_polarizations S O conv2 facet_id) uvw2
          = nn_disc_grid_u p uvw →
        nn_disc_grid_v (convolution_policy.nn nx ny no_polarizations S O conv2 facet_id) uvw2
          = nn_disc_grid_v p uvw →
        convolve_nn (convolution_policy.nn nx ny no_polarizations S O conv2 facet_id) uvw2 vis
            no_grids_to_offset facet_id
          = convolve_nn p uvw vis no_grids_to_offset facet_id := by
  subst hp
  refine ⟨rfl, rfl, ?_, ?_⟩
  · unfold convolve_nn
    simp only [hedge, Bool.false_eq_true, if_false]
    rfl
  · intro conv2 uvw2 h1 h2
    unfold convolve_nn
    rw [h1, h2]
    rfl

/-- Claim C14 at a concrete input: 8 x 8 grid, sample `(0, 0)` rounded to the cell
`(4, 4)` with flat index 36. -/
theorem nn_single_deposit_witness :
    convolve_nn (convolution_policy.nn 8 8 1 1 2 (fun i => (i : ℚ)) 0) ⟨0, 0, 0⟩ (1 : ℚ) 0 0
      = (1, [⟨36, 1, 1⟩]) :=
  ((nn_single_deposit 8 8 1 1 2 (fun i => (i : ℚ))
    (convolution_policy.nn 8 8 1 1 2 (fun i => (i : ℚ)) 0) ⟨0, 0, 0⟩ (1 : ℚ) 0 0 rfl
    (by
      norm_num [edge_test, convolution_policy.nn, nn_disc_grid_u, nn_disc_grid_v, size_add,
        size_mul, to_size_t_natCast, to_size_t_zero, to_size_t_one, to_size_t_ofNat,
        lrint_zero, lrint_one, lrint_ofNat])).2.2.1).trans
    (by
      norm_num [convolution_policy.nn, nn_disc_grid_u, nn_disc_grid_v, size_add,
        size_mul, to_size_t_natCast, to_size_t_zero, to_size_t_one, to_size_t_ofNat,
        lrint_zero, lrint_one, lrint_ofNat])

omit [FloorRing R] in
theorem convolve_lambda_eq_sinc (sin : R → R) (pi x : R) (hpi : pi ≠ 0) :
    convolve_lambda sin pi x = sinc_spec sin (pi * x) := by
  unfold convolve_lambda sinc_spec
  by_cases hx : x = 0
  · simp [hx]
  · have : pi * x ≠ 0 := mul_ne_zero hpi hx
    simp [hx, this]

/-- Claim C15 (on-the-fly policy): for a sample that passes the edge test, the calls of
the on-the-fly `convolve` are, tap by tap for `s_v, s_u` in `[0, 2 S]` (`s_v` outer), the
deposit at cell `(iu + s_u, iv + s_v)` of the weight
`sinc(pi (s_u - S + fu)) * sinc(pi (s_v - S + fv))`. The sizes are such that
`nx + (2 S + 1)` and `ny + (2 S + 1)` fit in a `size_t`, and `pi` is not zero. -/
theorem otf_tap_weights (nx ny no_polarizations S O : Nat) (conv : Nat → R)
    (sin : R → R) (pi : R) (p : convolution_policy R) (uvw : uvw_coord R) (vis : V)
    (no_grids_to_offset facet_id : Nat)
    (hp : p = convolution_policy.on_the_fly_computed_fir nx ny no_polarizations S O conv)
    (hpi : pi ≠ 0)
    (hx : nx + (2 * S + 1) ≤ 2 ^ 64) (hy : ny + (2 * S + 1) ≤ 2 ^ 64)
    (hedge : edge_test p (disc_grid_u p uvw) (disc_grid_v p uvw) = false) :
    (convolve_on_the_fly_computed_fir sin pi p uvw vis no_grids_to_offset facet_id).2
      = (List.range (2 * S + 1)).flatMap (fun s_v =>
          (List.range (2 * S + 1)).map (fun s_u =>
            (⟨size_add (size_mul no_grids_to_offset p._cube_chan_dim_step)
                (size_add (size_mul (disc_grid_v p uvw + s_v) ny) (disc_grid_u p uvw + s_u)),
              vis,
              sinc_spec sin (pi * ((s_u : R) - (S : R) + frac_u p uvw))
                * sinc_spec sin (pi * ((s_v : R) - (S : R) + frac_v p uvw))⟩ :
              grid_call R V))) := by
  have hsup : p._convolution_support = 2 * S + 1 := by
    rw [hp]
    exact full_support_eq (by omega)
  have hpnx : p._nx = nx := by rw [hp]; rfl
  have hpny : p._ny = ny := by rw [hp]; rfl
  have hoff : p._conv_centre_offset = (S : R) := by rw [hp]; rfl
  obtain ⟨_, _, he3, he4⟩ := (edge_test_eq_false_iff p _ _).mp hedge
  rw [hpny] at he3
  rw [hpnx] at he4
  unfold convolve_on_the_fly_computed_fir
  simp only [hedge, Bool.false_eq_true, if_false]
  rw [otf_outer_loop_calls]
  simp only [List.nil_append, hsup, hpny, hoff, Nat.zero_add]
  apply List.flatMap_congr
  intro j hj
  apply List.map_congr_left
  intro i hi
  have hj2 : j < 2 * S + 1 := List.mem_range.mp hj
  have hi2 : i < 2 * S + 1 := List.mem_range.mp hi
  have e1 : size_add (disc_grid_v p uvw) j = disc_grid_v p uvw + j := size_add_of_lt (by omega)
  have e2 : size_add (disc_grid_u p uvw) i = disc_grid_u p uvw + i := size_add_of_lt (by omega)
  rw [e1, e2, convolve_lambda_eq_sinc sin pi _ hpi, convolve_lambda_eq_sinc sin pi _ hpi]
  congr 1
  exact mul_comm _ _

/-- Claim C15 at a concrete input: 8 x 8 grid, `S = 1`, sample `(0, 0)`, with the
stand-ins `sin x = x` and `pi = 3`, for which every `sinc` value is 1. -/
theorem otf_tap_weights_witness :
    (convolve_on_the_fly_computed_fir (fun x => x) 3
        (convolution_policy.on_the_fly_computed_fir 8 8 1 1 2 (fun i => (i : ℚ)))
        ⟨0, 0, 0⟩ (1 : ℚ) 0 0).2
      = [⟨27, 1, 1⟩, ⟨28, 1, 1⟩, ⟨29, 1, 1⟩, ⟨35, 1, 1⟩, ⟨36, 1, 1⟩, ⟨37, 1, 1⟩,
          ⟨43, 1, 1⟩, ⟨44, 1, 1⟩, ⟨45, 1, 1⟩] :=
  (otf_tap_weights 8 8 1 1 2 (fun i => (i : ℚ)) (fun x => x) 3
    (convolution_policy.on_the_fly_computed_fir 8 8 1 1 2 (fun i => (i : ℚ)))
    ⟨0, 0, 0⟩ (1 : ℚ) 0 0 rfl (by norm_num) (by norm_num) (by norm_num)
    (by
      norm_num [edge_test, convolution_policy.on_the_fly_computed_fir, disc_grid_u,
        disc_grid_v, translated_grid_u, translated_grid_v, size_add, size_mul,
        to_size_t_natCast, to_size_t_zero, to_size_t_one, to_size_t_ofNat, lrint_zero,
        lrint_one, lrint_ofNat])).trans
    (by
      norm_num [List.range_succ, sinc_spec, convolution_policy.on_the_fly_computed_fir,
        disc_grid_u, disc_grid_v, translated_grid_u, translated_grid_v, size_add, size_mul,
        to_size_t_natCast, to_size_t_zero, to_size_t_one, to_size_t_ofNat, lrint_zero,
        lrint_one, lrint_ofNat, frac_u, frac_v])

end NnOtfClaims

section ComplexLemmas
variable {R : Type} [Field R]

theorem basic_complex.add_mul (x y a : basic_complex R) :
    (x.add y).mul a = (x.mul a).add (y.mul a) := by
  cases x; cases y; cases a
  simp only [basic_complex.add, basic_complex.mul, basic_complex.mk.injEq]
  constructor <;> ring

theorem basic_complex.scale_mul (x a : basic_complex R) (w : R) :
    (x.mul a).scale w = (x.scale w).mul a := by
  cases x; cases a
  simp only [basic_complex.scale, basic_complex.mul, basic_complex.mk.injEq]
  constructor <;> ring

theorem basic_complex.zero_mul (a : basic_complex R) :
    (basic_complex.mul ⟨0, 0⟩ a) = ⟨0, 0⟩ := by
  cases a
  simp [basic_complex.mul]

theorem basic_complex.add_zero (x : basic_complex R) : x.add ⟨0, 0⟩ = x := by
  cases x
  simp [basic_complex.add]

theorem basic_complex.scale_zero (x : basic_complex R) : x.scale 0 = ⟨0, 0⟩ := by
  cases x
  simp [basic_complex.scale]

end ComplexLemmas

section LinearityLemmas
variable {R : Type} [LinearOrderedField R] [FloorRing R] {n : Nat}

omit [FloorRing R] in
theorem combined_vis_weight_scaled (a : basic_complex R) (params : gridding_parameters R)
    (read_corralation_data : Nat → Nat → Nat → correlation_data R n) (row c : Nat) :
    combined_vis_weight params (scaled_visibilities a read_corralation_data) row c
      = combined_vis_weight params read_corralation_data row c := rfl

theorem row_contribution_scaled (a : basic_complex R) (to_float : R → R) (arcsec_to_rad : R)
    (params : gridding_parameters R)
    (read_corralation_data : Nat → Nat → Nat → correlation_data R n)
    (shared_mem : Nat → R) (tid row c : Nat) (k : Fin n) :
    row_contribution to_float arcsec_to_rad params (scaled_visibilities a read_corralation_data)
        shared_mem tid row c k
      = (row_contribution to_float arcsec_to_rad params read_corralation_data shared_mem tid row c
          k).mul a := by
  unfold row_contribution
  simp only [combined_vis_weight_scaled]
  exact basic_complex.scale_mul _ _ _

/-- The loop body of `templated_gridder` is the composition of its four parts. -/
theorem gridder_row_step_eq (to_float : R → R) (arcsec_to_rad : R)
    (params : gridding_parameters R)
    (read_corralation_data : Nat → Nat → Nat → correlation_data R n)
    (shared_mem : Nat → R) (tid c : Nat) (st : gridder_state R n) (t : Nat) :
    gridder_row_step to_float arcsec_to_rad params read_corralation_data shared_mem tid c st t
      = row_step_last_flush params (channel_enabled params (row_of params tid t) c)
          (channel_grid_index params (row_of params tid t) c) t
          (size_sub (baseline_num_timestamps params tid) 1)
          (row_step_accumulate
            (row_contribution to_float arcsec_to_rad params read_corralation_data shared_mem tid
              (row_of params tid t) c)
            (row_step_flush params (channel_enabled params (row_of params tid t) c)
              (channel_grid_index params (row_of params tid t) c)
              (my_current_u to_float arcsec_to_rad params tid (row_of params tid t) c)
              (my_current_v to_float arcsec_to_rad params tid (row_of params tid t) c)
              (params.spw_index_array (row_of params tid t))
              (row_step_init
                (my_current_u to_float arcsec_to_rad params tid (row_of params tid t) c)
                (my_current_v to_float arcsec_to_rad params tid (row_of params tid t) c)
                (params.spw_index_array (row_of params tid t)) t st))) := rfl

omit [FloorRing R] in
theorem row_step_init_scaled (a : basic_complex R) (cur_u cur_v spw t : Nat)
    (st : gridder_state R n) :
    row_step_init cur_u cur_v spw t (scaled_state a st)
      = scaled_state a (row_step_init cur_u cur_v spw t st) := by
  unfold row_step_init
  split_ifs <;> rfl

omit [FloorRing R] in
theorem row_step_flush_scaled (a : basic_complex R) (params : gridding_parameters R)
    (enabled : Bool) (grid_index cur_u cur_v spw : Nat) (st : gridder_state R n) :
    row_step_flush params enabled grid_index cur_u cur_v spw (scaled_state a st)
      = scaled_state a (row_step_flush params enabled grid_index cur_u cur_v spw st) := by
  have hz : (fun k : Fin n => (vis_zero (R := R) k).mul a) = vis_zero := by
    funext k
    exact basic_complex.zero_mul a
  unfold row_step_flush
  by_cases h1 : (cur_u ≠ st.my_previous_u ∨ cur_v ≠ st.my_previous_v
      ∨ st.my_previous_spw ≠ spw) ∧ enabled = true
  · by_cases h2 : flush_edge_test params st.my_previous_u st.my_previous_v = true
    · simp [scaled_state, scaled_deposit, flush_call, h1, h2, hz]
    · simp [scaled_state, scaled_deposit, flush_call, h1, h2, hz]
  · simp only [scaled_state, h1, if_false]

omit [FloorRing R] in
theorem row_step_accumulate_scaled (a : basic_complex R)
    (contribution : Fin n → basic_complex R) (st : gridder_state R n) :
    row_step_accumulate (fun k => (contribution k).mul a) (scaled_state a st)
      = scaled_state a (row_step_accumulate contribution st) := by
  unfold row_step_accumulate scaled_state
  simp [basic_complex.add_mul]

omit [FloorRing R] in
theorem row_step_last_flush_scaled (a : basic_complex R) (params : gridding_parameters R)
    (enabled : Bool) (grid_index t last : Nat) (st : gridder_state R n) :
    row_step_last_flush params enabled grid_index t last (scaled_state a st)
      = scaled_state a (row_step_last_flush params enabled grid_index t last st) := by
  unfold row_step_last_flush
  by_cases h1 : enabled = true ∧ t = last
  · by_cases h2 : last_flush_edge_test params st.my_previous_u st.my_previous_v = true
    · simp [scaled_state, scaled_deposit, flush_call, h1, h2]
    · simp [scaled_state, h1, h2]
  · simp only [scaled_state, h1, if_false]

theorem gridder_row_step_scaled (a : basic_complex R) (to_float : R → R) (arcsec_to_rad : R)
    (params : gridding_parameters R)
    (read_corralation_data : Nat → Nat → Nat → correlation_data R n)
    (shared_mem : Nat → R) (tid c : Nat) (st : gridder_state R n) (t : Nat) :
    gridder_row_step to_float arcsec_to_rad params (scaled_visibilities a read_corralation_data)
        shared_mem tid c (scaled_state a st) t
      = scaled_state a
          (gridder_row_step to_float arcsec_to_rad params read_corralation_data shared_mem tid c
            st t) := by
  rw [gridder_row_step_eq, gridder_row_step_eq, row_step_init_scaled, row_step_flush_scaled]
  have hc : row_contribution to_float arcsec_to_rad params
      (scaled_visibilities a read_corralation_data) shared_mem tid (row_of params tid t) c
      = fun k => (row_contribution to_float arcsec_to_rad params read_corralation_data
        shared_mem tid
          (row_of params tid t) c k).mul a := by
    funext k
    exact row_contribution_scaled a to_float arcsec_to_rad params read_corralation_data shared_mem
      tid (row_of params tid t) c k
  rw [hc, row_step_accumulate_scaled, row_step_last_flush_scaled]

end LinearityLemmas

theorem example_baseline_rows (rows : Nat) (hr : rows < 2 ^ 64) (spw : Nat → Nat)
    (enabled : Nat → Bool) (planes : Nat → Nat) :
    baseline_num_timestamps (example_params rows spw enabled planes) 0 = rows := by
  simp [baseline_num_timestamps, starting_row_index, my_baseline, example_params, size_add,
    size_sub, conv_full_support_sq, conv_full_support, size_mul]
  omega

theorem example_position (rows : Nat) (spw : Nat → Nat)
    (enabled : Nat → Bool) (planes : Nat → Nat) (row c : Nat) :
    my_current_u id 1 (example_params rows spw enabled planes) 0 row c = 3
    ∧ my_current_v id 1 (example_params rows spw enabled planes) 0 row c = 3 := by
  constructor
  · norm_num [my_current_u, cont_current_u, u_scale, grid_centre_offset_x, conv_offset,
      padded_conv_full_support, conv_full_support, my_conv_u, conv_full_support_sq,
      example_params, size_add, size_mul, rintf, float_to_size_t, lrint_ofNat, lrint_natCast,
      to_size_t_ofNat]
  · norm_num [my_current_v, cont_current_v, v_scale, grid_centre_offset_y, conv_offset,
      padded_conv_full_support, conv_full_support, my_conv_v, conv_full_support_sq,
      example_params, size_add, size_mul, rintf, float_to_size_t, lrint_ofNat, lrint_natCast,
      to_size_t_ofNat]

theorem example_contribution (rows : Nat) (spw : Nat → Nat)
    (enabled : Nat → Bool) (planes : Nat → Nat) (shared_mem : Nat → ℚ) (row c : Nat)
    (k : Fin 1) :
    row_contribution id 1 (example_params rows spw enabled planes) example_read shared_mem 0
        row c k
      = ⟨((row : ℚ) + 1)
          * (if channel_enabled (example_params rows spw enabled planes) row c = true then 1
              else 0), 0⟩ := by
  have hu : closest_conv_u id 1 (example_params rows spw enabled planes) 0 row c = 1 := by
    unfold closest_conv_u
    rw [(example_position rows spw enabled planes row c).1]
    norm_num [cont_current_u, u_scale, grid_centre_offset_x, conv_offset,
      padded_conv_full_support, conv_full_support, my_conv_u, conv_full_support_sq,
      example_params, size_add, size_mul, float_to_size_t, to_size_t_zero]
  have hv : closest_conv_v id 1 (example_params rows spw enabled planes) 0 row c = 1 := by
    unfold closest_conv_v
    rw [(example_position rows spw enabled planes row c).2]
    norm_num [cont_current_v, v_scale, grid_centre_offset_y, conv_offset,
      padded_conv_full_support, conv_full_support, my_conv_v, conv_full_support_sq,
      example_params, size_add, size_mul, float_to_size_t, to_size_t_zero]
  have hs : shared_conv (example_params rows spw enabled planes) shared_mem 1 = 1 := by
    norm_num [shared_conv, padded_conv_full_support, conv_full_support, example_params,
      size_add, size_mul]
  unfold row_contribution
  simp only [hu, hv, hs]
  cases he : channel_enabled (example_params rows spw enabled planes) row c <;>
    simp only [combined_vis_weight, vis_flagged, he] <;>
    simp [vector_promotion, basic_complex.scale, example_read, row_is_in_field_being_imaged,
      example_params]

section LinearityClaim
variable {R : Type} [LinearOrderedField R] [FloorRing R] {n : Nat}

theorem gridder_fold_scaled (a : basic_complex R) (to_float : R → R) (arcsec_to_rad : R)
    (params : gridding_parameters R)
    (read_corralation_data : Nat → Nat → Nat → correlation_data R n)
    (shared_mem : Nat → R) (tid c : Nat) :
    ∀ (ts : List Nat) (st : gridder_state R n),
      ts.foldl (gridder_row_step to_float arcsec_to_rad params
          (scaled_visibilities a read_corralation_data) shared_mem tid c) (scaled_state a st)
        = scaled_state a (ts.foldl (gridder_row_step to_float arcsec_to_rad params
            read_corralation_data shared_mem tid c) st) := by
  intro ts
  induction ts with
  | nil => intro st; rfl
  | cons t ts ih =>
    intro st
    rw [List.foldl_cons, List.foldl_cons, gridder_row_step_scaled, ih]

theorem gridder_channel_loop_scaled (a : basic_complex R) (to_float : R → R) (arcsec_to_rad : R)
    (params : gridding_parameters R)
    (read_corralation_data : Nat → Nat → Nat → correlation_data R n)
    (shared_mem : Nat → R) (tid c : Nat) :
    gridder_channel_loop to_float arcsec_to_rad params (scaled_visibilities a read_corralation_data)
        shared_mem tid c
      = (gridder_channel_loop to_float arcsec_to_rad params read_corralation_data shared_mem tid
          c).map (scaled_deposit a) := by
  have hz : (fun k : Fin n => (vis_zero (R := R) k).mul a) = vis_zero := by
    funext k
    exact basic_complex.zero_mul a
  have hinit : ∀ st : gridder_state R n, st.my_grid_accum = vis_zero → st.deposits = [] →
      st = scaled_state a st := by
    intro st h1 h2
    cases st
    simp only at h1 h2
    simp [scaled_state, h1, h2, hz]
  have h := gridder_fold_scaled a to_float arcsec_to_rad params read_corralation_data
    shared_mem tid c
    (List.range (baseline_num_timestamps params tid)) ⟨vis_zero, 0, 0, 0, []⟩
  rw [← hinit ⟨vis_zero, 0, 0, 0, []⟩ rfl rfl] at h
  unfold gridder_channel_loop
  rw [h]
  rfl

omit [FloorRing R] in
theorem grid_after_scaled (a : basic_complex R) :
    ∀ (calls : List (grid_visibility_call R n))
      (g1 g2 : Nat → Nat → Nat → Fin n → basic_complex R),
      (∀ plane u v k, g2 plane u v k = (g1 plane u v k).mul a) →
      ∀ plane u v k,
        grid_after (calls.map (scaled_deposit a)) g2 plane u v k
          = (grid_after calls g1 plane u v k).mul a := by
  intro calls
  induction calls with
  | nil => intro g1 g2 h; exact h
  | cons d ds ih =>
    intro g1 g2 h
    unfold grid_after at ih ⊢
    rw [List.map_cons, List.foldl_cons, List.foldl_cons]
    apply ih
    intro plane u v k
    unfold grid_visibility
    by_cases hc : plane = d.channel_grid_index ∧ u = d.pos_u ∧ v = d.pos_v
    · have hc2 : plane = (scaled_deposit a d).channel_grid_index
          ∧ u = (scaled_deposit a d).pos_u ∧ v = (scaled_deposit a d).pos_v := hc
      rw [if_pos hc, if_pos hc2, h, basic_complex.add_mul]
      rfl
    · have hc2 : ¬ (plane = (scaled_deposit a d).channel_grid_index
          ∧ u = (scaled_deposit a d).pos_u ∧ v = (scaled_deposit a d).pos_v) := hc
      rw [if_neg hc, if_neg hc2, h]

end LinearityClaim

section ConvolveVis
variable {R : Type} [LinearOrderedField R] {V W : Type}

theorem fir_inner_loop_map_vis (f : V → W) (p : convolution_policy R) (vis : V)
    (chan_offset du convolved_grid_v : Nat) (conv_v_weight : R) :
    ∀ (m sup_u conv_u : Nat) (st : R × List (grid_call R V)),
      fir_inner_loop p (f vis) chan_offset du convolved_grid_v conv_v_weight m sup_u conv_u
          (st.1, st.2.map (map_call_vis f))
        = ((fir_inner_loop p vis chan_offset du convolved_grid_v conv_v_weight m sup_u
              conv_u st).1,
            (fir_inner_loop p vis chan_offset du convolved_grid_v conv_v_weight m sup_u
              conv_u st).2.map (map_call_vis f)) := by
  intro m
  induction m with
  | zero => intro sup_u conv_u st; rfl
  | succ m ih =>
    intro sup_u conv_u st
    rw [fir_inner_loop, fir_inner_loop]
    have h := ih (sup_u + 1) (size_add conv_u p._oversampling_factor)
      (st.1 + p._conv conv_u * conv_v_weight,
        st.2 ++ [⟨size_add chan_offset (size_add convolved_grid_v (size_add du sup_u)), vis,
          p._conv conv_u * conv_v_weight⟩])
    simp only [List.map_append, List.map_cons, List.map_nil, map_call_vis] at h ⊢
    exact h

theorem fir_outer_loop_map_vis (f : V → W) (p : convolution_policy R) (vis : V)
    (chan_offset du conv_u0 : Nat) :
    ∀ (m conv_v convolved_grid_v : Nat) (st : R × List (grid_call R V)),
      fir_outer_loop p (f vis) chan_offset du conv_u0 m conv_v convolved_grid_v
          (st.1, st.2.map (map_call_vis f))
        = ((fir_outer_loop p vis chan_offset du conv_u0 m conv_v convolved_grid_v st).1,
            (fir_outer_loop p vis chan_offset du conv_u0 m conv_v convolved_grid_v
              st).2.map (map_call_vis f)) := by
  intro m
  induction m with
  | zero => intro conv_v convolved_grid_v st; rfl
  | succ m ih =>
    intro conv_v convolved_grid_v st
    rw [fir_outer_loop, fir_outer_loop, fir_inner_loop_map_vis, ih]

theorem otf_inner_loop_map_vis (f : V → W) (sin : R → R) (pi : R)
    (p : convolution_policy R) (vis : V)
    (chan_offset du convolved_grid_v : Nat) (conv_v fu : R) :
    ∀ (m sup_u : Nat) (st : R × List (grid_call R V)),
      otf_inner_loop sin pi p (f vis) chan_offset du convolved_grid_v conv_v fu m sup_u
          (st.1, st.2.map (map_call_vis f))
        = ((otf_inner_loop sin pi p vis chan_offset du convolved_grid_v conv_v fu m sup_u
              st).1,
            (otf_inner_loop sin pi p vis chan_offset du convolved_grid_v conv_v fu m sup_u
              st).2.map (map_call_vis f)) := by
  intro m
  induction m with
  | zero => intro sup_u st; rfl
  | succ m ih =>
    intro sup_u st
    rw [otf_inner_loop, otf_inner_loop]
    have h := ih (sup_u + 1)
      (st.1 + convolve_lambda sin pi conv_v
          * convolve_lambda sin pi ((sup_u : R) - p._conv_centre_offset + fu),
        st.2 ++ [⟨size_add chan_offset
            (size_add (size_mul convolved_grid_v p._ny) (size_add du sup_u)), vis,
          convolve_lambda sin pi conv_v
            * convolve_lambda sin pi ((sup_u : R) - p._conv_centre_offset + fu)⟩])
    simp only [List.map_append, List.map_cons, List.map_nil, map_call_vis] at h ⊢
    exact h

theorem otf_outer_loop_map_vis (f : V → W) (sin : R → R) (pi : R)
    (p : convolution_policy R) (vis : V) (chan_offset du dv : Nat) (fu fv : R) :
    ∀ (m sup_v : Nat) (st : R × List (grid_call R V)),
      otf_outer_loop sin pi p (f vis) chan_offset du dv fu fv m sup_v
          (st.1, st.2.map (map_call_vis f))
        = ((otf_outer_loop sin pi p vis chan_offset du dv fu fv m sup_v st).1,
            (otf_outer_loop sin pi p vis chan_offset du dv fu fv m sup_v st).2.map
              (map_call_vis f)) := by
  intro m
  induction m with
  | zero => intro sup_v st; rfl
  | succ m ih =>
    intro sup_v st
    rw [otf_outer_loop, otf_outer_loop, otf_inner_loop_map_vis, ih]

end ConvolveVis
section LinearityMain
variable {R : Type} [LinearOrderedField R] [FloorRing R] {n : Nat}

/-- Claim C16 (linearity): replacing every input visibility `V` by `a * V` leaves the
sequence of deposits of a `templated_gridder` thread unchanged (planes, cells, order) and
multiplies every deposited accumulator by `a`, so the grid obtained from the zero grid is
`a` times the original grid; and each `convolve` makes the same calls (indices, weights,
order) with the visibility `a * V` and returns the same weight. -/
theorem gridding_linearity (a : basic_complex R) (to_float : R → R) (arcsec_to_rad : R)
    (params : gridding_parameters R)
    (read_corralation_data : Nat → Nat → Nat → correlation_data R n)
    (shared_mem : Nat → R) (tid : Nat) (sin : R → R) (pi : R) (p : convolution_policy R)
    (uvw : uvw_coord R) (vis : basic_complex R) (no_grids_to_offset facet_id : Nat) :
    templated_gridder to_float arcsec_to_rad params (scaled_visibilities a read_corralation_data)
        shared_mem tid
      = (templated_gridder to_float arcsec_to_rad params read_corralation_data shared_mem tid).map
          (scaled_deposit a)
    ∧ (∀ plane u v k,
        grid_after
            (templated_gridder to_float arcsec_to_rad params
              (scaled_visibilities a read_corralation_data) shared_mem tid)
            zero_grid plane u v k
          = (grid_after
              (templated_gridder to_float arcsec_to_rad params read_corralation_data shared_mem tid)
              zero_grid plane u v k).mul a)
    ∧ convolve_precomputed_fir p uvw (vis.mul a) no_grids_to_offset facet_id
      = ((convolve_precomputed_fir p uvw vis no_grids_to_offset facet_id).1,
          (convolve_precomputed_fir p uvw vis no_grids_to_offset facet_id).2.map
            (map_call_vis (fun v => v.mul a)))
    ∧ convolve_on_the_fly_computed_fir sin pi p uvw (vis.mul a) no_grids_to_offset facet_id
      = ((convolve_on_the_fly_computed_fir sin pi p uvw vis no_grids_to_offset facet_id).1,
          (convolve_on_the_fly_computed_fir sin pi p uvw vis no_grids_to_offset
            facet_id).2.map (map_call_vis (fun v => v.mul a)))
    ∧ convolve_nn p uvw (vis.mul a) no_grids_to_offset facet_id
      = ((convolve_nn p uvw vis no_grids_to_offset facet_id).1,
          (convolve_nn p uvw vis no_grids_to_offset facet_id).2.map
            (map_call_vis (fun v => v.mul a))) := by
  have hg : templated_gridder to_float arcsec_to_rad params
        (scaled_visibilities a read_corralation_data) shared_mem tid
      = (templated_gridder to_float arcsec_to_rad params read_corralation_data shared_mem tid).map
          (scaled_deposit a) := by
    unfold templated_gridder
    split_ifs
    · rfl
    · rw [List.map_flatMap]
      apply List.flatMap_congr
      intro c _
      exact gridder_channel_loop_scaled a to_float arcsec_to_rad params read_corralation_data
        shared_mem tid c
  refine ⟨hg, ?_, ?_, ?_, ?_⟩
  · intro plane u v k
    rw [hg]
    apply grid_after_scaled
    intro plane u v k
    exact (basic_complex.zero_mul a).symm
  · unfold convolve_precomputed_fir
    by_cases he : edge_test p (disc_grid_u p uvw) (disc_grid_v p uvw) = true
    · simp only [he, if_true, List.map_nil]
    · simp only [he, if_false]
      exact fir_outer_loop_map_vis (fun v => v.mul a) p vis _ _ _ _ _ _ (0, [])
  · unfold convolve_on_the_fly_computed_fir
    by_cases he : edge_test p (disc_grid_u p uvw) (disc_grid_v p uvw) = true
    · simp only [he, if_true, List.map_nil]
    · simp only [he, if_false]
      exact otf_outer_loop_map_vis (fun v => v.mul a) sin pi p vis _ _ _ _ _ _ _ (0, [])
  · unfold convolve_nn
    by_cases he : edge_test p (nn_disc_grid_u p uvw) (nn_disc_grid_v p uvw) = true
    · simp only [he, if_true, List.map_nil]
    · simp only [he, if_false]
      rfl

end LinearityMain

section FlagZeroing
variable {R : Type} [LinearOrderedField R] [FloorRing R] {n : Nat}

/-- A flagged row adds nothing to the accumulator. -/
theorem row_contribution_of_flagged (to_float : R → R) (arcsec_to_rad : R)
    (params : gridding_parameters R)
    (read_corralation_data : Nat → Nat → Nat → correlation_data R n)
    (shared_mem : Nat → R) (tid row c : Nat) (h : params.flagged_rows row = true) :
    row_contribution to_float arcsec_to_rad params read_corralation_data shared_mem tid row c
      = vis_zero := by
  funext k
  unfold row_contribution
  have hw : combined_vis_weight params read_corralation_data row c k = 0 := by
    simp [combined_vis_weight, vis_flagged, vector_promotion, h]
  simp only [hw, zero_mul]
  exact basic_complex.scale_zero _

theorem gridder_row_step_zero (to_float : R → R) (arcsec_to_rad : R)
    (params : gridding_parameters R)
    (read_corralation_data : Nat → Nat → Nat → correlation_data R n)
    (shared_mem : Nat → R) (tid c : Nat) (st : gridder_state R n) (t : Nat)
    (h : ∀ r, params.flagged_rows r = true) (hs : zero_state st) :
    zero_state
      (gridder_row_step to_float arcsec_to_rad params read_corralation_data
        shared_mem tid c st t) := by
  rw [gridder_row_step_eq, row_contribution_of_flagged _ _ _ _ _ _ _ _ (h _)]
  have h1 : zero_state (row_step_init
      (my_current_u to_float arcsec_to_rad params tid (row_of params tid t) c)
      (my_current_v to_float arcsec_to_rad params tid (row_of params tid t) c)
      (params.spw_index_array (row_of params tid t)) t st) := by
    unfold row_step_init
    split_ifs
    · exact hs
    · exact hs
  have h2 : ∀ (enabled : Bool) (gi cu cv spw : Nat) (s : gridder_state R n), zero_state s →
      zero_state (row_step_flush params enabled gi cu cv spw s) := by
    intro enabled gi cu cv spw s hz
    unfold row_step_flush
    split_ifs
    · refine ⟨rfl, ?_⟩
      intro d hd
      rcases List.mem_append.mp hd with h3 | h3
      · exact hz.2 d h3
      · rw [List.mem_singleton.mp h3]
        exact hz.1
    · exact ⟨rfl, hz.2⟩
    · exact hz
  have h3 : ∀ s : gridder_state R n, zero_state s →
      zero_state (row_step_accumulate vis_zero s) := by
    intro s hz
    refine ⟨?_, hz.2⟩
    funext k
    show (s.my_grid_accum k).add (vis_zero k) = vis_zero k
    rw [hz.1]
    exact basic_complex.add_zero _
  have h4 : ∀ (enabled : Bool) (gi t last : Nat) (s : gridder_state R n), zero_state s →
      zero_state (row_step_last_flush params enabled gi t last s) := by
    intro enabled gi t last s hz
    unfold row_step_last_flush
    split_ifs
    · refine ⟨hz.1, ?_⟩
      intro d hd
      rcases List.mem_append.mp hd with h5 | h5
      · exact hz.2 d h5
      · rw [List.mem_singleton.mp h5]
        exact hz.1
    · exact hz
    · exact hz
  exact h4 _ _ _ _ _ (h3 _ (h2 _ _ _ _ _ _ h1))

theorem gridder_fold_zero (to_float : R → R) (arcsec_to_rad : R) (params : gridding_parameters R)
    (read_corralation_data : Nat → Nat → Nat → correlation_data R n)
    (shared_mem : Nat → R) (tid c : Nat) (h : ∀ r, params.flagged_rows r = true) :
    ∀ (ts : List Nat) (st : gridder_state R n), zero_state st →
      zero_state (ts.foldl
        (gridder_row_step to_float arcsec_to_rad params read_corralation_data
          shared_mem tid c) st) := by
  intro ts
  induction ts with
  | nil => intro st hs; exact hs
  | cons t ts ih =>
    intro st hs
    rw [List.foldl_cons]
    exact ih _ (gridder_row_step_zero to_float arcsec_to_rad params read_corralation_data shared_mem
      tid c st t h hs)

omit [FloorRing R] in
theorem grid_after_zero :
    ∀ (calls : List (grid_visibility_call R n))
      (g : Nat → Nat → Nat → Fin n → basic_complex R),
      (∀ d ∈ calls, d.accum = vis_zero) →
      grid_after calls g = g := by
  intro calls
  induction calls with
  | nil => intro g _; rfl
  | cons d ds ih =>
    intro g h
    unfold grid_after at ih ⊢
    rw [List.foldl_cons]
    have hd : grid_visibility g d = g := by
      funext plane u v k
      unfold grid_visibility
      split_ifs
      · rw [h d (List.mem_cons_self _ _)]
        exact basic_complex.add_zero _
      · rfl
    rw [hd]
    exact ih g (fun e he => h e (List.mem_cons_of_mem _ he))

/-- Claim C17 (flag zeroing): if `flagged_rows[r]` is true for every row, every
accumulator that a `templated_gridder` thread passes to `grid_visibility` is zero, and a
zero-initialised grid is still all-zero after the deposits. -/
theorem flag_zeroing (to_float : R → R) (arcsec_to_rad : R) (params : gridding_parameters R)
    (read_corralation_data : Nat → Nat → Nat → correlation_data R n)
    (shared_mem : Nat → R) (tid : Nat) (h : ∀ r, params.flagged_rows r = true) :
    (∀ d ∈ templated_gridder to_float arcsec_to_rad params read_corralation_data shared_mem tid,
      ∀ k, d.accum k = ⟨0, 0⟩)
    ∧ ∀ plane u v k,
        grid_after (templated_gridder to_float arcsec_to_rad params read_corralation_data shared_mem
          tid) zero_grid plane u v k = ⟨0, 0⟩ := by
  have hall : ∀ d ∈ templated_gridder to_float arcsec_to_rad params read_corralation_data
      shared_mem tid, d.accum = vis_zero := by
    intro d hd
    unfold templated_gridder at hd
    split_ifs at hd
    · simp at hd
    · obtain ⟨c, _, hc⟩ := List.mem_flatMap.mp hd
      have hz := gridder_fold_zero to_float arcsec_to_rad params read_corralation_data
        shared_mem tid
        c h (List.range (baseline_num_timestamps params tid)) ⟨vis_zero, 0, 0, 0, []⟩
        ⟨rfl, by simp⟩
      exact hz.2 d hc
  refine ⟨fun d hd k => by rw [hall d hd]; rfl, ?_⟩
  intro plane u v k
  rw [grid_after_zero _ _ hall]
  rfl

/-- Claim C17 at a concrete input: the small measurement set with two rows, both
flagged, leaves the cell `(3, 3)` of plane 0 at zero. -/
theorem flag_zeroing_witness :
    grid_after
        (templated_gridder id (1 : ℚ)
          { example_params 2 (fun _ => 0) (fun _ => true) (fun _ => 0) with
            flagged_rows := fun _ => true }
          example_read (fun _ => 0) 0)
        zero_grid 0 3 3 0 = ⟨0, 0⟩ :=
  (flag_zeroing id (1 : ℚ)
    { example_params 2 (fun _ => 0) (fun _ => true) (fun _ => 0) with
      flagged_rows := fun _ => true }
    example_read (fun _ => 0) 0 (fun _ => rfl)).2 0 3 3 0

end FlagZeroing

section CoalescingClaims

set_option maxRecDepth 8000 in
/-- Claim C18 (coalescing) evaluated on a baseline of three rows at one grid position with
the spectral windows 0, 1, 1 and every channel enabled: row 2 has the position and the
spectral window of row 1, yet the thread flushes at row 2 before adding its contribution:
the deposits are the contributions of rows 0, 1 and 2 taken singly (1, 2 and 3), not 1
followed by 2 + 3. The previous spectral window is set at `t == 0` and never updated. -/
theorem coalescing_flushes_unchanged_row :
    (example_params 3 (fun r => if r = 0 then 0 else 1) (fun _ => true)
        (fun _ => 0)).spw_index_array 2
      = (example_params 3 (fun r => if r = 0 then 0 else 1) (fun _ => true)
        (fun _ => 0)).spw_index_array 1
    ∧ my_current_u id 1
        (example_params 3 (fun r => if r = 0 then 0 else 1) (fun _ => true) (fun _ => 0))
        0 2 0
      = my_current_u id 1
        (example_params 3 (fun r => if r = 0 then 0 else 1) (fun _ => true) (fun _ => 0))
        0 1 0
    ∧ my_current_v id 1
        (example_params 3 (fun r => if r = 0 then 0 else 1) (fun _ => true) (fun _ => 0))
        0 2 0
      = my_current_v id 1
        (example_params 3 (fun r => if r = 0 then 0 else 1) (fun _ => true) (fun _ => 0))
        0 1 0
    ∧ (gridder_channel_loop id 1
        (example_params 3 (fun r => if r = 0 then 0 else 1) (fun _ => true) (fun _ => 0))
        example_read (fun _ => 0) 0 0).map
        (fun d => (d.channel_grid_index, d.pos_u, d.pos_v, d.accum 0))
      = [(0, 3, 3, ⟨1, 0⟩), (0, 3, 3, ⟨2, 0⟩), (0, 3, 3, ⟨3, 0⟩)] := by
  refine ⟨rfl, ?_, ?_, ?_⟩
  · rw [(example_position _ _ _ _ _ _).1, (example_position _ _ _ _ _ _).1]
  · rw [(example_position _ _ _ _ _ _).2, (example_position _ _ _ _ _ _).2]
  · unfold gridder_channel_loop
    rw [example_baseline_rows 3 (by norm_num)]
    simp only [List.range_succ, List.range_zero, List.nil_append, List.cons_append,
      List.foldl_cons, List.foldl_nil, gridder_row_step, example_position,
      example_contribution, example_baseline_rows 3 (by norm_num)]
    norm_num [row_of, starting_row_index, my_baseline, conv_full_support_sq,
      conv_full_support, channel_enabled, channel_grid_index, flat_indexed_spw_channel,
      flush_edge_test, last_flush_edge_test, flush_call, vis_zero, basic_complex.add,
      example_params, size_add, size_mul, size_sub, grid_size_in_floats]

set_option maxRecDepth 8000 in
/-- Claim C19 (last-row flush) evaluated on a baseline of two rows at one grid position
inside the grid, with the channel enabled for the spectral window of row 0 and disabled
for that of row 1 (the last row): the thread makes no deposit at all, although after the
last row the accumulator holds the contribution `1 + 0i` of the accepted row 0 and the
position `(prev_u, prev_v)` passes the edge test. The flush that the code comments as
"dump whatever has been accumulated since the last dump" (line 124) is guarded by the
`channel_enabled` of the last row, so what the earlier row accumulated is dropped. -/
theorem last_row_flush_needs_enabled_channel :
    gridder_channel_loop id 1
        (example_params 2 (fun r => r) (fun i => decide (i = 0)) (fun _ => 0))
        example_read (fun _ => 0) 0 0 = []
    ∧ (gridder_channel_final_state id 1
        (example_params 2 (fun r => r) (fun i => decide (i = 0)) (fun _ => 0))
        example_read (fun _ => 0) 0 0).my_grid_accum 0 = ⟨1, 0⟩
    ∧ flush_edge_test (example_params 2 (fun r => r) (fun i => decide (i = 0)) (fun _ => 0))
        (gridder_channel_final_state id 1
          (example_params 2 (fun r => r) (fun i => decide (i = 0)) (fun _ => 0))
          example_read (fun _ => 0) 0 0).my_previous_u
        (gridder_channel_final_state id 1
          (example_params 2 (fun r => r) (fun i => decide (i = 0)) (fun _ => 0))
          example_read (fun _ => 0) 0 0).my_previous_v = true := by
  refine ⟨?_, ?_, ?_⟩
  · unfold gridder_channel_loop
    rw [example_baseline_rows 2 (by norm_num)]
    simp only [List.range_succ, List.range_zero, List.nil_append, List.cons_append,
      List.foldl_cons, List.foldl_nil, gridder_row_step, example_position,
      example_contribution, example_baseline_rows 2 (by norm_num)]
    norm_num [row_of, starting_row_index, my_baseline, conv_full_support_sq,
      conv_full_support, channel_enabled, channel_grid_index, flat_indexed_spw_channel,
      flush_edge_test, last_flush_edge_test, flush_call, vis_zero, basic_complex.add,
      example_params, size_add, size_mul, size_sub, grid_size_in_floats]
  · unfold gridder_channel_final_state
    rw [example_baseline_rows 2 (by norm_num)]
    simp only [List.range_succ, List.range_zero, List.nil_append, List.cons_append,
      List.foldl_cons, List.foldl_nil, gridder_row_step, example_position,
      example_contribution, example_baseline_rows 2 (by norm_num)]
    norm_num [row_of, starting_row_index, my_baseline, conv_full_support_sq,
      conv_full_support, channel_enabled, channel_grid_index, flat_indexed_spw_channel,
      flush_edge_test, last_flush_edge_test, flush_call, vis_zero, basic_complex.add,
      example_params, size_add, size_mul, size_sub, grid_size_in_floats]
  · unfold gridder_channel_final_state
    rw [example_baseline_rows 2 (by norm_num)]
    simp only [List.range_succ, List.range_zero, List.nil_append, List.cons_append,
      List.foldl_cons, List.foldl_nil, gridder_row_step, example_position,
      example_contribution, example_baseline_rows 2 (by norm_num)]
    norm_num [row_of, starting_row_index, my_baseline, conv_full_support_sq,
      conv_full_support, channel_enabled, channel_grid_index, flat_indexed_spw_channel,
      flush_edge_test, last_flush_edge_test, flush_call, vis_zero, basic_complex.add,
      example_params, size_add, size_mul, size_sub, grid_size_in_floats]

set_option maxRecDepth 8000 in
/-- Claim C20 (plane routing) evaluated on a baseline of two rows at one grid position,
row 0 in spectral window 0 with grid plane 0 and row 1 in spectral window 1 with grid
plane 1, both enabled: the flush triggered by the change of spectral window at row 1
deposits the accumulator of row 0 (`1 + 0i`) with the `channel_grid_index` of row 1, so
the contribution of row 0 goes to plane 1. -/
theorem flush_uses_plane_of_current_row :
    channel_grid_index (example_params 2 (fun r => r) (fun _ => true) (fun i => i)) 0 0 = 0
    ∧ (gridder_channel_loop id 1
        (example_params 2 (fun r => r) (fun _ => true) (fun i => i))
        example_read (fun _ => 0) 0 0).map
        (fun d => (d.channel_grid_index, d.pos_u, d.pos_v, d.accum 0))
      = [(1, 3, 3, ⟨1, 0⟩), (1, 3, 3, ⟨2, 0⟩)] := by
  refine ⟨?_, ?_⟩
  · norm_num [channel_grid_index, flat_indexed_spw_channel, example_params, size_add,
      size_mul]
  · unfold gridder_channel_loop
    rw [example_baseline_rows 2 (by norm_num)]
    simp only [List.range_succ, List.range_zero, List.nil_append, List.cons_append,
      List.foldl_cons, List.foldl_nil, gridder_row_step, example_position,
      example_contribution, example_baseline_rows 2 (by norm_num)]
    norm_num [row_of, starting_row_index, my_baseline, conv_full_support_sq,
      conv_full_support, channel_enabled, channel_grid_index, flat_indexed_spw_channel,
      flush_edge_test, last_flush_edge_test, flush_call, vis_zero, basic_complex.add,
      example_params, size_add, size_mul, size_sub, grid_size_in_floats]

end CoalescingClaims

section LastRowFlush
variable {R : Type} [LinearOrderedField R] [FloorRing R] {n : Nat}

theorem size_sub_lt (a b : Nat) : size_sub a b < 2 ^ 64 := by
  unfold size_sub
  exact Nat.mod_lt _ (by norm_num)

theorem size_sub_succ_one (m : Nat) (h : m + 1 < 2 ^ 64) : size_sub (m + 1) 1 = m := by
  unfold size_sub
  omega

omit [LinearOrderedField R] [FloorRing R] in
theorem last_flush_edge_test_of_flush_edge_test (params : gridding_parameters R)
    (prev_u prev_v : Nat) (hxy : params.nx ≤ params.ny)
    (h : flush_edge_test params prev_u prev_v = true) :
    last_flush_edge_test params prev_u prev_v = true := by
  unfold flush_edge_test at h
  unfold last_flush_edge_test
  simp only [Bool.and_eq_true, decide_eq_true_eq] at h ⊢
  omega

omit [LinearOrderedField R] [FloorRing R] in
theorem row_step_last_flush_fields (params : gridding_parameters R) (enabled : Bool)
    (grid_index t last : Nat) (st : gridder_state R n) :
    (row_step_last_flush params enabled grid_index t last st).my_previous_u
        = st.my_previous_u
    ∧ (row_step_last_flush params enabled grid_index t last st).my_previous_v
        = st.my_previous_v
    ∧ (row_step_last_flush params enabled grid_index t last st).my_grid_accum
        = st.my_grid_accum := by
  unfold row_step_last_flush
  split_ifs <;> exact ⟨rfl, rfl, rfl⟩

omit [LinearOrderedField R] [FloorRing R] in
theorem row_step_last_flush_getLast (params : gridding_parameters R)
    (grid_index t : Nat) (st : gridder_state R n) (hxy : params.nx ≤ params.ny)
    (h : flush_edge_test params
      (row_step_last_flush params true grid_index t t st).my_previous_u
      (row_step_last_flush params true grid_index t t st).my_previous_v = true) :
    (row_step_last_flush params true grid_index t t st).deposits.getLast?
      = some (flush_call params grid_index
          (row_step_last_flush params true grid_index t t st).my_previous_u
          (row_step_last_flush params true grid_index t t st).my_previous_v
          (row_step_last_flush params true grid_index t t st).my_grid_accum) := by
  obtain ⟨f1, f2, f3⟩ := row_step_last_flush_fields params true grid_index t t st
  rw [f1, f2] at h
  have hl := last_flush_edge_test_of_flush_edge_test params _ _ hxy h
  rw [f1, f2, f3]
  unfold row_step_last_flush
  simp [hl]

/-- The flush on the last row when it is taken: for a baseline with at least one row and
a channel that is enabled for the last row, processing the last row ends with the
accumulator being deposited at `(prev_u, prev_v)` whenever that position is inside the
grid with its full support (`prev_u + 2 S + 1 < nx`, `prev_v + 2 S + 1 < ny`), on a grid
with `nx <= ny`: the last call to `grid_visibility` of the channel carries the final
accumulator. -/
theorem last_row_flush (to_float : R → R) (arcsec_to_rad : R) (params : gridding_parameters R)
    (read_corralation_data : Nat → Nat → Nat → correlation_data R n)
    (shared_mem : Nat → R) (tid c m : Nat)
    (hm : baseline_num_timestamps params tid = m + 1)
    (hen : channel_enabled params (row_of params tid m) c = true)
    (hxy : params.nx ≤ params.ny)
    (hin : flush_edge_test params
      (gridder_channel_final_state to_float arcsec_to_rad params read_corralation_data shared_mem
        tid c).my_previous_u
      (gridder_channel_final_state to_float arcsec_to_rad params read_corralation_data shared_mem
        tid c).my_previous_v = true) :
    (gridder_channel_loop to_float arcsec_to_rad params read_corralation_data shared_mem tid
        c).getLast?
      = some (flush_call params (channel_grid_index params (row_of params tid m) c)
          (gridder_channel_final_state to_float arcsec_to_rad params read_corralation_data
            shared_mem
            tid c).my_previous_u
          (gridder_channel_final_state to_float arcsec_to_rad params read_corralation_data
            shared_mem
            tid c).my_previous_v
          (gridder_channel_final_state to_float arcsec_to_rad params read_corralation_data
            shared_mem
            tid c).my_grid_accum) := by
  have hlt : m + 1 < 2 ^ 64 := by
    rw [← hm]
    exact size_sub_lt _ _
  have hloop : gridder_channel_loop to_float arcsec_to_rad params read_corralation_data shared_mem
      tid c
      = (gridder_channel_final_state to_float arcsec_to_rad params read_corralation_data shared_mem
          tid c).deposits := rfl
  have hF : gridder_channel_final_state to_float arcsec_to_rad params read_corralation_data
      shared_mem tid c
      = row_step_last_flush params true (channel_grid_index params (row_of params tid m) c)
          m m
          (row_step_accumulate
            (row_contribution to_float arcsec_to_rad params read_corralation_data shared_mem tid
              (row_of params tid m) c)
            (row_step_flush params true (channel_grid_index params (row_of params tid m) c)
              (my_current_u to_float arcsec_to_rad params tid (row_of params tid m) c)
              (my_current_v to_float arcsec_to_rad params tid (row_of params tid m) c)
              (params.spw_index_array (row_of params tid m))
              (row_step_init (my_current_u to_float arcsec_to_rad params tid
                (row_of params tid m) c)
                (my_current_v to_float arcsec_to_rad params tid (row_of params tid m) c)
                (params.spw_index_array (row_of params tid m)) m
                ((List.range m).foldl
                  (gridder_row_step to_float arcsec_to_rad params read_corralation_data shared_mem
                    tid c) ⟨vis_zero, 0, 0, 0, []⟩)))) := by
    unfold gridder_channel_final_state
    rw [hm, List.range_succ, List.foldl_append, List.foldl_cons, List.foldl_nil,
      gridder_row_step_eq, hm, size_sub_succ_one m hlt, hen]
  rw [hloop]
  rw [hF] at hin ⊢
  exact row_step_last_flush_getLast params _ m _ hxy hin

end LastRowFlush

section LastRowFlushWitness

set_option maxRecDepth 8000 in
/-- The flush on the last row at a concrete input: the small measurement set with two
rows in one enabled spectral window. -/
theorem last_row_flush_witness :
    (gridder_channel_loop id 1
        (example_params 2 (fun _ => 0) (fun _ => true) (fun _ => 0))
        example_read (fun _ => 0) 0 0).getLast?
      = some (flush_call (example_params 2 (fun _ => 0) (fun _ => true) (fun _ => 0))
          (channel_grid_index (example_params 2 (fun _ => 0) (fun _ => true) (fun _ => 0))
            (row_of (example_params 2 (fun _ => 0) (fun _ => true) (fun _ => 0)) 0 1) 0)
          (gridder_channel_final_state id 1
            (example_params 2 (fun _ => 0) (fun _ => true) (fun _ => 0))
            example_read (fun _ => 0) 0 0).my_previous_u
          (gridder_channel_final_state id 1
            (example_params 2 (fun _ => 0) (fun _ => true) (fun _ => 0))
            example_read (fun _ => 0) 0 0).my_previous_v
          (gridder_channel_final_state id 1
            (example_params 2 (fun _ => 0) (fun _ => true) (fun _ => 0))
            example_read (fun _ => 0) 0 0).my_grid_accum) :=
  last_row_flush id 1 (example_params 2 (fun _ => 0) (fun _ => true) (fun _ => 0))
    example_read (fun _ => 0) 0 0 1
    (example_baseline_rows 2 (by norm_num) _ _ _)
    (by norm_num [channel_enabled, example_params])
    (by norm_num [example_params])
    (by
      unfold gridder_channel_final_state
      rw [example_baseline_rows 2 (by norm_num)]
      simp only [List.range_succ, List.range_zero, List.nil_append, List.cons_append,
        List.foldl_cons, List.foldl_nil, gridder_row_step, example_position,
        example_contribution, example_baseline_rows 2 (by norm_num)]
      norm_num [row_of, starting_row_index, my_baseline, conv_full_support_sq,
        conv_full_support, channel_enabled, channel_grid_index, flat_indexed_spw_channel,
        flush_edge_test, last_flush_edge_test, flush_call, vis_zero, basic_complex.add,
        example_params, size_add, size_mul, size_sub, grid_size_in_floats])

end LastRowFlushWitness

/-! ## Claims C21 - C30 -/

section Extraction
variable {α : Type}

theorem size_mul_zero_right (a : Nat) : size_mul a 0 = 0 := by
  simp [size_mul]

/-- The scalars after a run of the extraction loop over `[i0, i0 + k)`: a scalar of the
range holds what the scalar of twice its index held before the loop, the others are
unchanged. -/
theorem extract_reals_loop_apply :
    ∀ (k i0 : Nat) (buffer : Nat → α) (j : Nat), (i0 + k) * 2 ≤ 2 ^ 64 →
      extract_reals_loop k i0 buffer j
        = if i0 ≤ j ∧ j < i0 + k then buffer (2 * j) else buffer j := by
  intro k
  induction k with
  | zero =>
    intro i0 buffer j _
    rw [extract_reals_loop, if_neg (by omega)]
  | succ k ih =>
    intro i0 buffer j h
    have hm : size_mul i0 2 = 2 * i0 := by
      rw [size_mul_of_lt (by omega)]
      omega
    rw [extract_reals_loop, ih (i0 + 1) _ j (by omega), hm]
    by_cases h1 : i0 + 1 ≤ j ∧ j < i0 + 1 + k
    · rw [if_pos h1, if_pos (by omega), Function.update_noteq (by omega)]
    · rw [if_neg h1]
      by_cases h2 : j = i0
      · subst h2
        rw [Function.update_same, if_pos (by omega)]
      · rw [Function.update_noteq h2, if_neg (by omega)]

/-- The scalars after the extraction loops over the facets `f0, ..., f0 + m - 1`, each
over `[offset * f, offset * f + count)`. -/
theorem extract_reals_facets_apply (offset count : Nat) (hc : count ≤ offset) :
    ∀ (m f0 : Nat) (buffer : Nat → α), 2 * (offset * (f0 + m)) ≤ 2 ^ 64 →
      (∀ f i, f0 ≤ f → f < f0 + m → i < count →
          extract_reals_facets offset count m f0 buffer (offset * f + i)
            = buffer (2 * (offset * f + i)))
      ∧ (∀ j, (∀ f, f0 ≤ f → f < f0 + m → ¬(offset * f ≤ j ∧ j < offset * f + count)) →
          extract_reals_facets offset count m f0 buffer j = buffer j) := by
  intro m
  induction m with
  | zero =>
    intro f0 buffer _
    refine ⟨?_, ?_⟩
    · intro f i h1 h2 _
      omega
    · intro j _
      rfl
  | succ m ih =>
    intro f0 buffer h
    have e1 : offset * (f0 + 1) = offset * f0 + offset := by ring
    have e2 : offset * (f0 + 1) ≤ offset * (f0 + (m + 1)) :=
      Nat.mul_le_mul_left offset (by omega)
    have e3 : f0 + 1 + m = f0 + (m + 1) := by omega
    have hlb : size_mul offset f0 = offset * f0 := size_mul_of_lt (by omega)
    have hub : size_add (offset * f0) count = offset * f0 + count := size_add_of_lt (by omega)
    have hcnt : offset * f0 + count - offset * f0 = count := by omega
    have hloop := fun j => extract_reals_loop_apply count (offset * f0) buffer j (by omega)
    obtain ⟨iha, ihb⟩ := ih (f0 + 1)
      (extract_reals_loop count (offset * f0) buffer) (by rw [e3]; exact h)
    have hstep : extract_reals_facets offset count (m + 1) f0 buffer
        = extract_reals_facets offset count m (f0 + 1)
            (extract_reals_loop count (offset * f0) buffer) := by
      rw [extract_reals_facets]
      simp only [hlb, hub, hcnt]
    rw [hstep]
    refine ⟨?_, ?_⟩
    · intro f i h1 h2 h3
      by_cases hf : f = f0
      · subst hf
        rw [ihb, hloop, if_pos (by omega)]
        intro f1 g1 _
        have : offset * (f + 1) ≤ offset * f1 := Nat.mul_le_mul_left offset g1
        omega
      · have g1 : f0 + 1 ≤ f := by omega
        have g2 : offset * (f0 + 1) ≤ offset * f := Nat.mul_le_mul_left offset g1
        rw [iha f i g1 (by omega) h3, hloop, if_neg (by omega)]
    · intro j hj
      rw [ihb, hloop, if_neg (hj f0 (le_refl _) (by omega))]
      intro f1 g1 g2
      exact hj f1 (by omega) (by omega)

/-- The sizes of `repack_and_ifft_uv_grids` do not wrap when the scalars of the cube
can be addressed. -/
theorem uv_grids_sizes (params : ifft_parameters)
    (hpol : 1 ≤ params.number_of_polarization_terms_being_gridded)
    (hF : 1 ≤ params.num_facet_centres)
    (hfit : 2 * (params.nx * params.ny * params.cube_channel_dim_size
      * params.number_of_polarization_terms_being_gridded * params.num_facet_centres)
      ≤ 2 ^ 64) :
    size_mul (size_mul params.nx params.ny) params.cube_channel_dim_size
        = params.nx * params.ny * params.cube_channel_dim_size
    ∧ uv_grids_offset params
        = params.nx * params.ny * params.cube_channel_dim_size
          * params.number_of_polarization_terms_being_gridded := by
  unfold uv_grids_offset
  rcases Nat.eq_zero_or_pos params.cube_channel_dim_size with h0 | h0
  · rw [h0, size_mul_zero_right]
    simp [size_mul]
  · have a1 : params.nx * params.ny * params.cube_channel_dim_size
        * params.number_of_polarization_terms_being_gridded
        ≤ params.nx * params.ny * params.cube_channel_dim_size
          * params.number_of_polarization_terms_being_gridded * params.num_facet_centres :=
      Nat.le_mul_of_pos_right _ hF
    have a2 : params.nx * params.ny * params.cube_channel_dim_size
        ≤ params.nx * params.ny * params.cube_channel_dim_size
          * params.number_of_polarization_terms_being_gridded :=
      Nat.le_mul_of_pos_right _ hpol
    have a3 : params.nx * params.ny ≤ params.nx * params.ny * params.cube_channel_dim_size :=
      Nat.le_mul_of_pos_right _ h0
    rw [size_mul_of_lt (a := params.nx) (by omega), size_mul_of_lt (by omega),
      size_mul_of_lt (by omega)]
    exact ⟨rfl, rfl⟩

/-- The sizes of `repack_and_ifft_sampling_function_grids` do not wrap when the scalars
of the cube can be addressed. -/
theorem sampling_function_grids_sizes (params : ifft_parameters)
    (hF : 1 ≤ params.num_facet_centres)
    (hfit : 2 * (params.nx * params.ny * params.sampling_function_channel_count
      * params.num_facet_centres) ≤ 2 ^ 64) :
    sampling_function_grids_offset params
      = params.nx * params.ny * params.sampling_function_channel_count := by
  unfold sampling_function_grids_offset
  rcases Nat.eq_zero_or_pos params.sampling_function_channel_count with h0 | h0
  · rw [h0, size_mul_zero_right]
    simp
  · have a1 : params.nx * params.ny * params.sampling_function_channel_count
        ≤ params.nx * params.ny * params.sampling_function_channel_count
          * params.num_facet_centres :=
      Nat.le_mul_of_pos_right _ hF
    have a3 : params.nx * params.ny
        ≤ params.nx * params.ny * params.sampling_function_channel_count :=
      Nat.le_mul_of_pos_right _ h0
    rw [size_mul_of_lt (a := params.nx) (by omega), size_mul_of_lt (by omega)]

/-- The scalars of `output_buffer` after the extraction of `repack_and_ifft_uv_grids`. -/
theorem uv_grids_extract_apply (params : ifft_parameters) (buffer : Nat → α)
    (hpol : 1 ≤ params.number_of_polarization_terms_being_gridded)
    (hfit : 2 * (params.nx * params.ny * params.cube_channel_dim_size
      * params.number_of_polarization_terms_being_gridded * params.num_facet_centres)
      ≤ 2 ^ 64) :
    (∀ f i, f < params.num_facet_centres →
        i < params.nx * params.ny * params.cube_channel_dim_size →
        repack_and_ifft_uv_grids_extract params buffer
            (params.nx * params.ny * params.cube_channel_dim_size
              * params.number_of_polarization_terms_being_gridded * f + i)
          = buffer (2 * (params.nx * params.ny * params.cube_channel_dim_size
              * params.number_of_polarization_terms_being_gridded * f + i)))
    ∧ (∀ j, (∀ f, f < params.num_facet_centres →
          ¬(params.nx * params.ny * params.cube_channel_dim_size
              * params.number_of_polarization_terms_being_gridded * f ≤ j
            ∧ j < params.nx * params.ny * params.cube_channel_dim_size
              * params.number_of_polarization_terms_being_gridded * f
              + params.nx * params.ny * params.cube_channel_dim_size)) →
        repack_and_ifft_uv_grids_extract params buffer j = buffer j) := by
  unfold repack_and_ifft_uv_grids_extract
  rcases Nat.eq_zero_or_pos params.num_facet_centres with h0 | h0
  · rw [h0]
    refine ⟨?_, ?_⟩
    · intro f i hf _
      omega
    · intro j _
      rfl
  · obtain ⟨s1, s2⟩ := uv_grids_sizes params hpol h0 hfit
    rw [s1, s2]
    obtain ⟨ha, hb⟩ := extract_reals_facets_apply
      (params.nx * params.ny * params.cube_channel_dim_size
        * params.number_of_polarization_terms_being_gridded)
      (params.nx * params.ny * params.cube_channel_dim_size)
      (Nat.le_mul_of_pos_right _ hpol) params.num_facet_centres 0 buffer
      (by rw [Nat.zero_add]; exact hfit)
    refine ⟨?_, ?_⟩
    · intro f i hf hi
      exact ha f i (Nat.zero_le _) (by omega) hi
    · intro j hj
      exact hb j (fun f _ h2 => hj f (by omega))

/-- The scalars of `sampling_function_buffer` after the extraction of
`repack_and_ifft_sampling_function_grids`. -/
theorem sampling_function_grids_extract_apply (params : ifft_parameters)
    (buffer : Nat → α)
    (hfit : 2 * (params.nx * params.ny * params.sampling_function_channel_count
      * params.num_facet_centres) ≤ 2 ^ 64) :
    (∀ j, j < params.nx * params.ny * params.sampling_function_channel_count
          * params.num_facet_centres →
        repack_and_ifft_sampling_function_grids_extract params buffer j = buffer (2 * j))
    ∧ (∀ j, params.nx * params.ny * params.sampling_function_channel_count
          * params.num_facet_centres ≤ j →
        repack_and_ifft_sampling_function_grids_extract params buffer j = buffer j) := by
  unfold repack_and_ifft_sampling_function_grids_extract
  rcases Nat.eq_zero_or_pos params.num_facet_centres with h0 | h0
  · rw [h0]
    refine ⟨?_, ?_⟩
    · intro j hj
      simp at hj
    · intro j _
      rfl
  · have s1 := sampling_function_grids_sizes params h0 hfit
    have s2 : size_mul (size_mul params.nx params.ny) params.sampling_function_channel_count
        = params.nx * params.ny * params.sampling_function_channel_count := s1
    rw [s1, s2]
    obtain ⟨ha, hb⟩ := extract_reals_facets_apply
      (params.nx * params.ny * params.sampling_function_channel_count)
      (params.nx * params.ny * params.sampling_function_channel_count)
      (le_refl _) params.num_facet_centres 0 buffer
      (by rw [Nat.zero_add]; exact hfit)
    refine ⟨?_, ?_⟩
    · intro j hj
      rcases Nat.eq_zero_or_pos
        (params.nx * params.ny * params.sampling_function_channel_count) with hz | hz
      · rw [hz] at hj
        simp at hj
      · have hdm := Nat.div_add_mod j
          (params.nx * params.ny * params.sampling_function_channel_count)
        have hlt : j / (params.nx * params.ny * params.sampling_function_channel_count)
            < params.num_facet_centres := by
          rw [Nat.div_lt_iff_lt_mul hz, Nat.mul_comm]
          exact hj
        have key := ha (j / (params.nx * params.ny * params.sampling_function_channel_count))
          (j % (params.nx * params.ny * params.sampling_function_channel_count))
          (Nat.zero_le _) (by omega) (Nat.mod_lt j hz)
        rw [hdm] at key
        exact key
    · intro j hj
      apply hb
      intro f _ hf h
      have : params.nx * params.ny * params.sampling_function_channel_count * (f + 1)
          ≤ params.nx * params.ny * params.sampling_function_channel_count
            * params.num_facet_centres := Nat.mul_le_mul_left _ (by omega)
      have e : params.nx * params.ny * params.sampling_function_channel_count * (f + 1)
          = params.nx * params.ny * params.sampling_function_channel_count * f
            + params.nx * params.ny * params.sampling_function_channel_count := by ring
      omega

end Extraction

section RepackClaims
variable {α : Type}

theorem size_to_int_of_lt {a : Nat} (h : a < 2 ^ 31) : size_to_int a = (a : Int) := by
  unfold size_to_int
  have h1 : a % 2 ^ 32 = a := Nat.mod_eq_of_lt (by omega)
  rw [h1, if_pos h]

/-- Claim C21 (as stated) fails: on the small cube, with two channel planes and two
polarization terms, each of the three calls made for a facet slab works on 2 planes,
not on the `2 * 2` planes of the slab. -/
theorem image_batch_misses_polarization_planes :
    (repack_and_ifft_uv_grids_calls (ifft_machine.create example_cube) example_cube).map
        fft_call.planes = [2, 2, 2, 2, 2, 2]
    ∧ ((example_cube.cube_channel_dim_size
        * example_cube.number_of_polarization_terms_being_gridded : Nat) : Int) = 4 := by
  decide

/-- Claim C21 (amended): in `repack_and_ifft_uv_grids` the three calls made for a facet
slab (`ifftshift`, the inverse FFT, `fftshift`) each work on `cube_channel_dim_size`
planes from the start `f * offset` of the slab, which are all the planes of the slab only
when there is one polarization term;
in `repack_and_ifft_sampling_function_grids` every quadrant swap works on the
`sampling_function_channel_count` planes of one facet and the single execution of the
plan covers `sampling_function_channel_count * num_facet_centres` planes. The batch
sizes fit in an `int`. -/
theorem image_batch_size (params : ifft_parameters)
    (hc : params.cube_channel_dim_size < 2 ^ 31)
    (hp : params.sampling_function_channel_count * params.num_facet_centres < 2 ^ 31) :
    (repack_and_ifft_uv_grids_calls (ifft_machine.create params) params).map
        fft_call.planes
      = List.replicate (3 * params.num_facet_centres) (params.cube_channel_dim_size : Int)
    ∧ (repack_and_ifft_uv_grids_calls (ifft_machine.create params) params).map
        fft_call.base
      = (List.range params.num_facet_centres).flatMap (fun f =>
          List.replicate 3 (size_mul f (uv_grids_offset params)))
    ∧ (repack_and_ifft_sampling_function_grids_calls (ifft_machine.create params)
          params).map fft_call.planes
        = List.replicate params.num_facet_centres
            (params.sampling_function_channel_count : Int)
          ++ [((params.sampling_function_channel_count * params.num_facet_centres : Nat)
              : Int)]
          ++ List.replicate params.num_facet_centres
            (params.sampling_function_channel_count : Int) := by
  refine ⟨?_, ?_, ?_⟩
  · have hthree : ∀ (g : Nat → List fft_call),
        (∀ f, (g f).map fft_call.planes
          = List.replicate 3 (params.cube_channel_dim_size : Int)) →
        ∀ m, ((List.range m).flatMap g).map fft_call.planes
          = List.replicate (3 * m) (params.cube_channel_dim_size : Int) := by
      intro g hg m
      induction m with
      | zero => rfl
      | succ m ih =>
        rw [List.range_succ, List.flatMap_append, List.map_append, ih, List.flatMap_singleton,
          hg, ← List.replicate_add, Nat.mul_succ]
    unfold repack_and_ifft_uv_grids_calls
    apply hthree
    intro f
    have he : (fft_call.execute_dft (ifft_machine.create params).fft_plan
        (size_mul f (uv_grids_offset params))).planes
        = (params.cube_channel_dim_size : Int) := size_to_int_of_lt hc
    simp only [List.map_cons, List.map_nil, he]
    rfl
  · unfold repack_and_ifft_uv_grids_calls
    rw [List.map_flatMap]
    rfl
  · unfold repack_and_ifft_sampling_function_grids_calls
    have hm : size_mul params.sampling_function_channel_count params.num_facet_centres
        = params.sampling_function_channel_count * params.num_facet_centres :=
      size_mul_of_lt (by omega)
    have hplan : (fft_call.execute (ifft_machine.create params).fft_psf_plan).planes
        = ((params.sampling_function_channel_count * params.num_facet_centres : Nat)
            : Int) := by
      show size_to_int _ = _
      rw [hm]
      exact size_to_int_of_lt hp
    have hconst : ∀ (g : Nat → fft_call),
        (∀ f, (g f).planes = (params.sampling_function_channel_count : Int)) →
        List.map (fft_call.planes ∘ g) (List.range params.num_facet_centres)
          = List.replicate params.num_facet_centres
              (params.sampling_function_channel_count : Int) := by
      intro g hg
      rw [List.eq_replicate_iff]
      refine ⟨by simp, ?_⟩
      intro b hb
      rw [List.mem_map] at hb
      obtain ⟨f, _, hf⟩ := hb
      rw [← hf]
      exact hg f
    rw [List.map_append, List.map_append, List.map_map, List.map_map, List.map_singleton,
      hplan]
    rw [hconst (fun f => fft_call.ifftshift
        (size_mul f (sampling_function_grids_offset params)) params.nx params.ny
        params.sampling_function_channel_count) (fun _ => rfl),
      hconst (fun f => fft_call.fftshift
        (size_mul f (sampling_function_grids_offset params)) params.nx params.ny
        params.sampling_function_channel_count) (fun _ => rfl)]

/-- Claim C21 (amended) on the small cube: the six calls for the two image slabs work on
2 planes each, and the plan of the sampling function cube covers 4 planes. -/
theorem image_batch_size_witness :
    (repack_and_ifft_uv_grids_calls (ifft_machine.create example_cube) example_cube).map
        fft_call.planes
      = List.replicate (3 * example_cube.num_facet_centres)
          (example_cube.cube_channel_dim_size : Int)
    ∧ (repack_and_ifft_uv_grids_calls (ifft_machine.create example_cube) example_cube).map
        fft_call.base
      = (List.range example_cube.num_facet_centres).flatMap (fun f =>
          List.replicate 3 (size_mul f (uv_grids_offset example_cube)))
    ∧ (repack_and_ifft_sampling_function_grids_calls (ifft_machine.create example_cube)
          example_cube).map fft_call.planes
        = List.replicate example_cube.num_facet_centres
            (example_cube.sampling_function_channel_count : Int)
          ++ [((example_cube.sampling_function_channel_count
              * example_cube.num_facet_centres : Nat) : Int)]
          ++ List.replicate example_cube.num_facet_centres
            (example_cube.sampling_function_channel_count : Int) :=
  image_batch_size example_cube (by decide) (by decide)

end RepackClaims

section ExtractionClaims
variable {α : Type}

/-- Claim C22 (as stated) fails: on the small cube a facet slab has `2 * 1 * 2 * 2 = 8`
samples, and after the extraction the float at index 4 of the first slab still holds
scalar 4 of the buffer, not the real part of complex sample 4 (scalar 8). -/
theorem real_extraction_stops_before_second_polarization :
    repack_and_ifft_uv_grids_extract example_cube example_buffer
        (uv_grids_offset example_cube * 0 + 4)
      = example_buffer (uv_grids_offset example_cube * 0 + 4)
    ∧ example_buffer (uv_grids_offset example_cube * 0 + 4)
      ≠ example_buffer (2 * (uv_grids_offset example_cube * 0 + 4))
    ∧ 4 < example_cube.nx * example_cube.ny * example_cube.cube_channel_dim_size
        * example_cube.number_of_polarization_terms_being_gridded := by
  decide

/-- Claim C22 (amended): after the extraction of `repack_and_ifft_uv_grids`, for every
facet `f`, every plane `q < cube_channel_dim_size` from the start of the slab and every
pixel `(y, x)`, the float at index `((f * (cube_channel_dim_size * n_pol) + q) * ny + y)
* nx + x` holds the real part of the complex sample of the same index; the floats of
the slab from `nx * ny * cube_channel_dim_size` on are left as they were. The scalars
of the cube can be addressed and there is at least one polarization term. -/
theorem real_extraction_image_cube (params : ifft_parameters) (buffer : Nat → α)
    (hpol : 1 ≤ params.number_of_polarization_terms_being_gridded)
    (hfit : 2 * (params.nx * params.ny * params.cube_channel_dim_size
      * params.number_of_polarization_terms_being_gridded * params.num_facet_centres)
      ≤ 2 ^ 64) :
    (∀ f q y x, f < params.num_facet_centres → q < params.cube_channel_dim_size →
        y < params.ny → x < params.nx →
        repack_and_ifft_uv_grids_extract params buffer
            (((f * (params.cube_channel_dim_size
                * params.number_of_polarization_terms_being_gridded) + q) * params.ny + y)
              * params.nx + x)
          = buffer (2 * (((f * (params.cube_channel_dim_size
                * params.number_of_polarization_terms_being_gridded) + q) * params.ny + y)
              * params.nx + x)))
    ∧ (∀ f i, f < params.num_facet_centres →
        params.nx * params.ny * params.cube_channel_dim_size ≤ i →
        i < params.nx * params.ny * params.cube_channel_dim_size
          * params.number_of_polarization_terms_being_gridded →
        repack_and_ifft_uv_grids_extract params buffer
            (params.nx * params.ny * params.cube_channel_dim_size
              * params.number_of_polarization_terms_being_gridded * f + i)
          = buffer (params.nx * params.ny * params.cube_channel_dim_size
              * params.number_of_polarization_terms_being_gridded * f + i)) := by
  obtain ⟨ha, hb⟩ := uv_grids_extract_apply params buffer hpol hfit
  refine ⟨?_, ?_⟩
  · intro f q y x hf hq hy hx
    have e : ((f * (params.cube_channel_dim_size
          * params.number_of_polarization_terms_being_gridded) + q) * params.ny + y)
          * params.nx + x
        = params.nx * params.ny * params.cube_channel_dim_size
            * params.number_of_polarization_terms_being_gridded * f
          + ((q * params.ny + y) * params.nx + x) := by ring
    have b1 : (q * params.ny + y + 1) * params.nx
        ≤ (params.cube_channel_dim_size * params.ny) * params.nx := by
      apply Nat.mul_le_mul_right
      have : (q + 1) * params.ny ≤ params.cube_channel_dim_size * params.ny :=
        Nat.mul_le_mul_right _ hq
      have e2 : (q + 1) * params.ny = q * params.ny + params.ny := by ring
      omega
    have b2 : (q * params.ny + y + 1) * params.nx
        = (q * params.ny + y) * params.nx + params.nx := by ring
    have b3 : (params.cube_channel_dim_size * params.ny) * params.nx
        = params.nx * params.ny * params.cube_channel_dim_size := by ring
    rw [e]
    exact ha f _ hf (by omega)
  · intro f i hf h1 h2
    apply hb
    intro f1 _ h
    rcases Nat.lt_trichotomy f1 f with g | g | g
    · have : params.nx * params.ny * params.cube_channel_dim_size
          * params.number_of_polarization_terms_being_gridded * (f1 + 1)
          ≤ params.nx * params.ny * params.cube_channel_dim_size
            * params.number_of_polarization_terms_being_gridded * f :=
        Nat.mul_le_mul_left _ g
      have e : params.nx * params.ny * params.cube_channel_dim_size
          * params.number_of_polarization_terms_being_gridded * (f1 + 1)
          = params.nx * params.ny * params.cube_channel_dim_size
            * params.number_of_polarization_terms_being_gridded * f1
            + params.nx * params.ny * params.cube_channel_dim_size
            * params.number_of_polarization_terms_being_gridded := by ring
      omega
    · subst g
      omega
    · have : params.nx * params.ny * params.cube_channel_dim_size
          * params.number_of_polarization_terms_being_gridded * (f + 1)
          ≤ params.nx * params.ny * params.cube_channel_dim_size
            * params.number_of_polarization_terms_being_gridded * f1 :=
        Nat.mul_le_mul_left _ g
      have e : params.nx * params.ny * params.cube_channel_dim_size
          * params.number_of_polarization_terms_being_gridded * (f + 1)
          = params.nx * params.ny * params.cube_channel_dim_size
            * params.number_of_polarization_terms_being_gridded * f
            + params.nx * params.ny * params.cube_channel_dim_size
            * params.number_of_polarization_terms_being_gridded := by ring
      omega

/-- Claim C22 (amended) on the small cube: the float of facet 1, plane 1, pixel (0, 1)
holds the real part of the sample of the same index, and the float at index 4 of the
slab of facet 1 is left as it was. -/
theorem real_extraction_image_cube_witness :
    repack_and_ifft_uv_grids_extract example_cube example_buffer
        (((1 * (example_cube.cube_channel_dim_size
            * example_cube.number_of_polarization_terms_being_gridded) + 1)
          * example_cube.ny + 0) * example_cube.nx + 1)
      = example_buffer (2 * (((1 * (example_cube.cube_channel_dim_size
            * example_cube.number_of_polarization_terms_being_gridded) + 1)
          * example_cube.ny + 0) * example_cube.nx + 1))
    ∧ repack_and_ifft_uv_grids_extract example_cube example_buffer
        (example_cube.nx * example_cube.ny * example_cube.cube_channel_dim_size
          * example_cube.number_of_polarization_terms_being_gridded * 1 + 4)
      = example_buffer
        (example_cube.nx * example_cube.ny * example_cube.cube_channel_dim_size
          * example_cube.number_of_polarization_terms_being_gridded * 1 + 4) :=
  ⟨(real_extraction_image_cube example_cube example_buffer (by decide) (by decide)).1
      1 1 0 1 (by decide) (by decide) (by decide) (by decide),
    (real_extraction_image_cube example_cube example_buffer (by decide) (by decide)).2
      1 4 (by decide) (by decide) (by decide)⟩

/-- Claim C23 (as stated) fails: on the small cube a plane has 2 samples, and the second
sample of plane 1 (complex sample 3, real part at scalar 6) is not found at float index
`2 * 1 * 2 + 1 = 5`, neither in the image cube, where float 5 is left as it was, nor in
the sampling function cube, where float 5 holds the real part of complex sample 5. -/
theorem exit_layout_is_not_per_plane :
    repack_and_ifft_uv_grids_extract example_cube example_buffer
        (2 * 1 * (example_cube.nx * example_cube.ny) + 1) = 5
    ∧ repack_and_ifft_sampling_function_grids_extract example_cube example_buffer
        (2 * 1 * (example_cube.nx * example_cube.ny) + 1) = 10
    ∧ example_buffer (2 * (1 * (example_cube.nx * example_cube.ny) + 1)) = 6 := by
  decide

/-- Claim C23 (amended): on return from the repack routines the planes are packed: the
real parts of the `nx * ny` samples of plane `p` occupy the float indices `p * nx * ny`
to `p * nx * ny + nx * ny - 1`, for the planes `p = f * (cube_channel_dim_size * n_pol)
+ q` with `q < cube_channel_dim_size` of the image cube and for every plane of the
sampling function cube; the floats from the index `number of complex samples` on, the
second half of the storage of the whole cube, are left as they were. The scalars of both
cubes can be addressed and there is at least one polarization term. -/
theorem exit_layout (params : ifft_parameters) (buffer : Nat → α)
    (hpol : 1 ≤ params.number_of_polarization_terms_being_gridded)
    (huv : 2 * (params.nx * params.ny * params.cube_channel_dim_size
      * params.number_of_polarization_terms_being_gridded * params.num_facet_centres)
      ≤ 2 ^ 64)
    (hpsf : 2 * (params.nx * params.ny * params.sampling_function_channel_count
      * params.num_facet_centres) ≤ 2 ^ 64) :
    (∀ f q k, f < params.num_facet_centres → q < params.cube_channel_dim_size →
        k < params.nx * params.ny →
        repack_and_ifft_uv_grids_extract params buffer
            ((f * (params.cube_channel_dim_size
                * params.number_of_polarization_terms_being_gridded) + q)
              * (params.nx * params.ny) + k)
          = buffer (2 * ((f * (params.cube_channel_dim_size
                * params.number_of_polarization_terms_being_gridded) + q)
              * (params.nx * params.ny) + k)))
    ∧ (∀ p k, p < params.sampling_function_channel_count * params.num_facet_centres →
        k < params.nx * params.ny →
        repack_and_ifft_sampling_function_grids_extract params buffer
            (p * (params.nx * params.ny) + k)
          = buffer (2 * (p * (params.nx * params.ny) + k)))
    ∧ (∀ j, params.nx * params.ny * params.cube_channel_dim_size
          * params.number_of_polarization_terms_being_gridded * params.num_facet_centres
          ≤ j →
        repack_and_ifft_uv_grids_extract params buffer j = buffer j)
    ∧ (∀ j, params.nx * params.ny * params.sampling_function_channel_count
          * params.num_facet_centres ≤ j →
        repack_and_ifft_sampling_function_grids_extract params buffer j = buffer j) := by
  obtain ⟨ha, hb⟩ := uv_grids_extract_apply params buffer hpol huv
  obtain ⟨hc, hd⟩ := sampling_function_grids_extract_apply params buffer hpsf
  refine ⟨?_, ?_, ?_, hd⟩
  · intro f q k hf hq hk
    have e : (f * (params.cube_channel_dim_size
          * params.number_of_polarization_terms_being_gridded) + q)
          * (params.nx * params.ny) + k
        = params.nx * params.ny * params.cube_channel_dim_size
            * params.number_of_polarization_terms_being_gridded * f
          + (q * (params.nx * params.ny) + k) := by ring
    have b1 : (q + 1) * (params.nx * params.ny)
        ≤ params.cube_channel_dim_size * (params.nx * params.ny) :=
      Nat.mul_le_mul_right _ hq
    have b2 : (q + 1) * (params.nx * params.ny)
        = q * (params.nx * params.ny) + params.nx * params.ny := by ring
    have b3 : params.cube_channel_dim_size * (params.nx * params.ny)
        = params.nx * params.ny * params.cube_channel_dim_size := by ring
    rw [e]
    exact ha f _ hf (by omega)
  · intro p k hp hk
    apply hc
    have b1 : (p + 1) * (params.nx * params.ny)
        ≤ params.sampling_function_channel_count * params.num_facet_centres
          * (params.nx * params.ny) :=
      Nat.mul_le_mul_right _ hp
    have b2 : (p + 1) * (params.nx * params.ny)
        = p * (params.nx * params.ny) + params.nx * params.ny := by ring
    have b3 : params.sampling_function_channel_count * params.num_facet_centres
          * (params.nx * params.ny)
        = params.nx * params.ny * params.sampling_function_channel_count
          * params.num_facet_centres := by ring
    omega
  · intro j hj
    apply hb
    intro f hf h
    have : params.nx * params.ny * params.cube_channel_dim_size
        * params.number_of_polarization_terms_being_gridded * (f + 1)
        ≤ params.nx * params.ny * params.cube_channel_dim_size
          * params.number_of_polarization_terms_being_gridded * params.num_facet_centres :=
      Nat.mul_le_mul_left _ hf
    have e : params.nx * params.ny * params.cube_channel_dim_size
        * params.number_of_polarization_terms_being_gridded * (f + 1)
        = params.nx * params.ny * params.cube_channel_dim_size
          * params.number_of_polarization_terms_being_gridded * f
          + params.nx * params.ny * params.cube_channel_dim_size
          * params.number_of_polarization_terms_being_gridded := by ring
    have a2 : params.nx * params.ny * params.cube_channel_dim_size
        ≤ params.nx * params.ny * params.cube_channel_dim_size
          * params.number_of_polarization_terms_being_gridded :=
      Nat.le_mul_of_pos_right _ hpol
    omega

/-- Claim C23 (amended) on the small cube: the second sample of plane 1 of the image
cube and of plane 3 of the sampling function cube are at the float indices 3 and 7, and
the floats 16 and 8, the first ones after the complex samples, are left as they were. -/
theorem exit_layout_witness :
    repack_and_ifft_uv_grids_extract example_cube example_buffer
        ((0 * (example_cube.cube_channel_dim_size
            * example_cube.number_of_polarization_terms_being_gridded) + 1)
          * (example_cube.nx * example_cube.ny) + 1)
      = example_buffer (2 * ((0 * (example_cube.cube_channel_dim_size
            * example_cube.number_of_polarization_terms_being_gridded) + 1)
          * (example_cube.nx * example_cube.ny) + 1))
    ∧ repack_and_ifft_sampling_function_grids_extract example_cube example_buffer
        (3 * (example_cube.nx * example_cube.ny) + 1)
      = example_buffer (2 * (3 * (example_cube.nx * example_cube.ny) + 1))
    ∧ repack_and_ifft_uv_grids_extract example_cube example_buffer 16 = example_buffer 16
    ∧ repack_and_ifft_sampling_function_grids_extract example_cube example_buffer 8
      = example_buffer 8 :=
  ⟨(exit_layout example_cube example_buffer (by decide) (by decide) (by decide)).1
      0 1 1 (by decide) (by decide) (by decide),
    (exit_layout example_cube example_buffer (by decide) (by decide) (by decide)).2.1
      3 1 (by decide) (by decide),
    (exit_layout example_cube example_buffer (by decide) (by decide) (by decide)).2.2.1
      16 (by decide),
    (exit_layout example_cube example_buffer (by decide) (by decide) (by decide)).2.2.2
      8 (by decide)⟩

/-- Claim C30: in the build in which `float` and `grid_base_type` coincide, after the
extraction loops of both repack routines the float at index `i` holds the real part
(scalar `2 i`) that complex sample `i` had before the loops, whatever the content of the
buffer, for every `i` of the extracted ranges `[offset * f, offset * f + count)`; in the
sampling function routine these ranges are all the samples of the cube. The scalars of
both cubes can be addressed and there is at least one polarization term. -/
theorem extraction_reads_original (params : ifft_parameters) (buffer : Nat → α)
    (hpol : 1 ≤ params.number_of_polarization_terms_being_gridded)
    (huv : 2 * (params.nx * params.ny * params.cube_channel_dim_size
      * params.number_of_polarization_terms_being_gridded * params.num_facet_centres)
      ≤ 2 ^ 64)
    (hpsf : 2 * (params.nx * params.ny * params.sampling_function_channel_count
      * params.num_facet_centres) ≤ 2 ^ 64) :
    (∀ f i, f < params.num_facet_centres →
        i < params.nx * params.ny * params.cube_channel_dim_size →
        repack_and_ifft_uv_grids_extract params buffer
            (params.nx * params.ny * params.cube_channel_dim_size
              * params.number_of_polarization_terms_being_gridded * f + i)
          = buffer (2 * (params.nx * params.ny * params.cube_channel_dim_size
              * params.number_of_polarization_terms_being_gridded * f + i)))
    ∧ (∀ f i, f < params.num_facet_centres →
        i < params.nx * params.ny * params.sampling_function_channel_count →
        repack_and_ifft_sampling_function_grids_extract params buffer
            (params.nx * params.ny * params.sampling_function_channel_count * f + i)
          = buffer (2 * (params.nx * params.ny * params.sampling_function_channel_count
              * f + i)))
    ∧ (∀ i, i < params.nx * params.ny * params.sampling_function_channel_count
          * params.num_facet_centres →
        repack_and_ifft_sampling_function_grids_extract params buffer i
          = buffer (2 * i)) := by
  obtain ⟨ha, _⟩ := uv_grids_extract_apply params buffer hpol huv
  obtain ⟨hc, _⟩ := sampling_function_grids_extract_apply params buffer hpsf
  refine ⟨ha, ?_, hc⟩
  intro f i hf hi
  apply hc
  have : params.nx * params.ny * params.sampling_function_channel_count * (f + 1)
      ≤ params.nx * params.ny * params.sampling_function_channel_count
        * params.num_facet_centres := Nat.mul_le_mul_left _ hf
  have e : params.nx * params.ny * params.sampling_function_channel_count * (f + 1)
      = params.nx * params.ny * params.sampling_function_channel_count * f
        + params.nx * params.ny * params.sampling_function_channel_count := by ring
  omega

/-- Claim C30 on the small cube: sample 3 of the slab of facet 1 of the image cube, the
same sample of the sampling function cube, and sample 7 of the sampling function
cube. -/
theorem extraction_reads_original_witness :
    repack_and_ifft_uv_grids_extract example_cube example_buffer
        (example_cube.nx * example_cube.ny * example_cube.cube_channel_dim_size
          * example_cube.number_of_polarization_terms_being_gridded * 1 + 3)
      = example_buffer
        (2 * (example_cube.nx * example_cube.ny * example_cube.cube_channel_dim_size
          * example_cube.number_of_polarization_terms_being_gridded * 1 + 3))
    ∧ repack_and_ifft_sampling_function_grids_extract example_cube example_buffer
        (example_cube.nx * example_cube.ny * example_cube.sampling_function_channel_count
          * 1 + 3)
      = example_buffer
        (2 * (example_cube.nx * example_cube.ny
          * example_cube.sampling_function_channel_count * 1 + 3))
    ∧ repack_and_ifft_sampling_function_grids_extract example_cube example_buffer 7
      = example_buffer (2 * 7) :=
  ⟨(extraction_reads_original example_cube example_buffer (by decide) (by decide)
      (by decide)).1 1 3 (by decide) (by decide),
    (extraction_reads_original example_cube example_buffer (by decide) (by decide)
      (by decide)).2.1 1 3 (by decide) (by decide),
    (extraction_reads_original example_cube example_buffer (by decide) (by decide)
      (by decide)).2.2 7 (by decide)⟩

end ExtractionClaims

section PolicyMisuse

/-- Claim C24: the constructor of the unspecialised `convolution_policy` and that of the
unspecialised `baseline_transform_policy` fail with the runtime error "Undefined
behaviour", and so do their `convolve` and `transform` for every argument; none of the
four returns a value. -/
theorem policy_misuse (R V : Type) (uvw baseline : uvw_coord R) (vis : V)
    (no_grids_to_offset : Nat) :
    convolution_policy.undefined_policy R = Except.error ("Undefined behaviour")
    ∧ baseline_transform_policy.undefined_policy R = Except.error ("Undefined behaviour")
    ∧ (convolution_policy.undefined_convolve uvw vis no_grids_to_offset : Except String R)
      = Except.error ("Undefined behaviour")
    ∧ baseline_transform_policy.undefined_transform baseline
      = Except.error ("Undefined behaviour")
    ∧ (∀ p, convolution_policy.undefined_policy R ≠ Except.ok p)
    ∧ (∀ p, baseline_transform_policy.undefined_policy R ≠ Except.ok p)
    ∧ (∀ w, (convolution_policy.undefined_convolve uvw vis no_grids_to_offset
        : Except String R) ≠ Except.ok w)
    ∧ (∀ b, baseline_transform_policy.undefined_transform baseline ≠ Except.ok b) := by
  refine ⟨rfl, rfl, rfl, rfl, ?_, ?_, ?_, ?_⟩ <;> intro x h <;> cases h

end PolicyMisuse

section GpuCpuCells
variable {R : Type} [LinearOrderedField R] [FloorRing R] {n : Nat}

/-- At a rounding tie `lrint` returns the even neighbour. -/
theorem lrint_tie (x : R) (z : Int) (h : x = (z : R) + 1 / 2) :
    lrint x = if z % 2 = 0 then z else z + 1 := by
  have hf : Int.floor x = z := by
    rw [Int.floor_eq_iff, h]
    constructor <;> linarith
  have hd : x - (z : R) = 1 / 2 := by
    rw [h]
    ring
  unfold lrint
  simp only [hf, hd, lt_irrefl, if_false]

theorem float_to_size_t_rintf (to_float : R → R) (x : R) :
    float_to_size_t (rintf to_float x) = to_size_t (lrint (to_float x)) := by
  unfold float_to_size_t rintf
  split_ifs
  · rw [Int.floor_intCast]
  · rw [Int.ceil_intCast]

end GpuCpuCells

section GpuCpuCellsExamples

/-- The conversion to `float` inside `rintf` can move a coordinate onto a rounding tie: on
the 8 x 8 grid with half support 1 and the scaled sample `(2 ^ (-30), 0)`, the translated
coordinate `3/2 + 2 ^ (-30)` is not a tie and the pre-computed FIR `convolve` rounds it
to 2 and writes the tap `s_u = 1` at column 3; the coordinate of thread 0 of
`templated_gridder` (tap (1, 1)) is `5/2 + 2 ^ (-30)`, which rounds to 3, but a conversion
that takes it to the single precision value `5/2` (the nearest one, a `float` having 24
significant bits) makes the thread compute column 2. -/
theorem gpu_cell_differs_after_conversion (to_float : ℚ → ℚ)
    (h : to_float (5 / 2 + 1 / 2 ^ 30) = 5 / 2) :
    my_current_u to_float 1
        (example_params_at (1 / 2 ^ 33) 0 1 (fun _ => 0) (fun _ => true) (fun _ => 0)) 0 0 0
      = 2
    ∧ lrint (cont_current_u 1
        (example_params_at (1 / 2 ^ 33) 0 1 (fun _ => 0) (fun _ => true) (fun _ => 0)) 0 0 0)
      = 3
    ∧ translated_grid_u (convolution_policy.precomputed_fir 8 8 1 1 1 (fun _ => (1 : ℚ)))
        (scaled_uvw 1
          (example_params_at (1 / 2 ^ 33) 0 1 (fun _ => 0) (fun _ => true) (fun _ => 0)) 0 0)
      = 3 / 2 + 1 / 2 ^ 30
    ∧ size_add (disc_grid_u (convolution_policy.precomputed_fir 8 8 1 1 1 (fun _ => (1 : ℚ)))
          (scaled_uvw 1
            (example_params_at (1 / 2 ^ 33) 0 1 (fun _ => 0) (fun _ => true) (fun _ => 0))
            0 0))
        (my_conv_u
          (example_params_at (1 / 2 ^ 33) 0 1 (fun _ => 0) (fun _ => true) (fun _ => 0)) 0)
      = 3 := by
  have t1 : lrint (3 / 2 + 1 / 2 ^ 30 : ℚ) = 2 :=
    lrint_eq_of_near _ 2 (by norm_num) (by norm_num)
  have t2 : lrint (5 / 2 : ℚ) = 2 := by
    rw [lrint_tie (5 / 2 : ℚ) 2 (by norm_num)]
    decide
  have t3 : lrint (5 / 2 + 1 / 2 ^ 30 : ℚ) = 3 :=
    lrint_eq_of_near _ 3 (by norm_num) (by norm_num)
  have c0 : cont_current_u 1
      (example_params_at (1 / 2 ^ 33) 0 1 (fun _ => 0) (fun _ => true) (fun _ => 0)) 0 0 0
      = 5 / 2 + 1 / 2 ^ 30 := by
    norm_num [cont_current_u, u_scale, grid_centre_offset_x, conv_offset,
      padded_conv_full_support, conv_full_support, my_conv_u, conv_full_support_sq,
      example_params_at, example_params, size_add, size_mul]
  have tr : translated_grid_u (convolution_policy.precomputed_fir 8 8 1 1 1 (fun _ => (1 : ℚ)))
      (scaled_uvw 1
        (example_params_at (1 / 2 ^ 33) 0 1 (fun _ => 0) (fun _ => true) (fun _ => 0)) 0 0)
      = 3 / 2 + 1 / 2 ^ 30 := by
    norm_num [translated_grid_u, convolution_policy.precomputed_fir, scaled_uvw, u_scale,
      example_params_at, example_params, size_add, size_mul]
  refine ⟨?_, ?_, tr, ?_⟩
  · unfold my_current_u
    rw [float_to_size_t_rintf, c0, h, t2]
    rfl
  · rw [c0, t3]
  · unfold disc_grid_u
    rw [tr, t1]
    norm_num [my_conv_u, conv_full_support_sq, conv_full_support, example_params_at,
      example_params, size_add, size_mul, to_size_t_ofNat]

end GpuCpuCellsExamples

section NegativeSamples
variable {R : Type} [LinearOrderedField R] [FloorRing R] {V : Type}

theorem to_size_t_of_neg (z : Int) (h1 : -(2 : Int) ^ 63 ≤ z) (h2 : z < 0) :
    2 ^ 63 ≤ to_size_t z := by
  unfold to_size_t
  omega

omit [LinearOrderedField R] [FloorRing R] in
/-- The edge test fires on a position that comes from a negative `long`. -/
theorem edge_test_of_neg (p : convolution_policy R) (zu zv : Int)
    (hnx : p._nx ≤ 2 ^ 63) (hny : p._ny ≤ 2 ^ 63)
    (hneg : (-(2 : Int) ^ 63 ≤ zu ∧ zu < 0) ∨ (-(2 : Int) ^ 63 ≤ zv ∧ zv < 0)) :
    edge_test p (to_size_t zu) (to_size_t zv) = true := by
  unfold edge_test
  simp only [Bool.or_eq_true, decide_eq_true_eq]
  rcases hneg with h | h
  · have := to_size_t_of_neg zu h.1 h.2
    exact Or.inr (by omega)
  · have := to_size_t_of_neg zv h.1 h.2
    exact Or.inl (Or.inr (by omega))

/-- Claim C26: for grid sizes up to `2 ^ 63` and any support, a sample whose rounded
translated coordinate is a negative `long` in `u` or in `v` makes the edge test fire
after the conversion to `std::size_t`: the pre-computed FIR and the on-the-fly `convolve`
(translated coordinate `u + nx / 2 - offset`) and the nearest-neighbour `convolve`
(translated coordinate `u + nx / 2`) return 0 and make no call. -/
theorem negative_samples_dropped (sin : R → R) (pi : R) (p : convolution_policy R)
    (uvw : uvw_coord R) (vis : V) (no_grids_to_offset facet_id : Nat)
    (hnx : p._nx ≤ 2 ^ 63) (hny : p._ny ≤ 2 ^ 63) :
    (((-(2 : Int) ^ 63 ≤ lrint (translated_grid_u p uvw)
          ∧ lrint (translated_grid_u p uvw) < 0)
        ∨ (-(2 : Int) ^ 63 ≤ lrint (translated_grid_v p uvw)
          ∧ lrint (translated_grid_v p uvw) < 0)) →
      convolve_precomputed_fir p uvw vis no_grids_to_offset facet_id = (0, [])
      ∧ convolve_on_the_fly_computed_fir sin pi p uvw vis no_grids_to_offset facet_id
        = (0, []))
    ∧ (((-(2 : Int) ^ 63 ≤ lrint (uvw._u + p._grid_u_centre)
          ∧ lrint (uvw._u + p._grid_u_centre) < 0)
        ∨ (-(2 : Int) ^ 63 ≤ lrint (uvw._v + p._grid_v_centre)
          ∧ lrint (uvw._v + p._grid_v_centre) < 0)) →
      convolve_nn p uvw vis no_grids_to_offset facet_id = (0, [])) := by
  refine ⟨?_, ?_⟩
  · intro hneg
    have he : edge_test p (disc_grid_u p uvw) (disc_grid_v p uvw) = true :=
      edge_test_of_neg p _ _ hnx hny hneg
    refine ⟨?_, ?_⟩
    · unfold convolve_precomputed_fir
      simp only [he, if_true]
    · unfold convolve_on_the_fly_computed_fir
      simp only [he, if_true]
  · intro hneg
    have he : edge_test p (nn_disc_grid_u p uvw) (nn_disc_grid_v p uvw) = true :=
      edge_test_of_neg p _ _ hnx hny hneg
    unfold convolve_nn
    simp only [he, if_true]

end NegativeSamples

section NegativeSamplesWitness

/-- Claim C26 at a concrete input: the sample `u = -25/4`, `v = 0` on an 8 x 8 grid with
half support 1 rounds to the column -5 in the pre-computed FIR policy, -3 in the
on-the-fly policy and -2 in the nearest-neighbour policy, and is dropped by all three. -/
theorem negative_samples_dropped_witness :
    convolve_precomputed_fir (convolution_policy.precomputed_fir 8 8 1 1 1 (fun _ => 1))
        ⟨-25 / 4, 0, 0⟩ (1 : ℚ) 0 0 = ((0 : ℚ), [])
    ∧ convolve_on_the_fly_computed_fir (fun x => x) 3
        (convolution_policy.on_the_fly_computed_fir 8 8 1 1 1 (fun _ => 1))
        ⟨-25 / 4, 0, 0⟩ (1 : ℚ) 0 0 = ((0 : ℚ), [])
    ∧ convolve_nn (convolution_policy.nn 8 8 1 1 1 (fun _ => 1) 0)
        ⟨-25 / 4, 0, 0⟩ (1 : ℚ) 0 0 = ((0 : ℚ), []) := by
  have h1 : lrint (translated_grid_u
      (convolution_policy.precomputed_fir 8 8 1 1 1 (fun _ => (1 : ℚ))) ⟨-25 / 4, 0, 0⟩)
      = -5 := by
    apply lrint_eq_of_near <;>
      norm_num [translated_grid_u, convolution_policy.precomputed_fir, size_add, size_mul]
  have h2 : lrint (translated_grid_u
      (convolution_policy.on_the_fly_computed_fir 8 8 1 1 1 (fun _ => (1 : ℚ)))
      ⟨-25 / 4, 0, 0⟩) = -3 := by
    apply lrint_eq_of_near <;>
      norm_num [translated_grid_u, convolution_policy.on_the_fly_computed_fir, size_add,
        size_mul]
  have h3 : lrint ((⟨-25 / 4, 0, 0⟩ : uvw_coord ℚ)._u
      + (convolution_policy.nn 8 8 1 1 1 (fun _ => (1 : ℚ)) 0)._grid_u_centre) = -2 := by
    apply lrint_eq_of_near <;> norm_num [convolution_policy.nn]
  exact ⟨((negative_samples_dropped (fun x => x) 3
        (convolution_policy.precomputed_fir 8 8 1 1 1 (fun _ => 1)) ⟨-25 / 4, 0, 0⟩ (1 : ℚ)
        0 0 (by norm_num [convolution_policy.precomputed_fir])
        (by norm_num [convolution_policy.precomputed_fir])).1
      (Or.inl (by rw [h1]; norm_num))).1,
    ((negative_samples_dropped (fun x => x) 3
        (convolution_policy.on_the_fly_computed_fir 8 8 1 1 1 (fun _ => 1))
        ⟨-25 / 4, 0, 0⟩ (1 : ℚ) 0 0
        (by norm_num [convolution_policy.on_the_fly_computed_fir])
        (by norm_num [convolution_policy.on_the_fly_computed_fir])).1
      (Or.inl (by rw [h2]; norm_num))).2,
    (negative_samples_dropped (fun x => x) 3
        (convolution_policy.nn 8 8 1 1 1 (fun _ => 1) 0) ⟨-25 / 4, 0, 0⟩ (1 : ℚ) 0 0
        (by norm_num [convolution_policy.nn])
        (by norm_num [convolution_policy.nn])).2
      (Or.inl (by rw [h3]; norm_num))⟩

end NegativeSamplesWitness

section EdgePolicyClaims

theorem example_at_baseline_rows (u v : ℚ) (rows : Nat) (hr : rows < 2 ^ 64)
    (spw : Nat → Nat) (enabled : Nat → Bool) (planes : Nat → Nat) :
    baseline_num_timestamps (example_params_at u v rows spw enabled planes) 0 = rows := by
  simp [baseline_num_timestamps, starting_row_index, my_baseline, example_params_at,
    example_params, size_add, size_sub, conv_full_support_sq, conv_full_support, size_mul]
  omega

/-- The rows of the small measurement set at `(1/16, -7/16)` are at the cell (3, 6) for
thread 0. -/
theorem example_edge_position (rows : Nat) (spw : Nat → Nat)
    (enabled : Nat → Bool) (planes : Nat → Nat) (row c : Nat) :
    my_current_u id 1 (example_params_at (1 / 16) (-7 / 16) rows spw enabled planes) 0 row c = 3
    ∧ my_current_v id 1 (example_params_at (1 / 16) (-7 / 16) rows spw enabled planes) 0 row c
      = 6 := by
  constructor
  · norm_num [my_current_u, cont_current_u, u_scale, grid_centre_offset_x, conv_offset,
      padded_conv_full_support, conv_full_support, my_conv_u, conv_full_support_sq,
      example_params_at, example_params, size_add, size_mul, rintf, float_to_size_t,
      lrint_ofNat, lrint_natCast, to_size_t_ofNat]
  · norm_num [my_current_v, cont_current_v, v_scale, grid_centre_offset_y, conv_offset,
      padded_conv_full_support, conv_full_support, my_conv_v, conv_full_support_sq,
      example_params_at, example_params, size_add, size_mul, rintf, float_to_size_t,
      lrint_ofNat, lrint_natCast, to_size_t_ofNat]

theorem example_edge_contribution (rows : Nat) (spw : Nat → Nat)
    (enabled : Nat → Bool) (planes : Nat → Nat) (shared_mem : Nat → ℚ) (row c : Nat)
    (k : Fin 1) :
    row_contribution id 1 (example_params_at (1 / 16) (-7 / 16) rows spw enabled planes)
        example_read shared_mem 0 row c k
      = ⟨((row : ℚ) + 1)
          * (if channel_enabled
                (example_params_at (1 / 16) (-7 / 16) rows spw enabled planes) row c = true
              then 1 else 0), 0⟩ := by
  have hu : closest_conv_u id 1 (example_params_at (1 / 16) (-7 / 16) rows spw enabled planes)
      0 row c = 1 := by
    unfold closest_conv_u
    rw [(example_edge_position rows spw enabled planes row c).1]
    norm_num [cont_current_u, u_scale, grid_centre_offset_x, conv_offset,
      padded_conv_full_support, conv_full_support, my_conv_u, conv_full_support_sq,
      example_params_at, example_params, size_add, size_mul, float_to_size_t, to_size_t_zero]
  have hv : closest_conv_v id 1 (example_params_at (1 / 16) (-7 / 16) rows spw enabled planes)
      0 row c = 1 := by
    unfold closest_conv_v
    rw [(example_edge_position rows spw enabled planes row c).2]
    norm_num [cont_current_v, v_scale, grid_centre_offset_y, conv_offset,
      padded_conv_full_support, conv_full_support, my_conv_v, conv_full_support_sq,
      example_params_at, example_params, size_add, size_mul, float_to_size_t, to_size_t_zero]
  have hs : shared_conv (example_params_at (1 / 16) (-7 / 16) rows spw enabled planes)
      shared_mem 1 = 1 := by
    norm_num [shared_conv, padded_conv_full_support, conv_full_support, example_params_at,
      example_params, size_add, size_mul]
  unfold row_contribution
  simp only [hu, hv, hs]
  cases he : channel_enabled
      (example_params_at (1 / 16) (-7 / 16) rows spw enabled planes) row c <;>
    simp only [combined_vis_weight, vis_flagged, he] <;>
    simp [vector_promotion, basic_complex.scale, example_read, row_is_in_field_being_imaged,
      example_params_at, example_params]

set_option maxRecDepth 8000 in
/-- Claim C27 (same edge predicate at both flush sites) evaluated on a baseline of one row
at the cell (3, 6) of the 8 x 8 grid with half support 1: the flush on the last row
tests `prev_u + 3 < ny` in place of `prev_v + 3 < ny` and calls `grid_visibility` at
(3, 6), although `6 + 3 < 8` fails and the edge test of the flush on a change of
position rejects this cell. -/
theorem last_flush_skips_v_support_test :
    (templated_gridder id 1
        (example_params_at (1 / 16) (-7 / 16) 1 (fun _ => 0) (fun _ => true) (fun _ => 0))
        example_read (fun _ => 0) 0).map (fun d => (d.pos_u, d.pos_v, d.accum 0))
      = [(3, 6, ⟨1, 0⟩)]
    ∧ flush_edge_test
        (example_params_at (1 / 16) (-7 / 16) 1 (fun _ => 0) (fun _ => true) (fun _ => 0))
        3 6 = false
    ∧ ¬ (6 + (2 * (example_params_at (1 / 16) (-7 / 16) 1 (fun _ => 0) (fun _ => true)
          (fun _ => 0)).conv_support + 1)
        < (example_params_at (1 / 16) (-7 / 16) 1 (fun _ => 0) (fun _ => true)
          (fun _ => 0)).ny) := by
  refine ⟨?_, ?_, ?_⟩
  · have hch : (example_params_at (1 / 16) (-7 / 16) 1 (fun _ => 0) (fun _ => true)
        (fun _ => 0)).channel_count = 1 := rfl
    have hne : ¬ (size_mul (example_params_at (1 / 16) (-7 / 16) 1 (fun _ => 0)
        (fun _ => true) (fun _ => 0)).baseline_count
        (conv_full_support_sq (example_params_at (1 / 16) (-7 / 16) 1 (fun _ => 0)
          (fun _ => true) (fun _ => 0))) ≤ 0) := by
      norm_num [conv_full_support_sq, conv_full_support, example_params_at, example_params,
        size_add, size_mul]
    unfold templated_gridder
    rw [if_neg hne, hch]
    simp only [List.range_succ, List.range_zero, List.nil_append, List.flatMap_cons,
      List.flatMap_nil, List.append_nil]
    unfold gridder_channel_loop
    rw [example_at_baseline_rows _ _ 1 (by norm_num)]
    simp only [List.range_succ, List.range_zero, List.nil_append, List.cons_append,
      List.foldl_cons, List.foldl_nil, gridder_row_step, example_edge_position,
      example_edge_contribution, example_at_baseline_rows _ _ 1 (by norm_num)]
    norm_num [row_of, starting_row_index, my_baseline, conv_full_support_sq,
      conv_full_support, channel_enabled, channel_grid_index, flat_indexed_spw_channel,
      flush_edge_test, last_flush_edge_test, flush_call, vis_zero, basic_complex.add,
      example_params_at, example_params, size_add, size_mul, size_sub, grid_size_in_floats]
  · norm_num [flush_edge_test, conv_full_support, example_params_at, example_params,
      size_add, size_mul]
  · norm_num [example_params_at, example_params]

end EdgePolicyClaims

section SquareGrid
variable {R : Type} [LinearOrderedField R] [FloorRing R] {V : Type}

theorem flat_index_lt {r c nx ny : Nat} (hr : r < ny) (hc : c < nx) :
    r * nx + c < nx * ny := by
  have h1 : (r + 1) * nx ≤ ny * nx := Nat.mul_le_mul_right nx hr
  have h2 : (r + 1) * nx = r * nx + nx := by ring
  have h3 : ny * nx = nx * ny := Nat.mul_comm _ _
  omega

/-- Claim C28: on a square grid (`nx = ny`) whose plane can be addressed, every call made
by the three policies for a sample that passes the edge test is made at a row `r < ny`
and a column `c < nx`, with the flat index `chan_offset + (r * nx + c)` and
`r * nx + c < nx * ny`: the taps `(iv + s_v, iu + s_u)` with `1 <= s_u, s_v <= 2 S + 1`
of the pre-computed FIR policy, the taps `(iv + s_v, iu + s_u)` with
`0 <= s_u, s_v < 2 S + 1` of the on-the-fly policy, and the cell `(iv, iu)` of the
nearest-neighbour policy. -/
theorem square_grid_containment (sin : R → R) (pi : R) (p : convolution_policy R)
    (uvw : uvw_coord R) (vis : V) (no_grids_to_offset facet_id : Nat)
    (hsq : p._nx = p._ny) (hfit : p._nx * p._ny ≤ 2 ^ 64)
    (hsup : p._nx + p._convolution_support ≤ 2 ^ 64) :
    (∀ call ∈ (convolve_precomputed_fir p uvw vis no_grids_to_offset facet_id).2,
      ∃ s_u s_v, 1 ≤ s_u ∧ s_u ≤ p._convolution_support
        ∧ 1 ≤ s_v ∧ s_v ≤ p._convolution_support
        ∧ disc_grid_v p uvw + s_v < p._ny ∧ disc_grid_u p uvw + s_u < p._nx
        ∧ call.term_flat_index
          = size_add (size_mul no_grids_to_offset p._cube_chan_dim_step)
              ((disc_grid_v p uvw + s_v) * p._nx + (disc_grid_u p uvw + s_u))
        ∧ (disc_grid_v p uvw + s_v) * p._nx + (disc_grid_u p uvw + s_u) < p._nx * p._ny)
    ∧ (∀ call ∈ (convolve_on_the_fly_computed_fir sin pi p uvw vis no_grids_to_offset
          facet_id).2,
      ∃ s_u s_v, s_u < p._convolution_support ∧ s_v < p._convolution_support
        ∧ disc_grid_v p uvw + s_v < p._ny ∧ disc_grid_u p uvw + s_u < p._nx
        ∧ call.term_flat_index
          = size_add (size_mul no_grids_to_offset p._cube_chan_dim_step)
              ((disc_grid_v p uvw + s_v) * p._nx + (disc_grid_u p uvw + s_u))
        ∧ (disc_grid_v p uvw + s_v) * p._nx + (disc_grid_u p uvw + s_u) < p._nx * p._ny)
    ∧ (∀ call ∈ (convolve_nn p uvw vis no_grids_to_offset facet_id).2,
      nn_disc_grid_v p uvw < p._ny ∧ nn_disc_grid_u p uvw < p._nx
        ∧ call.term_flat_index
          = size_add (size_mul no_grids_to_offset p._cube_chan_dim_step)
              (nn_disc_grid_v p uvw * p._nx + nn_disc_grid_u p uvw)
        ∧ nn_disc_grid_v p uvw * p._nx + nn_disc_grid_u p uvw < p._nx * p._ny) := by
  refine ⟨?_, ?_, ?_⟩
  · intro call hcall
    by_cases he : edge_test p (disc_grid_u p uvw) (disc_grid_v p uvw) = true
    · unfold convolve_precomputed_fir at hcall
      simp only [he, if_true, List.not_mem_nil] at hcall
    · have hedge : edge_test p (disc_grid_u p uvw) (disc_grid_v p uvw) = false := by
        simpa using he
      obtain ⟨he1, he2, he3, he4⟩ := (edge_test_eq_false_iff p _ _).mp hedge
      have hdu : size_add (disc_grid_u p uvw) p._convolution_support
          = disc_grid_u p uvw + p._convolution_support := size_add_of_lt (by omega)
      have hdv : size_add (disc_grid_v p uvw) p._convolution_support
          = disc_grid_v p uvw + p._convolution_support := size_add_of_lt (by omega)
      rw [hdu] at he2
      rw [hdv] at he1
      have hloop := fir_outer_loop_calls p vis
        (size_mul no_grids_to_offset p._cube_chan_dim_step) (disc_grid_u p uvw)
        (float_to_size_t ((frac_u p uvw + 1) * (p._oversampling_factor : R)))
        p._convolution_support
        (float_to_size_t ((frac_v p uvw + 1) * (p._oversampling_factor : R)))
        (size_add (disc_grid_v p uvw) 1 * p._ny) (0, [])
      rw [Nat.mod_eq_of_lt (float_to_size_t_lt _), Nat.mod_eq_of_lt (float_to_size_t_lt _)]
        at hloop
      unfold convolve_precomputed_fir at hcall
      simp only [hedge, Bool.false_eq_true, if_false] at hcall
      have hcall2 : call ∈ (fir_outer_loop p vis
          (size_mul no_grids_to_offset p._cube_chan_dim_step) (disc_grid_u p uvw)
          (float_to_size_t ((frac_u p uvw + 1) * (p._oversampling_factor : R)))
          p._convolution_support
          (float_to_size_t ((frac_v p uvw + 1) * (p._oversampling_factor : R)))
          (size_add (disc_grid_v p uvw) 1 * p._ny % 2 ^ 64) (0, [])).2 := hcall
      rw [hloop] at hcall2
      simp only [List.nil_append, List.mem_flatMap, List.mem_map, List.mem_range] at hcall2
      obtain ⟨j, hj, i, hi, hc⟩ := hcall2
      have h1 : size_add (disc_grid_v p uvw) 1 = disc_grid_v p uvw + 1 :=
        size_add_of_lt (by omega)
      have hr : disc_grid_v p uvw + (1 + j) < p._ny := by omega
      have hcc : disc_grid_u p uvw + (1 + i) < p._nx := by omega
      have hflat := flat_index_lt hr hcc
      have h2 : size_add (disc_grid_u p uvw) (1 + i) = disc_grid_u p uvw + (1 + i) :=
        size_add_of_lt (by omega)
      have h3 : (disc_grid_v p uvw + 1) * p._ny + j * p._ny
          = (disc_grid_v p uvw + (1 + j)) * p._nx := by
        rw [hsq]
        ring
      have h4 : ((disc_grid_v p uvw + (1 + j)) * p._nx) % 2 ^ 64
          = (disc_grid_v p uvw + (1 + j)) * p._nx := Nat.mod_eq_of_lt (by omega)
      have h5 : size_add ((disc_grid_v p uvw + (1 + j)) * p._nx)
          (disc_grid_u p uvw + (1 + i))
          = (disc_grid_v p uvw + (1 + j)) * p._nx + (disc_grid_u p uvw + (1 + i)) :=
        size_add_of_lt (by omega)
      refine ⟨1 + i, 1 + j, by omega, by omega, by omega, by omega, hr, hcc, ?_, hflat⟩
      rw [← hc]
      show size_add _ (size_add (((size_add (disc_grid_v p uvw) 1) * p._ny + j * p._ny)
        % 2 ^ 64) (size_add (disc_grid_u p uvw) (1 + i))) = _
      rw [h1, h2, h3, h4, h5]
  · intro call hcall
    by_cases he : edge_test p (disc_grid_u p uvw) (disc_grid_v p uvw) = true
    · unfold convolve_on_the_fly_computed_fir at hcall
      simp only [he, if_true, List.not_mem_nil] at hcall
    · have hedge : edge_test p (disc_grid_u p uvw) (disc_grid_v p uvw) = false := by
        simpa using he
      obtain ⟨he1, he2, he3, he4⟩ := (edge_test_eq_false_iff p _ _).mp hedge
      have hdu : size_add (disc_grid_u p uvw) p._convolution_support
          = disc_grid_u p uvw + p._convolution_support := size_add_of_lt (by omega)
      have hdv : size_add (disc_grid_v p uvw) p._convolution_support
          = disc_grid_v p uvw + p._convolution_support := size_add_of_lt (by omega)
      rw [hdu] at he2
      rw [hdv] at he1
      unfold convolve_on_the_fly_computed_fir at hcall
      simp only [hedge, Bool.false_eq_true, if_false] at hcall
      rw [otf_outer_loop_calls] at hcall
      simp only [List.nil_append, List.mem_flatMap, List.mem_map, List.mem_range,
        Nat.zero_add] at hcall
      obtain ⟨j, hj, i, hi, hc⟩ := hcall
      have hr : disc_grid_v p uvw + j < p._ny := by omega
      have hcc : disc_grid_u p uvw + i < p._nx := by omega
      have hflat := flat_index_lt hr hcc
      have h1 : size_add (disc_grid_v p uvw) j = disc_grid_v p uvw + j :=
        size_add_of_lt (by omega)
      have h2 : size_add (disc_grid_u p uvw) i = disc_grid_u p uvw + i :=
        size_add_of_lt (by omega)
      have h3 : size_mul (disc_grid_v p uvw + j) p._ny = (disc_grid_v p uvw + j) * p._nx := by
        rw [← hsq]
        exact size_mul_of_lt (by omega)
      have h5 : size_add ((disc_grid_v p uvw + j) * p._nx) (disc_grid_u p uvw + i)
          = (disc_grid_v p uvw + j) * p._nx + (disc_grid_u p uvw + i) :=
        size_add_of_lt (by omega)
      refine ⟨i, j, hi, hj, hr, hcc, ?_, hflat⟩
      rw [← hc]
      show size_add _ (size_add (size_mul (size_add (disc_grid_v p uvw) j) p._ny)
        (size_add (disc_grid_u p uvw) i)) = _
      rw [h1, h2, h3, h5]
  · intro call hcall
    by_cases he : edge_test p (nn_disc_grid_u p uvw) (nn_disc_grid_v p uvw) = true
    · unfold convolve_nn at hcall
      simp only [he, if_true, List.not_mem_nil] at hcall
    · have hedge : edge_test p (nn_disc_grid_u p uvw) (nn_disc_grid_v p uvw) = false := by
        simpa using he
      obtain ⟨_, _, he3, he4⟩ := (edge_test_eq_false_iff p _ _).mp hedge
      have hflat := flat_index_lt he3 he4
      have h3 : size_mul (nn_disc_grid_v p uvw) p._ny = nn_disc_grid_v p uvw * p._nx := by
        rw [← hsq]
        exact size_mul_of_lt (by omega)
      have h5 : size_add (nn_disc_grid_v p uvw * p._nx) (nn_disc_grid_u p uvw)
          = nn_disc_grid_v p uvw * p._nx + nn_disc_grid_u p uvw :=
        size_add_of_lt (by omega)
      unfold convolve_nn at hcall
      simp only [hedge, Bool.false_eq_true, if_false, List.mem_singleton] at hcall
      refine ⟨he3, he4, ?_, hflat⟩
      rw [hcall]
      show size_add _ (size_add (size_mul (nn_disc_grid_v p uvw) p._ny)
        (nn_disc_grid_u p uvw)) = _
      rw [h3, h5]

end SquareGrid

section SquareGridWitness

set_option maxRecDepth 8000 in
/-- Claim C28 at concrete inputs on the 8 x 8 grid with half support 1: the first call of
the pre-computed FIR policy for the sample `(1/2, 1/2)` (cell (3, 3), flat index 27), the
first call of the on-the-fly policy for the sample `(0, 0)` (cell (3, 3), flat index 27)
and the call of the nearest-neighbour policy for the sample `(0, 0)` (cell (4, 4), flat
index 36). -/
theorem square_grid_containment_witness :
    (∃ s_u s_v, 1 ≤ s_u
        ∧ s_u ≤ (convolution_policy.precomputed_fir 8 8 1 1 1
            (fun _ => (1 : ℚ)))._convolution_support
        ∧ 1 ≤ s_v
        ∧ s_v ≤ (convolution_policy.precomputed_fir 8 8 1 1 1
            (fun _ => (1 : ℚ)))._convolution_support
        ∧ disc_grid_v (convolution_policy.precomputed_fir 8 8 1 1 1 (fun _ => (1 : ℚ)))
            ⟨1 / 2, 1 / 2, 0⟩ + s_v
          < (convolution_policy.precomputed_fir 8 8 1 1 1 (fun _ => (1 : ℚ)))._ny
        ∧ disc_grid_u (convolution_policy.precomputed_fir 8 8 1 1 1 (fun _ => (1 : ℚ)))
            ⟨1 / 2, 1 / 2, 0⟩ + s_u
          < (convolution_policy.precomputed_fir 8 8 1 1 1 (fun _ => (1 : ℚ)))._nx
        ∧ (⟨27, 1, 1⟩ : grid_call ℚ ℚ).term_flat_index
          = size_add (size_mul 0 (convolution_policy.precomputed_fir 8 8 1 1 1
                (fun _ => (1 : ℚ)))._cube_chan_dim_step)
              ((disc_grid_v (convolution_policy.precomputed_fir 8 8 1 1 1
                    (fun _ => (1 : ℚ))) ⟨1 / 2, 1 / 2, 0⟩ + s_v)
                  * (convolution_policy.precomputed_fir 8 8 1 1 1
                    (fun _ => (1 : ℚ)))._nx
                + (disc_grid_u (convolution_policy.precomputed_fir 8 8 1 1 1
                    (fun _ => (1 : ℚ))) ⟨1 / 2, 1 / 2, 0⟩ + s_u))
        ∧ (disc_grid_v (convolution_policy.precomputed_fir 8 8 1 1 1
                (fun _ => (1 : ℚ))) ⟨1 / 2, 1 / 2, 0⟩ + s_v)
              * (convolution_policy.precomputed_fir 8 8 1 1 1 (fun _ => (1 : ℚ)))._nx
            + (disc_grid_u (convolution_policy.precomputed_fir 8 8 1 1 1
                (fun _ => (1 : ℚ))) ⟨1 / 2, 1 / 2, 0⟩ + s_u)
          < (convolution_policy.precomputed_fir 8 8 1 1 1 (fun _ => (1 : ℚ)))._nx
            * (convolution_policy.precomputed_fir 8 8 1 1 1 (fun _ => (1 : ℚ)))._ny)
    ∧ (∃ s_u s_v,
        s_u < (convolution_policy.on_the_fly_computed_fir 8 8 1 1 1
            (fun _ => (1 : ℚ)))._convolution_support
        ∧ s_v < (convolution_policy.on_the_fly_computed_fir 8 8 1 1 1
            (fun _ => (1 : ℚ)))._convolution_support
        ∧ disc_grid_v (convolution_policy.on_the_fly_computed_fir 8 8 1 1 1
            (fun _ => (1 : ℚ))) ⟨0, 0, 0⟩ + s_v
          < (convolution_policy.on_the_fly_computed_fir 8 8 1 1 1 (fun _ => (1 : ℚ)))._ny
        ∧ disc_grid_u (convolution_policy.on_the_fly_computed_fir 8 8 1 1 1
            (fun _ => (1 : ℚ))) ⟨0, 0, 0⟩ + s_u
          < (convolution_policy.on_the_fly_computed_fir 8 8 1 1 1 (fun _ => (1 : ℚ)))._nx
        ∧ (⟨27, 1, 1⟩ : grid_call ℚ ℚ).term_flat_index
          = size_add (size_mul 0 (convolution_policy.on_the_fly_computed_fir 8 8 1 1 1
                (fun _ => (1 : ℚ)))._cube_chan_dim_step)
              ((disc_grid_v (convolution_policy.on_the_fly_computed_fir 8 8 1 1 1
                    (fun _ => (1 : ℚ))) ⟨0, 0, 0⟩ + s_v)
                  * (convolution_policy.on_the_fly_computed_fir 8 8 1 1 1
                    (fun _ => (1 : ℚ)))._nx
                + (disc_grid_u (convolution_policy.on_the_fly_computed_fir 8 8 1 1 1
                    (fun _ => (1 : ℚ))) ⟨0, 0, 0⟩ + s_u))
        ∧ (disc_grid_v (convolution_policy.on_the_fly_computed_fir 8 8 1 1 1
                (fun _ => (1 : ℚ))) ⟨0, 0, 0⟩ + s_v)
              * (convolution_policy.on_the_fly_computed_fir 8 8 1 1 1
                (fun _ => (1 : ℚ)))._nx
            + (disc_grid_u (convolution_policy.on_the_fly_computed_fir 8 8 1 1 1
                (fun _ => (1 : ℚ))) ⟨0, 0, 0⟩ + s_u)
          < (convolution_policy.on_the_fly_computed_fir 8 8 1 1 1 (fun _ => (1 : ℚ)))._nx
            * (convolution_policy.on_the_fly_computed_fir 8 8 1 1 1
              (fun _ => (1 : ℚ)))._ny)
    ∧ (nn_disc_grid_v (convolution_policy.nn 8 8 1 1 1 (fun _ => (1 : ℚ)) 0) ⟨0, 0, 0⟩
          < (convolution_policy.nn 8 8 1 1 1 (fun _ => (1 : ℚ)) 0)._ny
        ∧ nn_disc_grid_u (convolution_policy.nn 8 8 1 1 1 (fun _ => (1 : ℚ)) 0) ⟨0, 0, 0⟩
          < (convolution_policy.nn 8 8 1 1 1 (fun _ => (1 : ℚ)) 0)._nx
        ∧ (⟨36, 1, 1⟩ : grid_call ℚ ℚ).term_flat_index
          = size_add (size_mul 0
                (convolution_policy.nn 8 8 1 1 1 (fun _ => (1 : ℚ)) 0)._cube_chan_dim_step)
              (nn_disc_grid_v (convolution_policy.nn 8 8 1 1 1 (fun _ => (1 : ℚ)) 0)
                  ⟨0, 0, 0⟩ * (convolution_policy.nn 8 8 1 1 1 (fun _ => (1 : ℚ)) 0)._nx
                + nn_disc_grid_u (convolution_policy.nn 8 8 1 1 1 (fun _ => (1 : ℚ)) 0)
                  ⟨0, 0, 0⟩)
        ∧ nn_disc_grid_v (convolution_policy.nn 8 8 1 1 1 (fun _ => (1 : ℚ)) 0) ⟨0, 0, 0⟩
              * (convolution_policy.nn 8 8 1 1 1 (fun _ => (1 : ℚ)) 0)._nx
            + nn_disc_grid_u (convolution_policy.nn 8 8 1 1 1 (fun _ => (1 : ℚ)) 0)
              ⟨0, 0, 0⟩
          < (convolution_policy.nn 8 8 1 1 1 (fun _ => (1 : ℚ)) 0)._nx
            * (convolution_policy.nn 8 8 1 1 1 (fun _ => (1 : ℚ)) 0)._ny) :=
  ⟨(square_grid_containment (fun x => x) 3
      (convolution_policy.precomputed_fir 8 8 1 1 1 (fun _ => (1 : ℚ))) ⟨1 / 2, 1 / 2, 0⟩
      (1 : ℚ) 0 0 rfl (by norm_num [convolution_policy.precomputed_fir])
      (by norm_num [convolution_policy.precomputed_fir, size_add, size_mul])).1 ⟨27, 1, 1⟩
      (by
        norm_num [convolve_precomputed_fir, convolution_policy.precomputed_fir, disc_grid_u,
          disc_grid_v, translated_grid_u, translated_grid_v, edge_test, size_add, size_mul,
          to_size_t_natCast, to_size_t_zero, to_size_t_one, to_size_t_ofNat, lrint_zero,
          lrint_one, lrint_ofNat, fir_outer_loop, fir_inner_loop, frac_u, frac_v,
          float_to_size_t]),
    (square_grid_containment (fun x => x) 3
      (convolution_policy.on_the_fly_computed_fir 8 8 1 1 1 (fun _ => (1 : ℚ))) ⟨0, 0, 0⟩
      (1 : ℚ) 0 0 rfl (by norm_num [convolution_policy.on_the_fly_computed_fir])
      (by norm_num [convolution_policy.on_the_fly_computed_fir, size_add, size_mul])).2.1
      ⟨27, 1, 1⟩
      (by
        norm_num [convolve_on_the_fly_computed_fir,
          convolution_policy.on_the_fly_computed_fir, disc_grid_u,
          disc_grid_v, translated_grid_u, translated_grid_v, edge_test, size_add, size_mul,
          to_size_t_natCast, to_size_t_zero, to_size_t_one, to_size_t_ofNat, lrint_zero,
          lrint_one, lrint_ofNat, otf_outer_loop, otf_inner_loop, frac_u, frac_v,
          convolve_lambda]),
    (square_grid_containment (fun x => x) 3
      (convolution_policy.nn 8 8 1 1 1 (fun _ => (1 : ℚ)) 0) ⟨0, 0, 0⟩
      (1 : ℚ) 0 0 rfl (by norm_num [convolution_policy.nn])
      (by norm_num [convolution_policy.nn, size_add, size_mul])).2.2 ⟨36, 1, 1⟩
      (by
        norm_num [convolve_nn, convolution_policy.nn, nn_disc_grid_u, nn_disc_grid_v,
          edge_test, size_add, size_mul, to_size_t_natCast, to_size_t_zero, to_size_t_one,
          to_size_t_ofNat, lrint_zero, lrint_one, lrint_ofNat])⟩

end SquareGridWitness

section Conservation
variable {R : Type} [LinearOrderedField R] [FloorRing R] {n : Nat}

omit [FloorRing R] in
theorem basic_complex.add_assoc (x y z : basic_complex R) :
    (x.add y).add z = x.add (y.add z) := by
  cases x; cases y; cases z
  simp only [basic_complex.add, basic_complex.mk.injEq]
  constructor <;> ring

omit [FloorRing R] in
theorem complex_sum_append (l : List (basic_complex R)) (x : basic_complex R) :
    complex_sum (l ++ [x]) = (complex_sum l).add x := by
  unfold complex_sum
  rw [List.foldl_append]
  rfl

omit [FloorRing R] in
theorem deposited_total_append (ds : List (grid_visibility_call R n))
    (d : grid_visibility_call R n) (k : Fin n) :
    deposited_total (ds ++ [d]) k = (deposited_total ds k).add (d.accum k) := by
  unfold deposited_total
  rw [List.map_append, List.map_singleton, complex_sum_append]

omit [LinearOrderedField R] [FloorRing R] in
theorem row_step_init_fields (cur_u cur_v spw t : Nat) (st : gridder_state R n) :
    (row_step_init cur_u cur_v spw t st).deposits = st.deposits
    ∧ (row_step_init cur_u cur_v spw t st).my_grid_accum = st.my_grid_accum := by
  unfold row_step_init
  split_ifs <;> exact ⟨rfl, rfl⟩

omit [FloorRing R] in
/-- A flush on a change of position that passes its edge test moves the accumulator to
the deposits. -/
theorem row_step_flush_total (params : gridding_parameters R)
    (grid_index cur_u cur_v spw : Nat) (st1 : gridder_state R n)
    (hpass : (cur_u ≠ st1.my_previous_u ∨ cur_v ≠ st1.my_previous_v
        ∨ st1.my_previous_spw ≠ spw) →
      flush_edge_test params st1.my_previous_u st1.my_previous_v = true) (k : Fin n) :
    (deposited_total (row_step_flush params true grid_index cur_u cur_v spw st1).deposits
        k).add ((row_step_flush params true grid_index cur_u cur_v spw st1).my_grid_accum k)
      = (deposited_total st1.deposits k).add (st1.my_grid_accum k) := by
  unfold row_step_flush
  by_cases h : cur_u ≠ st1.my_previous_u ∨ cur_v ≠ st1.my_previous_v
      ∨ st1.my_previous_spw ≠ spw
  · rw [if_pos ⟨h, rfl⟩]
    simp only [hpass h, if_true]
    rw [deposited_total_append]
    exact basic_complex.add_zero _
  · rw [if_neg (fun hc => h hc.1)]

omit [FloorRing R] in
theorem row_step_accumulate_total (contribution : Fin n → basic_complex R)
    (st2 : gridder_state R n) (k : Fin n) :
    (deposited_total (row_step_accumulate contribution st2).deposits k).add
        ((row_step_accumulate contribution st2).my_grid_accum k)
      = ((deposited_total st2.deposits k).add (st2.my_grid_accum k)).add (contribution k) := by
  unfold row_step_accumulate
  exact (basic_complex.add_assoc _ _ _).symm

/-- One row of an enabled channel whose flushes pass their edge tests adds the
contribution of the row to the sum of the deposits and the accumulator; on the last row
the sum is all in the deposits. -/
theorem gridder_row_step_total (to_float : R → R) (arcsec_to_rad : R)
    (params : gridding_parameters R)
    (read_corralation_data : Nat → Nat → Nat → correlation_data R n)
    (shared_mem : Nat → R) (tid c : Nat) (st : gridder_state R n) (t : Nat)
    (hen : channel_enabled params (row_of params tid t) c = true)
    (hpass : row_flushes_pass to_float arcsec_to_rad params read_corralation_data shared_mem tid c
      st t = true) (k : Fin n) :
    (t ≠ size_sub (baseline_num_timestamps params tid) 1 →
      (deposited_total
          (gridder_row_step to_float arcsec_to_rad params read_corralation_data shared_mem tid c st
            t).deposits k).add
          ((gridder_row_step to_float arcsec_to_rad params read_corralation_data shared_mem tid c st
            t).my_grid_accum k)
        = ((deposited_total st.deposits k).add (st.my_grid_accum k)).add
            (row_contribution to_float arcsec_to_rad params read_corralation_data shared_mem tid
              (row_of params tid t) c k))
    ∧ (t = size_sub (baseline_num_timestamps params tid) 1 →
      deposited_total
          (gridder_row_step to_float arcsec_to_rad params read_corralation_data shared_mem tid c st
            t).deposits k
        = ((deposited_total st.deposits k).add (st.my_grid_accum k)).add
            (row_contribution to_float arcsec_to_rad params read_corralation_data shared_mem tid
              (row_of params tid t) c k)) := by
  unfold row_flushes_pass at hpass
  simp only [hen, Bool.and_true, Bool.true_and, Bool.and_eq_true, Bool.or_eq_true,
    Bool.not_eq_true', decide_eq_false_iff_not, decide_eq_true_eq] at hpass
  obtain ⟨h1, h2⟩ := hpass
  obtain ⟨i1, i2⟩ := row_step_init_fields
    (my_current_u to_float arcsec_to_rad params tid (row_of params tid t) c)
    (my_current_v to_float arcsec_to_rad params tid (row_of params tid t) c)
    (params.spw_index_array (row_of params tid t)) t st
  have hflush := row_step_flush_total params
    (channel_grid_index params (row_of params tid t) c)
    (my_current_u to_float arcsec_to_rad params tid (row_of params tid t) c)
    (my_current_v to_float arcsec_to_rad params tid (row_of params tid t) c)
    (params.spw_index_array (row_of params tid t))
    (row_step_init
      (my_current_u to_float arcsec_to_rad params tid (row_of params tid t) c)
      (my_current_v to_float arcsec_to_rad params tid (row_of params tid t) c)
      (params.spw_index_array (row_of params tid t)) t st)
    (fun hc => h1.resolve_left (fun hn => hn hc)) k
  rw [i1, i2] at hflush
  have hacc := row_step_accumulate_total
    (row_contribution to_float arcsec_to_rad params read_corralation_data shared_mem tid
      (row_of params tid t) c)
    (row_step_flush params true (channel_grid_index params (row_of params tid t) c)
      (my_current_u to_float arcsec_to_rad params tid (row_of params tid t) c)
      (my_current_v to_float arcsec_to_rad params tid (row_of params tid t) c)
      (params.spw_index_array (row_of params tid t))
      (row_step_init
        (my_current_u to_float arcsec_to_rad params tid (row_of params tid t) c)
        (my_current_v to_float arcsec_to_rad params tid (row_of params tid t) c)
        (params.spw_index_array (row_of params tid t)) t st)) k
  rw [hflush] at hacc
  rw [gridder_row_step_eq, hen]
  refine ⟨?_, ?_⟩
  · intro hne
    unfold row_step_last_flush
    rw [if_neg (fun hc => hne hc.2)]
    exact hacc
  · intro he
    have hl := h2.resolve_left (fun hn => hn he)
    unfold row_step_last_flush
    rw [if_pos ⟨rfl, he⟩, if_pos hl]
    rw [deposited_total_append]
    exact hacc

/-- Claim C29: for a thread of `templated_gridder`, a baseline with at least one row and
a channel that is enabled for every row of the baseline, if every flush passes its edge
test then, for each correlation, the sum of the values deposited through
`grid_visibility` for that channel is the sum over the rows of the baseline of
`vis * (combined_vis_weight * conv_weight)`. -/
theorem conservation_of_accumulated_visibilities (to_float : R → R) (arcsec_to_rad : R)
    (params : gridding_parameters R)
    (read_corralation_data : Nat → Nat → Nat → correlation_data R n)
    (shared_mem : Nat → R) (tid c : Nat)
    (hrows : 1 ≤ baseline_num_timestamps params tid)
    (hen : ∀ t, t < baseline_num_timestamps params tid →
      channel_enabled params (row_of params tid t) c = true)
    (hpass : every_flush_passes to_float arcsec_to_rad params read_corralation_data shared_mem tid c
      = true) (k : Fin n) :
    deposited_total
        (gridder_channel_loop to_float arcsec_to_rad params read_corralation_data
          shared_mem tid c) k
      = complex_sum ((List.range (baseline_num_timestamps params tid)).map (fun t =>
          row_contribution to_float arcsec_to_rad params read_corralation_data shared_mem tid
            (row_of params tid t) c k)) := by
  obtain ⟨m, hm⟩ : ∃ m, baseline_num_timestamps params tid = m + 1 :=
    ⟨baseline_num_timestamps params tid - 1, by omega⟩
  have hlt : m + 1 < 2 ^ 64 := by
    rw [← hm]
    exact size_sub_lt _ _
  have hlast : size_sub (baseline_num_timestamps params tid) 1 = m := by
    rw [hm]
    exact size_sub_succ_one m hlt
  have hall : ∀ t, t < m + 1 →
      row_flushes_pass to_float arcsec_to_rad params read_corralation_data shared_mem tid c
        ((List.range t).foldl
          (gridder_row_step to_float arcsec_to_rad params read_corralation_data shared_mem tid c)
          ⟨vis_zero, 0, 0, 0, []⟩) t = true := by
    intro t ht
    unfold every_flush_passes at hpass
    rw [hm, List.all_eq_true] at hpass
    exact hpass t (List.mem_range.mpr ht)
  have hinv : ∀ j, j ≤ m →
      (deposited_total ((List.range j).foldl
          (gridder_row_step to_float arcsec_to_rad params read_corralation_data shared_mem tid c)
          ⟨vis_zero, 0, 0, 0, []⟩).deposits k).add
        (((List.range j).foldl
          (gridder_row_step to_float arcsec_to_rad params read_corralation_data shared_mem tid c)
          ⟨vis_zero, 0, 0, 0, []⟩).my_grid_accum k)
        = complex_sum ((List.range j).map (fun t =>
            row_contribution to_float arcsec_to_rad params read_corralation_data shared_mem tid
              (row_of params tid t) c k)) := by
    intro j
    induction j with
    | zero =>
      intro _
      exact basic_complex.add_zero _
    | succ j ih =>
      intro hj
      rw [List.range_succ, List.foldl_append, List.foldl_cons, List.foldl_nil,
        List.map_append, List.map_singleton, complex_sum_append, ← ih (by omega)]
      exact (gridder_row_step_total to_float arcsec_to_rad params read_corralation_data shared_mem
        tid c _ j (hen j (by omega)) (hall j (by omega)) k).1 (by omega)
  unfold gridder_channel_loop
  rw [hm, List.range_succ, List.foldl_append, List.foldl_cons, List.foldl_nil,
    List.map_append, List.map_singleton, complex_sum_append, ← hinv m (le_refl _)]
  exact (gridder_row_step_total to_float arcsec_to_rad params read_corralation_data shared_mem
    tid c _ m (hen m (by omega)) (hall m (by omega)) k).2 hlast.symm

end Conservation

section ConservationWitness

set_option maxRecDepth 8000 in
/-- Claim C29 at a concrete input: the small measurement set with two rows in two
spectral windows, both enabled; the change of spectral window flushes the accumulator at
row 1 and the last row flushes it again, at the cell (3, 3) inside the grid. -/
theorem conservation_of_accumulated_visibilities_witness :
    deposited_total
        (gridder_channel_loop id 1 (example_params 2 (fun r => r) (fun _ => true) (fun i => i))
          example_read (fun _ => 0) 0 0) 0
      = complex_sum ((List.range (baseline_num_timestamps
            (example_params 2 (fun r => r) (fun _ => true) (fun i => i)) 0)).map (fun t =>
          row_contribution id 1 (example_params 2 (fun r => r) (fun _ => true) (fun i => i))
            example_read (fun _ => 0) 0
            (row_of (example_params 2 (fun r => r) (fun _ => true) (fun i => i)) 0 t) 0
            0)) :=
  conservation_of_accumulated_visibilities id 1
    (example_params 2 (fun r => r) (fun _ => true) (fun i => i)) example_read (fun _ => 0)
    0 0
    (by rw [example_baseline_rows 2 (by norm_num)]; norm_num)
    (fun _ _ => rfl)
    (by
      unfold every_flush_passes
      rw [example_baseline_rows 2 (by norm_num)]
      simp only [List.range_succ, List.range_zero, List.nil_append, List.cons_append,
        List.foldl_cons, List.foldl_nil, List.all_cons, List.all_nil, gridder_row_step,
        row_flushes_pass, row_step_init, row_step_flush, row_step_accumulate,
        example_position, example_contribution, example_baseline_rows 2 (by norm_num)]
      norm_num [row_of, starting_row_index, my_baseline, conv_full_support_sq,
        conv_full_support, channel_enabled, channel_grid_index, flat_indexed_spw_channel,
        flush_edge_test, last_flush_edge_test, flush_call, vis_zero, basic_complex.add,
        example_params, size_add, size_mul, size_sub, grid_size_in_floats])
    0

end ConservationWitness

/-! ## Claims C31 - C33 -/

section RotationLemmas

theorem T_spec_mul_transpose (ra d : ℝ) :
    T_spec Real.cos Real.sin ra d * Matrix.transpose (T_spec Real.cos Real.sin ra d) = 1 := by
  have h1 := Real.sin_sq_add_cos_sq ra
  have h2 := Real.sin_sq_add_cos_sq d
  ext i j
  fin_cases i <;> fin_cases j <;>
    simp [-mul_eq_zero, T_spec, Matrix.mul_apply, Fin.sum_univ_three, Matrix.one_apply,
      Matrix.transpose_apply, Matrix.vecHead, Matrix.vecTail] <;>
    first
      | ring1
      | linear_combination h1
      | linear_combination h2
      | linear_combination (Real.sin d ^ 2) * h1 + h2
      | linear_combination (Real.cos d ^ 2) * h1 + h2
      | linear_combination (-(Real.sin d * Real.cos d)) * h1

theorem T_spec_transpose_mul (ra d : ℝ) :
    Matrix.transpose (T_spec Real.cos Real.sin ra d) * T_spec Real.cos Real.sin ra d = 1 :=
  Matrix.mul_eq_one_comm.mp (T_spec_mul_transpose ra d)

theorem Z_spec_mul_transpose (a : ℝ) :
    Z_spec Real.cos Real.sin a * Matrix.transpose (Z_spec Real.cos Real.sin a) = 1 := by
  have h1 := Real.sin_sq_add_cos_sq a
  ext i j
  fin_cases i <;> fin_cases j <;>
    simp [-mul_eq_zero, Z_spec, Matrix.mul_apply, Fin.sum_univ_three, Matrix.one_apply,
      Matrix.transpose_apply, Matrix.vecHead, Matrix.vecTail] <;>
    first | ring1 | linear_combination h1

theorem Z_spec_transpose_mul (a : ℝ) :
    Matrix.transpose (Z_spec Real.cos Real.sin a) * Z_spec Real.cos Real.sin a = 1 :=
  Matrix.mul_eq_one_comm.mp (Z_spec_mul_transpose a)

/-- The matrix computed by the left-handed constructor, as a product of the matrices of
the specification. -/
theorem full_transform_eq_spec (a_new a_old ra_old dec_old ra_new dec_new : ℝ) :
    full_transform Real.cos Real.sin a_new a_old ra_old dec_old ra_new dec_new
      = Z_spec Real.cos Real.sin a_new * T_spec Real.cos Real.sin ra_new dec_new
          * Matrix.transpose (T_spec Real.cos Real.sin ra_old dec_old)
          * Matrix.transpose (Z_spec Real.cos Real.sin a_old) := by
  unfold full_transform
  rw [TT_transpose_eq, z_rot_transpose_eq]
  have hz : z_rot Real.cos Real.sin a_new = Z_spec Real.cos Real.sin a_new := rfl
  rw [hz, Matrix.mul_assoc, Matrix.mul_assoc, Matrix.mul_assoc]

/-- The matrix built with the centres and the rotations swapped is the transpose. -/
theorem full_transform_swap (a_new a_old ra_old dec_old ra_new dec_new : ℝ) :
    full_transform Real.cos Real.sin a_old a_new ra_new dec_new ra_old dec_old
      = Matrix.transpose
          (full_transform Real.cos Real.sin a_new a_old ra_old dec_old ra_new dec_new) := by
  rw [full_transform_eq_spec, full_transform_eq_spec]
  simp only [Matrix.transpose_mul, Matrix.transpose_transpose, Matrix.mul_assoc]

theorem orthogonal_mul {A B : Matrix (Fin 3) (Fin 3) ℝ}
    (hA : A * Matrix.transpose A = 1) (hB : B * Matrix.transpose B = 1) :
    (A * B) * Matrix.transpose (A * B) = 1 := by
  rw [Matrix.transpose_mul, Matrix.mul_assoc, ← Matrix.mul_assoc B, hB, Matrix.one_mul, hA]

theorem full_transform_mul_transpose (a_new a_old ra_old dec_old ra_new dec_new : ℝ) :
    full_transform Real.cos Real.sin a_new a_old ra_old dec_old ra_new dec_new
      * Matrix.transpose
          (full_transform Real.cos Real.sin a_new a_old ra_old dec_old ra_new dec_new)
      = 1 := by
  rw [full_transform_eq_spec]
  refine orthogonal_mul (orthogonal_mul (orthogonal_mul (Z_spec_mul_transpose a_new)
    (T_spec_mul_transpose ra_new dec_new)) ?_) ?_
  · rw [Matrix.transpose_transpose]
    exact T_spec_transpose_mul ra_old dec_old
  · rw [Matrix.transpose_transpose]
    exact Z_spec_transpose_mul a_old

theorem full_transform_transpose_mul (a_new a_old ra_old dec_old ra_new dec_new : ℝ) :
    Matrix.transpose
        (full_transform Real.cos Real.sin a_new a_old ra_old dec_old ra_new dec_new)
      * full_transform Real.cos Real.sin a_new a_old ra_old dec_old ra_new dec_new
      = 1 :=
  Matrix.mul_eq_one_comm.mp (full_transform_mul_transpose _ _ _ _ _ _)

/-- The nine stored coefficients, read as a row-major 3 x 3 matrix, are the matrix
computed by the constructor. -/
theorem stored_matrix_eq {R : Type} [CommRing R] (cos sin : R → R)
    (a_new a_old ra_old dec_old ra_new dec_new : R) :
    stored_matrix (baseline_transform_policy.lefthanded_ra_dec cos sin a_new a_old ra_old
        dec_old ra_new dec_new)
      = full_transform cos sin a_new a_old ra_old dec_old ra_new dec_new := by
  ext i j
  fin_cases i <;> fin_cases j <;> rfl

/-- A matrix with `transpose M * M = 1` preserves the sum of the squares. -/
theorem sum_squares_of_orthogonal (M : Matrix (Fin 3) (Fin 3) ℝ)
    (h : Matrix.transpose M * M = 1) (u v w : ℝ) :
    (M 0 0 * u + M 0 1 * v + M 0 2 * w) ^ 2 + (M 1 0 * u + M 1 1 * v + M 1 2 * w) ^ 2
        + (M 2 0 * u + M 2 1 * v + M 2 2 * w) ^ 2
      = u ^ 2 + v ^ 2 + w ^ 2 := by
  have e00 := congrFun (congrFun h 0) 0
  have e11 := congrFun (congrFun h 1) 1
  have e22 := congrFun (congrFun h 2) 2
  have e01 := congrFun (congrFun h 0) 1
  have e02 := congrFun (congrFun h 0) 2
  have e12 := congrFun (congrFun h 1) 2
  rw [Matrix.one_apply_eq] at e00 e11 e22
  rw [Matrix.one_apply_ne (by decide)] at e01 e02 e12
  simp only [Matrix.mul_apply, Fin.sum_univ_three, Matrix.transpose_apply]
    at e00 e11 e22 e01 e02 e12
  linear_combination u ^ 2 * e00 + v ^ 2 * e11 + w ^ 2 * e22 + 2 * u * v * e01
    + 2 * u * w * e02 + 2 * v * w * e12

/-- Applying `M` and then a left inverse `N` of `M` returns the vector. -/
theorem round_trip_of_left_inverse (M N : Matrix (Fin 3) (Fin 3) ℝ) (h : N * M = 1)
    (u v w : ℝ) :
    N 0 0 * (M 0 0 * u + M 0 1 * v + M 0 2 * w)
        + N 0 1 * (M 1 0 * u + M 1 1 * v + M 1 2 * w)
        + N 0 2 * (M 2 0 * u + M 2 1 * v + M 2 2 * w) = u
    ∧ N 1 0 * (M 0 0 * u + M 0 1 * v + M 0 2 * w)
        + N 1 1 * (M 1 0 * u + M 1 1 * v + M 1 2 * w)
        + N 1 2 * (M 2 0 * u + M 2 1 * v + M 2 2 * w) = v
    ∧ N 2 0 * (M 0 0 * u + M 0 1 * v + M 0 2 * w)
        + N 2 1 * (M 1 0 * u + M 1 1 * v + M 1 2 * w)
        + N 2 2 * (M 2 0 * u + M 2 1 * v + M 2 2 * w) = w := by
  have e00 := congrFun (congrFun h 0) 0
  have e01 := congrFun (congrFun h 0) 1
  have e02 := congrFun (congrFun h 0) 2
  have e10 := congrFun (congrFun h 1) 0
  have e11 := congrFun (congrFun h 1) 1
  have e12 := congrFun (congrFun h 1) 2
  have e20 := congrFun (congrFun h 2) 0
  have e21 := congrFun (congrFun h 2) 1
  have e22 := congrFun (congrFun h 2) 2
  rw [Matrix.one_apply_eq] at e00 e11 e22
  rw [Matrix.one_apply_ne (by decide)] at e01 e02 e10 e12 e20 e21
  simp only [Matrix.mul_apply, Fin.sum_univ_three] at e00 e01 e02 e10 e11 e12 e20 e21 e22
  refine ⟨?_, ?_, ?_⟩
  · linear_combination u * e00 + v * e01 + w * e02
  · linear_combination u * e10 + v * e11 + w * e12
  · linear_combination u * e20 + v * e21 + w * e22

end RotationLemmas

section RotationClaims

theorem det_T_spec (ra d : ℝ) : Matrix.det (T_spec Real.cos Real.sin ra d) = -1 := by
  have h1 := Real.sin_sq_add_cos_sq ra
  have h2 := Real.sin_sq_add_cos_sq d
  rw [Matrix.det_fin_three]
  simp [T_spec, Matrix.vecHead, Matrix.vecTail]
  linear_combination (-(Real.sin d ^ 2 + Real.cos d ^ 2)) * h1 - h2

theorem det_Z_spec (a : ℝ) : Matrix.det (Z_spec Real.cos Real.sin a) = 1 := by
  have h1 := Real.sin_sq_add_cos_sq a
  rw [Matrix.det_fin_three]
  simp [Z_spec, Matrix.vecHead, Matrix.vecTail]
  linear_combination h1

/-- Claim C31: over the reals, for all facet centres and rotations, the matrix `M` stored
by the left-handed constructor satisfies `M * transpose M = 1` and has determinant 1, and
`transform` preserves the length of the baseline:
`u'^2 + v'^2 + w'^2 = u^2 + v^2 + w^2` for every `(u, v, w)`. -/
theorem baseline_transform_is_rotation (a_new a_old ra_old dec_old ra_new dec_new : ℝ) :
    stored_matrix (baseline_transform_policy.lefthanded_ra_dec Real.cos Real.sin a_new a_old
          ra_old dec_old ra_new dec_new)
        * Matrix.transpose (stored_matrix (baseline_transform_policy.lefthanded_ra_dec
            Real.cos Real.sin a_new a_old ra_old dec_old ra_new dec_new)) = 1
    ∧ Matrix.det (stored_matrix (baseline_transform_policy.lefthanded_ra_dec Real.cos
        Real.sin a_new a_old ra_old dec_old ra_new dec_new)) = 1
    ∧ ∀ b : uvw_coord ℝ,
        ((baseline_transform_policy.lefthanded_ra_dec Real.cos Real.sin a_new a_old ra_old
            dec_old ra_new dec_new).transform b)._u ^ 2
          + ((baseline_transform_policy.lefthanded_ra_dec Real.cos Real.sin a_new a_old
            ra_old dec_old ra_new dec_new).transform b)._v ^ 2
          + ((baseline_transform_policy.lefthanded_ra_dec Real.cos Real.sin a_new a_old
            ra_old dec_old ra_new dec_new).transform b)._w ^ 2
        = b._u ^ 2 + b._v ^ 2 + b._w ^ 2 := by
  refine ⟨?_, ?_, ?_⟩
  · rw [stored_matrix_eq]
    exact full_transform_mul_transpose _ _ _ _ _ _
  · rw [stored_matrix_eq, full_transform_eq_spec, Matrix.det_mul, Matrix.det_mul,
      Matrix.det_mul, Matrix.det_transpose, Matrix.det_transpose, det_Z_spec, det_Z_spec,
      det_T_spec, det_T_spec]
    norm_num
  · intro b
    rw [transform_lefthanded]
    exact sum_squares_of_orthogonal _ (full_transform_transpose_mul _ _ _ _ _ _) _ _ _

/-- Claim C32: over the reals, the left-handed transform built for the old and the new
centre with the rotations `a_old` and `a_new`, followed by the transform built with the
two centres swapped and the two rotations swapped, returns the original `(u, v, w)`. -/
theorem facet_round_trip (a_new a_old ra_old dec_old ra_new dec_new : ℝ)
    (b : uvw_coord ℝ) :
    (baseline_transform_policy.lefthanded_ra_dec Real.cos Real.sin a_old a_new ra_new
        dec_new ra_old dec_old).transform
      ((baseline_transform_policy.lefthanded_ra_dec Real.cos Real.sin a_new a_old ra_old
        dec_old ra_new dec_new).transform b) = b := by
  obtain ⟨h1, h2, h3⟩ := round_trip_of_left_inverse
    (full_transform Real.cos Real.sin a_new a_old ra_old dec_old ra_new dec_new)
    (Matrix.transpose
      (full_transform Real.cos Real.sin a_new a_old ra_old dec_old ra_new dec_new))
    (full_transform_transpose_mul _ _ _ _ _ _) b._u b._v b._w
  rw [transform_lefthanded, transform_lefthanded, full_transform_swap]
  cases b
  simp only [uvw_coord.mk.injEq]
  exact ⟨h1, h2, h3⟩

end RotationClaims

section KernelDisplacement
variable {R : Type} [LinearOrderedField R] [FloorRing R] {V : Type}

/-- A whole number of kernel strides can be moved inside the floor. -/
theorem floor_phase_add (f : R) (O k : Nat) (hf : 0 ≤ f + 1) :
    Nat.floor ((f + 1) * (O : R)) + k * O = Nat.floor ((f + 1 + (k : R)) * (O : R)) := by
  have e : (f + 1 + (k : R)) * (O : R) = (f + 1) * (O : R) + ((k * O : Nat) : R) := by
    push_cast
    ring
  rw [e, Nat.floor_add_nat (mul_nonneg hf (Nat.cast_nonneg O))]

omit [FloorRing R] in
/-- The centring offset of the pre-computed FIR policy is `S + 3/2`. -/
theorem precomputed_fir_offset (nx ny no_polarizations S O : Nat) (conv : Nat → R)
    (hS : 2 * S + 1 < 2 ^ 63) :
    (convolution_policy.precomputed_fir nx ny no_polarizations S O conv)._conv_centre_offset
      = (S : R) + 3 / 2 := by
  have h1 : size_add (size_mul S 2) 1 = 2 * S + 1 := full_support_eq (by omega)
  have h2 : size_add (2 * S + 1) 2 = 2 * S + 3 := size_add_of_lt (by omega)
  show ((size_add (size_add (size_mul S 2) 1) 2 : Nat) : R) / 2 = _
  rw [h1, h2]
  push_cast
  ring

/-- The fractional offset plus the tap number is the displacement of the tap's cell from
the continuous position of the sample, plus `S + 3/2`. -/
theorem frac_add_tap (nx ny no_polarizations S O : Nat) (conv : Nat → R)
    (p : convolution_policy R) (uvw : uvw_coord R)
    (hp : p = convolution_policy.precomputed_fir nx ny no_polarizations S O conv)
    (hS : 2 * S + 1 < 2 ^ 63) (s : Nat) :
    frac_u p uvw + (s : R)
        = ((disc_grid_u p uvw + s : Nat) : R) - (uvw._u + ((nx / 2 : Nat) : R)) + (S : R)
          + 3 / 2
    ∧ frac_v p uvw + (s : R)
        = ((disc_grid_v p uvw + s : Nat) : R) - (uvw._v + ((ny / 2 : Nat) : R)) + (S : R)
          + 3 / 2 := by
  have hoff : p._conv_centre_offset = (S : R) + 3 / 2 := by
    rw [hp]
    exact precomputed_fir_offset nx ny no_polarizations S O conv hS
  have hcu : p._grid_u_centre = ((nx / 2 : Nat) : R) := by rw [hp]; rfl
  have hcv : p._grid_v_centre = ((ny / 2 : Nat) : R) := by rw [hp]; rfl
  constructor
  · unfold frac_u translated_grid_u
    rw [hoff, hcu]
    push_cast
    ring
  · unfold frac_v translated_grid_v
    rw [hoff, hcv]
    push_cast
    ring

/-- Claim C33: in the pre-computed FIR `convolve`, for a sample that is not on the edge,
the tap written at column `c = iu + s_u` and row `r = iv + s_v` (`s_u, s_v` in
`[1, 2 S + 1]`) has the weight `K[floor((c - (u + floor(nx/2)) + S + 3/2) * O)]
* K[floor((r - (v + floor(ny/2)) + S + 3/2) * O)]`; for every tap number `s >= 1`,
`floor((f + 1) * O) + (s - 1) * O = floor((f + s) * O)` and `f + s` is the displacement
of the tap's cell from the continuous position of the sample plus `S + 3/2`, in `u` and
in `v`. The kernel length `(2 S + 3) O` fits in a `size_t`, the grid sizes are at most
`2 ^ 63` and the translated coordinates are in the range of `long`. -/
theorem kernel_sample_follows_displacement (nx ny no_polarizations S O : Nat)
    (conv : Nat → R) (p : convolution_policy R) (uvw : uvw_coord R) (vis : V)
    (no_grids_to_offset facet_id : Nat)
    (hp : p = convolution_policy.precomputed_fir nx ny no_polarizations S O conv)
    (hK : (2 * S + 3) * O ≤ 2 ^ 64) (hS : 2 * S + 1 < 2 ^ 63)
    (hnx : nx ≤ 2 ^ 63) (hny : ny ≤ 2 ^ 63)
    (hu : in_long_range (translated_grid_u p uvw))
    (hv : in_long_range (translated_grid_v p uvw))
    (hedge : edge_test p (disc_grid_u p uvw) (disc_grid_v p uvw) = false) :
    (convolve_precomputed_fir p uvw vis no_grids_to_offset facet_id).2
      = (List.range' 1 (2 * S + 1)).flatMap (fun s_v =>
          (List.range' 1 (2 * S + 1)).map (fun s_u =>
            (⟨size_add (size_mul no_grids_to_offset p._cube_chan_dim_step)
                (size_add (size_mul (disc_grid_v p uvw + s_v) ny) (disc_grid_u p uvw + s_u)),
              vis,
              conv (Nat.floor ((((disc_grid_u p uvw + s_u : Nat) : R)
                    - (uvw._u + ((nx / 2 : Nat) : R)) + (S : R) + 3 / 2) * (O : R)))
                * conv (Nat.floor ((((disc_grid_v p uvw + s_v : Nat) : R)
                    - (uvw._v + ((ny / 2 : Nat) : R)) + (S : R) + 3 / 2) * (O : R)))⟩ :
              grid_call R V)))
    ∧ ∀ s : Nat, 1 ≤ s →
        (Nat.floor ((frac_u p uvw + 1) * (O : R)) + (s - 1) * O
            = Nat.floor ((frac_u p uvw + (s : R)) * (O : R))
          ∧ frac_u p uvw + (s : R)
            = ((disc_grid_u p uvw + s : Nat) : R) - (uvw._u + ((nx / 2 : Nat) : R))
              + (S : R) + 3 / 2)
        ∧ (Nat.floor ((frac_v p uvw + 1) * (O : R)) + (s - 1) * O
            = Nat.floor ((frac_v p uvw + (s : R)) * (O : R))
          ∧ frac_v p uvw + (s : R)
            = ((disc_grid_v p uvw + s : Nat) : R) - (uvw._v + ((ny / 2 : Nat) : R))
              + (S : R) + 3 / 2) := by
  have hsup : p._convolution_support = 2 * S + 1 := by
    rw [hp]
    exact full_support_eq (by omega)
  have hpnx : p._nx = nx := by rw [hp]; rfl
  have hpny : p._ny = ny := by rw [hp]; rfl
  have hpO : p._oversampling_factor = O := by rw [hp]; rfl
  have hpK : p._conv = conv := by rw [hp]; rfl
  obtain ⟨he1, he2, he3, he4⟩ := (edge_test_eq_false_iff p _ _).mp hedge
  rw [hsup, hpny] at he1
  rw [hsup, hpnx] at he2
  rw [hpny] at he3
  rw [hpnx] at he4
  have hdu : size_add (disc_grid_u p uvw) (2 * S + 1) = disc_grid_u p uvw + (2 * S + 1) :=
    size_add_of_lt (by omega)
  have hdv : size_add (disc_grid_v p uvw) (2 * S + 1) = disc_grid_v p uvw + (2 * S + 1) :=
    size_add_of_lt (by omega)
  rw [hdu] at he2
  rw [hdv] at he1
  have hfu := frac_bounds (translated_grid_u p uvw) nx hu hnx he4
  have hfv := frac_bounds (translated_grid_v p uvw) ny hv hny he3
  have hfu0 : 0 ≤ frac_u p uvw + 1 := by
    have := hfu.1
    unfold frac_u disc_grid_u
    linarith
  have hfv0 : 0 ≤ frac_v p uvw + 1 := by
    have := hfv.1
    unfold frac_v disc_grid_v
    linarith
  obtain ⟨⟨hcu, hcu2⟩, ⟨hcv, hcv2⟩⟩ := fir_phase_facts nx ny no_polarizations S O conv p uvw
    hp hK hS hnx hny hu hv hedge
  have hshift : ∀ (f : R) (i : Nat), 0 ≤ f + 1 →
      Nat.floor ((f + 1) * (O : R)) + i * O = Nat.floor ((f + ((1 + i : Nat) : R)) * (O : R)) := by
    intro f i hf
    rw [floor_phase_add f O i hf]
    congr 2
    push_cast
    ring
  refine ⟨?_, ?_⟩
  · have hloop := fir_outer_loop_calls p vis
      (size_mul no_grids_to_offset p._cube_chan_dim_step)
      (disc_grid_u p uvw)
      (float_to_size_t ((frac_u p uvw + 1) * (p._oversampling_factor : R)))
      p._convolution_support
      (float_to_size_t ((frac_v p uvw + 1) * (p._oversampling_factor : R)))
      (size_add (disc_grid_v p uvw) 1 * p._ny) (0, [])
    rw [Nat.mod_eq_of_lt (float_to_size_t_lt _), Nat.mod_eq_of_lt (float_to_size_t_lt _)]
      at hloop
    unfold convolve_precomputed_fir
    simp only [hedge, Bool.false_eq_true, if_false]
    unfold size_mul at hloop ⊢
    rw [hloop]
    simp only [List.nil_append, hsup, hpO, hpny, hpK, hcu, hcv, List.range'_eq_map_range,
      List.flatMap_map, List.map_map]
    apply List.flatMap_congr
    intro j hj
    apply List.map_congr_left
    intro i hi
    have hj' : j < 2 * S + 1 := List.mem_range.mp hj
    have hi' : i < 2 * S + 1 := List.mem_range.mp hi
    simp only [Function.comp]
    rw [stride_index_no_wrap S O _ i hK hcu2 hi', stride_index_no_wrap S O _ j hK hcv2 hj']
    have e1 : size_add (disc_grid_v p uvw) 1 = disc_grid_v p uvw + 1 :=
      size_add_of_lt (by omega)
    have e2 : size_add (disc_grid_u p uvw) (1 + i) = disc_grid_u p uvw + (1 + i) :=
      size_add_of_lt (by omega)
    have e3 : (disc_grid_v p uvw + 1) * ny + j * ny = (disc_grid_v p uvw + (1 + j)) * ny := by
      ring
    rw [e1, e2, e3, hshift _ i hfu0, hshift _ j hfv0,
      (frac_add_tap nx ny no_polarizations S O conv p uvw hp hS (1 + i)).1,
      (frac_add_tap nx ny no_polarizations S O conv p uvw hp hS (1 + j)).2]
  · intro s hs
    obtain ⟨k, rfl⟩ : ∃ k, s = 1 + k := ⟨s - 1, by omega⟩
    have hk : 1 + k - 1 = k := by omega
    rw [hk]
    exact ⟨⟨hshift _ k hfu0,
        (frac_add_tap nx ny no_polarizations S O conv p uvw hp hS (1 + k)).1⟩,
      ⟨hshift _ k hfv0,
        (frac_add_tap nx ny no_polarizations S O conv p uvw hp hS (1 + k)).2⟩⟩

end KernelDisplacement

section KernelDisplacementWitness

/-- Claim C33 at a concrete input: the nine deposits for an 8 x 8 grid, `S = 1`, `O = 2`,
`K[i] = i` and the sample `(1/2, 1/2)`, whose taps read the kernel at 2, 4 and 6 in each
direction, and the identities for the tap number 2. -/
theorem kernel_sample_follows_displacement_witness :
    (convolve_precomputed_fir
        (convolution_policy.precomputed_fir 8 8 1 1 2 (fun i => (i : ℚ)))
        ⟨1 / 2, 1 / 2, 0⟩ (1 : ℚ) 0 0).2
      = [⟨27, 1, 4⟩, ⟨28, 1, 8⟩, ⟨29, 1, 12⟩, ⟨35, 1, 8⟩, ⟨36, 1, 16⟩, ⟨37, 1, 24⟩,
          ⟨43, 1, 12⟩, ⟨44, 1, 24⟩, ⟨45, 1, 36⟩]
    ∧ (Nat.floor ((frac_u (convolution_policy.precomputed_fir 8 8 1 1 2 (fun i => (i : ℚ)))
              ⟨1 / 2, 1 / 2, 0⟩ + 1) * ((2 : Nat) : ℚ)) + (2 - 1) * 2
          = Nat.floor ((frac_u (convolution_policy.precomputed_fir 8 8 1 1 2
              (fun i => (i : ℚ))) ⟨1 / 2, 1 / 2, 0⟩ + ((2 : Nat) : ℚ)) * ((2 : Nat) : ℚ))
        ∧ frac_u (convolution_policy.precomputed_fir 8 8 1 1 2 (fun i => (i : ℚ)))
              ⟨1 / 2, 1 / 2, 0⟩ + ((2 : Nat) : ℚ)
          = ((disc_grid_u (convolution_policy.precomputed_fir 8 8 1 1 2 (fun i => (i : ℚ)))
                ⟨1 / 2, 1 / 2, 0⟩ + 2 : Nat) : ℚ)
              - ((⟨1 / 2, 1 / 2, 0⟩ : uvw_coord ℚ)._u + ((8 / 2 : Nat) : ℚ))
              + ((1 : Nat) : ℚ) + 3 / 2)
    ∧ (Nat.floor ((frac_v (convolution_policy.precomputed_fir 8 8 1 1 2 (fun i => (i : ℚ)))
              ⟨1 / 2, 1 / 2, 0⟩ + 1) * ((2 : Nat) : ℚ)) + (2 - 1) * 2
          = Nat.floor ((frac_v (convolution_policy.precomputed_fir 8 8 1 1 2
              (fun i => (i : ℚ))) ⟨1 / 2, 1 / 2, 0⟩ + ((2 : Nat) : ℚ)) * ((2 : Nat) : ℚ))
        ∧ frac_v (convolution_policy.precomputed_fir 8 8 1 1 2 (fun i => (i : ℚ)))
              ⟨1 / 2, 1 / 2, 0⟩ + ((2 : Nat) : ℚ)
          = ((disc_grid_v (convolution_policy.precomputed_fir 8 8 1 1 2 (fun i => (i : ℚ)))
                ⟨1 / 2, 1 / 2, 0⟩ + 2 : Nat) : ℚ)
              - ((⟨1 / 2, 1 / 2, 0⟩ : uvw_coord ℚ)._v + ((8 / 2 : Nat) : ℚ))
              + ((1 : Nat) : ℚ) + 3 / 2) :=
  have h := kernel_sample_follows_displacement 8 8 1 1 2 (fun i => (i : ℚ))
    (convolution_policy.precomputed_fir 8 8 1 1 2 (fun i => (i : ℚ)))
    ⟨1 / 2, 1 / 2, 0⟩ (1 : ℚ) 0 0 rfl (by norm_num) (by norm_num) (by norm_num)
    (by norm_num)
    (by norm_num [in_long_range, translated_grid_u, convolution_policy.precomputed_fir,
      size_add, size_mul])
    (by norm_num [in_long_range, translated_grid_v, convolution_policy.precomputed_fir,
      size_add, size_mul])
    (by norm_num [edge_test, convolution_policy.precomputed_fir, disc_grid_u,
      disc_grid_v, translated_grid_u, translated_grid_v, size_add, size_mul,
      to_size_t_natCast, to_size_t_zero, to_size_t_one, to_size_t_ofNat, lrint_zero,
      lrint_one, lrint_ofNat])
  ⟨h.1.trans
      (by
        norm_num [List.range', convolution_policy.precomputed_fir, disc_grid_u,
          disc_grid_v, translated_grid_u, translated_grid_v, size_add, size_mul,
          to_size_t_natCast, to_size_t_zero, to_size_t_one, to_size_t_ofNat, lrint_zero,
          lrint_one, lrint_ofNat]),
    (h.2 2 (by norm_num)).1, (h.2 2 (by norm_num)).2⟩

end KernelDisplacementWitness

end imaging
